import Mathlib

/-!
# PLDM responder: PDR queries and chunked DMA transfers

A shallow embedding of `common/utils.cpp` (the PDR query functions,
`parseEffecterData`, `getNumPadBytes`, `uintToDate` and `split`) and of
`oem/ibm/libpldmresponder/file_io.hpp` (`dma::transferAll`).

Conventions of the embedding:

* A PDR byte buffer is a `List Nat` of byte values. The C code reads the buffer
  through packed structs; here a field read is a read of one or two bytes at the
  field offset (16-bit fields in host order, little endian on the BMC).
* C does not check bounds. A read at an index outside the buffer yields `0`
  here, so every function is total. `compositeLoop.reads` gives the offsets a
  traversal visits and `ReadsInside` tells whether it stays inside the buffer;
  what is proved about corrupt records is restricted to such traversals. The
  concrete inputs at which the functions are evaluated below never read
  outside a buffer; the one exception,
  `findStateEffecterPDR_leaves_corrupt_record`, exhibits a traversal that
  does.
* A string (`std::string_view`) is a `List Char`, and `npos` is `none`.
* The PDR repository is the list of its records in repository order. The loop
  `do { record = pldm_pdr_find_record_by_type(repo, T, record, ..) .. } while (record)`
  visits the records of type `T` in that order, and is written as a recursion
  over the list that passes over records of another type.
-/

namespace pldm
namespace utils

/-! ## Declarations of libpldm used by the sources -/

/-- Modelled from the spec: the record type tag STATE_SENSOR_PDR of section 3
(`PLDM_STATE_SENSOR_PDR` of `libpldm/platform.h`, not among the sources). -/
def PLDM_STATE_SENSOR_PDR : Nat := 4

/-- Modelled from the spec: the record type tag STATE_EFFECTER_PDR of section 3
(`PLDM_STATE_EFFECTER_PDR` of `libpldm/platform.h`, not among the sources). -/
def PLDM_STATE_EFFECTER_PDR : Nat := 11

/-- Modelled from the spec: the reserved "not found" identifier of sections 4.1
and 6 (`PLDM_INVALID_EFFECTER_ID` of `libpldm/platform.h`, not among the
sources). -/
def PLDM_INVALID_EFFECTER_ID : Nat := 0xFFFF

/-- Modelled from the spec: a PdrRecord of section 3, "a byte buffer tagged with
a record type", together with the is-remote flag of section 6
(`pldm_pdr_record` of `libpldm/pdr.c`, not among the sources). `data` holds the
`size` bytes of the record. -/
structure pldm_pdr_record where
  pdr_type : Nat
  is_remote : Bool
  data : List Nat
  deriving DecidableEq, Repr

/-- Modelled from the spec: `isRemote(record)` of section 6
(`pldm_pdr_record_is_remote` of `libpldm/pdr.c`, not among the sources). -/
def pldm_pdr_record_is_remote (record : pldm_pdr_record) : Bool :=
  record.is_remote

/-- One byte of a buffer; `0` outside the buffer. -/
def u8At (buf : List Nat) (i : Nat) : Nat := buf.getD i 0

/-- A 16-bit field of a packed struct, in host (little endian) order. -/
def u16At (buf : List Nat) (i : Nat) : Nat := u8At buf i + 256 * u8At buf (i + 1)

/-- Modelled from the spec: the parsed view StateEffecterPdr of section 3
(packed struct `pldm_state_effecter_pdr` of `libpldm/platform.h`, not among the
sources): a 10 byte common header, terminus_handle, effecter_id, entity_type,
entity_instance, container_id, effecter_semantic_id, effecter_init,
has_description_pdr, composite_effecter_count, possible_states. -/
structure pldm_state_effecter_pdr where
  buf : List Nat
  deriving DecidableEq, Repr

namespace pldm_state_effecter_pdr

def effecter_id (pdr : pldm_state_effecter_pdr) : Nat := u16At pdr.buf 12
def entity_type (pdr : pldm_state_effecter_pdr) : Nat := u16At pdr.buf 14
def entity_instance (pdr : pldm_state_effecter_pdr) : Nat := u16At pdr.buf 16
def container_id (pdr : pldm_state_effecter_pdr) : Nat := u16At pdr.buf 18
def composite_effecter_count (pdr : pldm_state_effecter_pdr) : Nat := u8At pdr.buf 24
/-- Offset of the flexible member `possible_states` in the buffer. -/
def possible_states (_pdr : pldm_state_effecter_pdr) : Nat := 25

end pldm_state_effecter_pdr

/-- Modelled from the spec: the parsed view StateSensorPdr of section 3
(packed struct `pldm_state_sensor_pdr` of `libpldm/platform.h`, not among the
sources): a 10 byte common header, terminus_handle, sensor_id, entity_type,
entity_instance, container_id, sensor_init, sensor_auxiliary_names_pdr,
composite_sensor_count, possible_states. -/
structure pldm_state_sensor_pdr where
  buf : List Nat
  deriving DecidableEq, Repr

namespace pldm_state_sensor_pdr

def sensor_id (pdr : pldm_state_sensor_pdr) : Nat := u16At pdr.buf 12
def entity_type (pdr : pldm_state_sensor_pdr) : Nat := u16At pdr.buf 14
def entity_instance (pdr : pldm_state_sensor_pdr) : Nat := u16At pdr.buf 16
def container_id (pdr : pldm_state_sensor_pdr) : Nat := u16At pdr.buf 18
def composite_sensor_count (pdr : pldm_state_sensor_pdr) : Nat := u8At pdr.buf 22
/-- Offset of the flexible member `possible_states` in the buffer. -/
def possible_states (_pdr : pldm_state_sensor_pdr) : Nat := 23

end pldm_state_sensor_pdr

/-- Modelled from the spec: a PossibleStates entry of section 3,
`{state_set_id: u16, size: u8, bitmask}` (packed structs
`state_effecter_possible_states` and `state_sensor_possible_states` of
`libpldm/platform.h`, not among the sources), read at offset `p` of `buf`. -/
def state_set_id (buf : List Nat) (p : Nat) : Nat := u16At buf p

/-- Modelled from the spec: the size field of a PossibleStates entry of
section 3, one byte after the 16-bit `state_set_id`. -/
def possible_states_size (buf : List Nat) (p : Nat) : Nat := u8At buf (p + 2)

/-! ## The loop over the composite entries of one record -/

/-- The inner loop shared by the lookup functions:
```
for (n = 0; n < count; n++) {
    setId = possibleStates->state_set_id;
    possibleStateSize = possibleStates->possible_states_size;
    if (cond(setId)) { <hit>; break or return; }
    possible_states_start += possibleStateSize + sizeof(setId) + sizeof(possibleStateSize);
}
```
`compositeLoop buf cond count p` tells whether the loop, with `count`
iterations left and the cursor at offset `p`, reaches `<hit>`. -/
def compositeLoop (buf : List Nat) (cond : Nat → Bool) : Nat → Nat → Bool
  | 0, _ => false
  | count + 1, possible_states_start =>
    let setId := state_set_id buf possible_states_start
    let possibleStateSize := possible_states_size buf possible_states_start
    if cond setId then true
    else compositeLoop buf cond count (possible_states_start + (possibleStateSize + 2 + 1))

/-- The inner loop of `findEffecterIds` and `findSensorIds`, which has no
`break`: every iteration whose condition holds appends `id`. -/
def compositeCollect (buf : List Nat) (cond : Bool) (id : Nat) : Nat → Nat → List Nat
  | 0, _ => []
  | count + 1, possible_states_start =>
    let possibleStateSize := possible_states_size buf possible_states_start
    (if cond then [id] else []) ++
      compositeCollect buf cond id count (possible_states_start + (possibleStateSize + 2 + 1))

/-- The offsets at which the inner loop reads a composite entry: the loop of
`compositeLoop`, recording the value of `possible_states_start` in every
iteration it performs (it stops after the iteration that hits). -/
def compositeLoop.reads (buf : List Nat) (cond : Nat → Bool) : Nat → Nat → List Nat
  | 0, _ => []
  | count + 1, possible_states_start =>
    let setId := state_set_id buf possible_states_start
    let possibleStateSize := possible_states_size buf possible_states_start
    possible_states_start ::
      (if cond setId then []
       else compositeLoop.reads buf cond count
        (possible_states_start + (possibleStateSize + 2 + 1)))

/-! ## The query functions of `common/utils.cpp` -/

def findStateEffecterPDR (_tid : Nat) (entityID stateSetId : Nat) :
    List pldm_pdr_record → List (List Nat)
  | [] => []
  | record :: repo =>
    if record.pdr_type = PLDM_STATE_EFFECTER_PDR then
      let pdr : pldm_state_effecter_pdr := ⟨record.data⟩
      if compositeLoop record.data
          (fun setId => pdr.entity_type == entityID && setId == stateSetId)
          pdr.composite_effecter_count pdr.possible_states then
        record.data :: findStateEffecterPDR _tid entityID stateSetId repo
      else findStateEffecterPDR _tid entityID stateSetId repo
    else findStateEffecterPDR _tid entityID stateSetId repo

def findStateSensorPDR (_tid : Nat) (entityID stateSetId : Nat) :
    List pldm_pdr_record → List (List Nat)
  | [] => []
  | record :: repo =>
    if record.pdr_type = PLDM_STATE_SENSOR_PDR then
      let pdr : pldm_state_sensor_pdr := ⟨record.data⟩
      if compositeLoop record.data
          (fun setId => pdr.entity_type == entityID && setId == stateSetId)
          pdr.composite_sensor_count pdr.possible_states then
        record.data :: findStateSensorPDR _tid entityID stateSetId repo
      else findStateSensorPDR _tid entityID stateSetId repo
    else findStateSensorPDR _tid entityID stateSetId repo

def findStateEffecterId (pdrRepo : List pldm_pdr_record) (entityType entityInstance
    containerId stateSetId : Nat) (localOrRemote : Bool) : Nat :=
  match pdrRepo with
  | [] => PLDM_INVALID_EFFECTER_ID
  | record :: repo =>
    if record.pdr_type = PLDM_STATE_EFFECTER_PDR ∧
        xor localOrRemote (pldm_pdr_record_is_remote record) = true then
      let pdr : pldm_state_effecter_pdr := ⟨record.data⟩
      if compositeLoop record.data
          (fun setId => entityType == pdr.entity_type &&
            entityInstance == pdr.entity_instance &&
            containerId == pdr.container_id && stateSetId == setId)
          pdr.composite_effecter_count pdr.possible_states then
        pdr.effecter_id
      else findStateEffecterId repo entityType entityInstance containerId stateSetId
        localOrRemote
    else findStateEffecterId repo entityType entityInstance containerId stateSetId
      localOrRemote

/-- The loop `for (auto pdr : pdrs)` of `findStateSensorId` over the buffers
returned by `findStateSensorPDR`. -/
def findStateSensorId.scan (entityType entityInstance containerId stateSetId : Nat) :
    List (List Nat) → Nat
  | [] => PLDM_INVALID_EFFECTER_ID
  | pdr :: pdrs =>
    let sensorPdr : pldm_state_sensor_pdr := ⟨pdr⟩
    if compositeLoop pdr
        (fun setId => entityType == sensorPdr.entity_type &&
          entityInstance == sensorPdr.entity_instance &&
          stateSetId == setId && containerId == sensorPdr.container_id)
        sensorPdr.composite_sensor_count sensorPdr.possible_states then
      sensorPdr.sensor_id
    else findStateSensorId.scan entityType entityInstance containerId stateSetId pdrs

def findStateSensorId (pdrRepo : List pldm_pdr_record) (tid : Nat) (entityType
    entityInstance containerId stateSetId : Nat) : Nat :=
  let pdrs := findStateSensorPDR tid entityType stateSetId pdrRepo
  findStateSensorId.scan entityType entityInstance containerId stateSetId pdrs

def getStateEffecterPDRsByType (_tid : Nat) (entityType : Nat) :
    List pldm_pdr_record → List (List Nat)
  | [] => []
  | record :: repo =>
    if record.pdr_type = PLDM_STATE_EFFECTER_PDR then
      let pdr : pldm_state_effecter_pdr := ⟨record.data⟩
      if compositeLoop record.data (fun _setId => pdr.entity_type == entityType)
          pdr.composite_effecter_count pdr.possible_states then
        record.data :: getStateEffecterPDRsByType _tid entityType repo
      else getStateEffecterPDRsByType _tid entityType repo
    else getStateEffecterPDRsByType _tid entityType repo

def getStateSensorPDRsByType (_tid : Nat) (entityType : Nat) :
    List pldm_pdr_record → List (List Nat)
  | [] => []
  | record :: repo =>
    if record.pdr_type = PLDM_STATE_SENSOR_PDR then
      let pdr : pldm_state_sensor_pdr := ⟨record.data⟩
      if compositeLoop record.data (fun _setId => pdr.entity_type == entityType)
          pdr.composite_sensor_count pdr.possible_states then
        record.data :: getStateSensorPDRsByType _tid entityType repo
      else getStateSensorPDRsByType _tid entityType repo
    else getStateSensorPDRsByType _tid entityType repo

/-- The loop `for (const auto& pdr : pdrs)` of `findEffecterIds`. -/
def findEffecterIds.collect (entityType entityInstance containerId : Nat) :
    List (List Nat) → List Nat
  | [] => []
  | pdr :: pdrs =>
    let effecterPdr : pldm_state_effecter_pdr := ⟨pdr⟩
    compositeCollect pdr
        (entityType == effecterPdr.entity_type &&
          entityInstance == effecterPdr.entity_instance &&
          containerId == effecterPdr.container_id)
        effecterPdr.effecter_id
        effecterPdr.composite_effecter_count effecterPdr.possible_states ++
      findEffecterIds.collect entityType entityInstance containerId pdrs

def findEffecterIds (pdrRepo : List pldm_pdr_record) (tid : Nat) (entityType
    entityInstance containerId : Nat) : List Nat :=
  let pdrs := getStateEffecterPDRsByType tid entityType pdrRepo
  findEffecterIds.collect entityType entityInstance containerId pdrs

/-- The loop `for (const auto& pdr : pdrs)` of `findSensorIds`. -/
def findSensorIds.collect (entityType entityInstance containerId : Nat) :
    List (List Nat) → List Nat
  | [] => []
  | pdr :: pdrs =>
    let sensorPdr : pldm_state_sensor_pdr := ⟨pdr⟩
    compositeCollect pdr
        (entityType == sensorPdr.entity_type &&
          entityInstance == sensorPdr.entity_instance &&
          containerId == sensorPdr.container_id)
        sensorPdr.sensor_id
        sensorPdr.composite_sensor_count sensorPdr.possible_states ++
      findSensorIds.collect entityType entityInstance containerId pdrs

def findSensorIds (pdrRepo : List pldm_pdr_record) (tid : Nat) (entityType
    entityInstance containerId : Nat) : List Nat :=
  let pdrs := getStateSensorPDRsByType tid entityType pdrRepo
  findSensorIds.collect entityType entityInstance containerId pdrs

/-- Modelled from the spec: the set-request value "no change" of an effecter
state field (`PLDM_NO_CHANGE` of `libpldm/platform.h`, not among the
sources). -/
def PLDM_NO_CHANGE : Nat := 0

/-- Modelled from the spec: the set-request value "request set" of an effecter
state field (`PLDM_REQUEST_SET` of `libpldm/platform.h`, not among the
sources). -/
def PLDM_REQUEST_SET : Nat := 1

/-- Modelled from the spec: an effecter state field of section 4.3, two bytes per
effecter (`set_effecter_state_field` of `libpldm/platform.h`, not among the
sources): `uint8_t set_request; uint8_t effecter_state;`. -/
structure set_effecter_state_field where
  set_request : Nat
  effecter_state : Nat
  deriving DecidableEq, Repr

/-- The loop `for (uint8_t i = 0; i < effecterCount; ++i)` of
`parseEffecterData`, with `n` iterations left. -/
def parseEffecterData.loop (effecterData : List Nat) : Nat → Nat →
    List set_effecter_state_field
  | 0, _ => []
  | n + 1, i =>
    let set_request :=
      if u8At effecterData (i * 2) = PLDM_REQUEST_SET then PLDM_REQUEST_SET
      else PLDM_NO_CHANGE
    ⟨set_request, u8At effecterData (i * 2 + 1)⟩ ::
      parseEffecterData.loop effecterData n (i + 1)

def parseEffecterData (effecterData : List Nat) (effecterCount : Nat) :
    Option (List set_effecter_state_field) :=
  if effecterData.length ≠ effecterCount * 2 then none
  else some (parseEffecterData.loop effecterData effecterCount 0)

/-! ## Other functions of `common/utils.cpp` -/

def getNumPadBytes (data : Nat) : Nat :=
  let pad := (if data % 4 ≠ 0 then 4 - data % 4 else 0) % 2 ^ 8
  pad

/-- The objects the output pointers of `uintToDate` point to: `uint16_t* year`
and `uint8_t* month, day, hour, min, sec`. -/
structure DateFields where
  year : Nat
  month : Nat
  day : Nat
  hour : Nat
  min : Nat
  sec : Nat
  deriving DecidableEq, Repr

/-- The function `uintToDate`: `out` holds the values of the pointed-to objects
before the call; the result is the returned `bool` and their values after the
call. An assignment to a `uint16_t` or `uint8_t` object keeps the value modulo
2^16 or 2^8. -/
def uintToDate (data : Nat) (out : DateFields) : Bool × DateFields :=
  let max_data := 29991231115959
  let min_data := 19700101000000
  if data < min_data ∨ data > max_data then (false, out)
  else
    let year := (data / 10000000000) % 2 ^ 16
    let data := data % 10000000000
    let month := (data / 100000000) % 2 ^ 8
    let data := data % 100000000
    let day := (data / 1000000) % 2 ^ 8
    let data := data % 1000000
    let hour := (data / 10000) % 2 ^ 8
    let data := data % 10000
    let min := (data / 100) % 2 ^ 8
    let sec := (data % 100) % 2 ^ 8
    (true, ⟨year, month, day, hour, min, sec⟩)

/-- Index of the first character of `s` that is not in `chars`, if any. -/
def firstNotOf (chars : List Char) : List Char → Option Nat
  | [] => none
  | c :: cs => if chars.contains c then (firstNotOf chars cs).map (· + 1) else some 0

/-- Index of the first occurrence of the string `pat` in `s`, if any. -/
def firstOccurrence (pat : List Char) : List Char → Option Nat
  | [] => if pat = [] then some 0 else none
  | c :: cs =>
    if pat.isPrefixOf (c :: cs) then some 0 else (firstOccurrence pat cs).map (· + 1)

/-- The member `std::string_view::find_first_not_of(chars, pos)`; `none` is
`npos`. -/
def find_first_not_of (s chars : List Char) (pos : Nat) : Option Nat :=
  (firstNotOf chars (s.drop pos)).map (· + pos)

/-- The member `std::string_view::find_last_not_of(chars)`; `none` is `npos`. -/
def find_last_not_of (s chars : List Char) : Option Nat :=
  (firstNotOf chars s.reverse).map (fun j => s.length - 1 - j)

/-- The member `std::string_view::find(pat, pos)`; `none` is `npos`. -/
def find (s pat : List Char) (pos : Nat) : Option Nat :=
  if pos > s.length then none else (firstOccurrence pat (s.drop pos)).map (· + pos)

/-- The member `std::string_view::substr(pos, count)` for `pos` within the
string. -/
def substr (s : List Char) (pos count : Nat) : List Char :=
  (s.drop pos).take count

/-- The `while` loop of `split`. The variable `end` is `endPos` here, `none`
standing for `npos`. The result is `none` when the model gives no result: the
fuel is spent before the loop ends (the loop does not end for an empty `delim`
on a non-empty rest of the source), or `remove_prefix` is called with `npos`
(a piece made only of characters of `trimStr`), which has no defined
behaviour. -/
def split.loop (srcStr delim trimStr : List Char) :
    Nat → Option Nat → Option (List (List Char))
  | 0, _ => none
  | fuel + 1, endPos =>
    let start :=
      match endPos with
      | some e => find_first_not_of srcStr delim e
      | none => none
    match start with
    | none => some []
    | some start =>
      let endPos := find srcStr delim start
      let dstStr :=
        match endPos with
        | some e => substr srcStr start (e - start)
        | none => srcStr.drop start
      let trimmed : Option (List Char) :=
        if trimStr ≠ [] then
          match find_first_not_of dstStr trimStr 0 with
          | none => none
          | some n =>
            let dstStr := dstStr.drop n
            match find_last_not_of dstStr trimStr with
            | none => none
            | some m => some (dstStr.take (dstStr.length - (dstStr.length - 1 - m)))
        else some dstStr
      match trimmed with
      | none => none
      | some dstStr =>
        match split.loop srcStr delim trimStr fuel endPos with
        | none => none
        | some out => some (if dstStr ≠ [] then dstStr :: out else out)

/-- The function `split` on strings as lists of characters. Every iteration of
the loop that ends moves `end` forward by at least one character, so
`srcStr.length + 1` iterations are enough for it. -/
def split (srcStr delim trimStr : List Char) : Option (List (List Char)) :=
  split.loop srcStr delim trimStr (srcStr.length + 1) (some 0)

/-! ## Vocabulary of the specification for the PDR queries -/

/-- Offset of composite entry `k` of a possible-states area starting at offset
`start` (section 3: the offset of entry `i+1` is the offset of entry `i` plus
`2 + 1 + size`). -/
def entryOffset (buf : List Nat) (start : Nat) : Nat → Nat
  | 0 => start
  | k + 1 =>
    entryOffset buf start k + (2 + 1 + possible_states_size buf (entryOffset buf start k))

/-- One of the first `count` composite entries of the area starting at `start`
has state set id `stateSetId`. -/
def HasStateSet (buf : List Nat) (start count stateSetId : Nat) : Prop :=
  ∃ k, k < count ∧ state_set_id buf (entryOffset buf start k) = stateSetId

instance (buf : List Nat) (start count stateSetId : Nat) :
    Decidable (HasStateSet buf start count stateSetId) := by
  unfold HasStateSet; infer_instance

/-- The record is a STATE_EFFECTER PDR whose entity type, instance and container
equal the query. -/
def EffecterEntityMatch (entityType entityInstance containerId : Nat)
    (r : pldm_pdr_record) : Prop :=
  r.pdr_type = PLDM_STATE_EFFECTER_PDR ∧
  (pldm_state_effecter_pdr.mk r.data).entity_type = entityType ∧
  (pldm_state_effecter_pdr.mk r.data).entity_instance = entityInstance ∧
  (pldm_state_effecter_pdr.mk r.data).container_id = containerId

instance (entityType entityInstance containerId : Nat) (r : pldm_pdr_record) :
    Decidable (EffecterEntityMatch entityType entityInstance containerId r) := by
  unfold EffecterEntityMatch; infer_instance

/-- The record is a STATE_SENSOR PDR whose entity type, instance and container
equal the query. -/
def SensorEntityMatch (entityType entityInstance containerId : Nat)
    (r : pldm_pdr_record) : Prop :=
  r.pdr_type = PLDM_STATE_SENSOR_PDR ∧
  (pldm_state_sensor_pdr.mk r.data).entity_type = entityType ∧
  (pldm_state_sensor_pdr.mk r.data).entity_instance = entityInstance ∧
  (pldm_state_sensor_pdr.mk r.data).container_id = containerId

instance (entityType entityInstance containerId : Nat) (r : pldm_pdr_record) :
    Decidable (SensorEntityMatch entityType entityInstance containerId r) := by
  unfold SensorEntityMatch; infer_instance

/-- A record/entry pair of a STATE_EFFECTER PDR matches the whole query key:
entity type, instance, container, and a state set id among the first
`composite_effecter_count` entries. -/
def EffecterKeyMatch (entityType entityInstance containerId stateSetId : Nat)
    (r : pldm_pdr_record) : Prop :=
  EffecterEntityMatch entityType entityInstance containerId r ∧
  HasStateSet r.data (pldm_state_effecter_pdr.mk r.data).possible_states
    (pldm_state_effecter_pdr.mk r.data).composite_effecter_count stateSetId

instance (entityType entityInstance containerId stateSetId : Nat) (r : pldm_pdr_record) :
    Decidable (EffecterKeyMatch entityType entityInstance containerId stateSetId r) := by
  unfold EffecterKeyMatch; infer_instance

/-- A record/entry pair of a STATE_SENSOR PDR matches the whole query key. -/
def SensorKeyMatch (entityType entityInstance containerId stateSetId : Nat)
    (r : pldm_pdr_record) : Prop :=
  SensorEntityMatch entityType entityInstance containerId r ∧
  HasStateSet r.data (pldm_state_sensor_pdr.mk r.data).possible_states
    (pldm_state_sensor_pdr.mk r.data).composite_sensor_count stateSetId

instance (entityType entityInstance containerId stateSetId : Nat) (r : pldm_pdr_record) :
    Decidable (SensorKeyMatch entityType entityInstance containerId stateSetId r) := by
  unfold SensorKeyMatch; infer_instance

/-- The record is a STATE_EFFECTER PDR of entity type `entityID` with the state
set id among its first `composite_effecter_count` entries. -/
def EffecterStateSetMatch (entityID stateSetId : Nat) (r : pldm_pdr_record) : Prop :=
  r.pdr_type = PLDM_STATE_EFFECTER_PDR ∧
  (pldm_state_effecter_pdr.mk r.data).entity_type = entityID ∧
  HasStateSet r.data (pldm_state_effecter_pdr.mk r.data).possible_states
    (pldm_state_effecter_pdr.mk r.data).composite_effecter_count stateSetId

instance (entityID stateSetId : Nat) (r : pldm_pdr_record) :
    Decidable (EffecterStateSetMatch entityID stateSetId r) := by
  unfold EffecterStateSetMatch; infer_instance

/-- The record is a STATE_SENSOR PDR of entity type `entityID` with the state
set id among its first `composite_sensor_count` entries. -/
def SensorStateSetMatch (entityID stateSetId : Nat) (r : pldm_pdr_record) : Prop :=
  r.pdr_type = PLDM_STATE_SENSOR_PDR ∧
  (pldm_state_sensor_pdr.mk r.data).entity_type = entityID ∧
  HasStateSet r.data (pldm_state_sensor_pdr.mk r.data).possible_states
    (pldm_state_sensor_pdr.mk r.data).composite_sensor_count stateSetId

instance (entityID stateSetId : Nat) (r : pldm_pdr_record) :
    Decidable (SensorStateSetMatch entityID stateSetId r) := by
  unfold SensorStateSetMatch; infer_instance

/-- The record is a STATE_EFFECTER PDR of entity type `entityType`. -/
def EffecterTypeMatch (entityType : Nat) (r : pldm_pdr_record) : Prop :=
  r.pdr_type = PLDM_STATE_EFFECTER_PDR ∧
  (pldm_state_effecter_pdr.mk r.data).entity_type = entityType

instance (entityType : Nat) (r : pldm_pdr_record) :
    Decidable (EffecterTypeMatch entityType r) := by
  unfold EffecterTypeMatch; infer_instance

/-- The record is a STATE_SENSOR PDR of entity type `entityType`. -/
def SensorTypeMatch (entityType : Nat) (r : pldm_pdr_record) : Prop :=
  r.pdr_type = PLDM_STATE_SENSOR_PDR ∧
  (pldm_state_sensor_pdr.mk r.data).entity_type = entityType

instance (entityType : Nat) (r : pldm_pdr_record) :
    Decidable (SensorTypeMatch entityType r) := by
  unfold SensorTypeMatch; infer_instance

/-- The remote-flag filter of `findStateEffecterId`: the record is examined when
`localOrRemote ^ pldm_pdr_record_is_remote(record)` is true. -/
def Admitted (localOrRemote : Bool) (r : pldm_pdr_record) : Prop :=
  xor localOrRemote (pldm_pdr_record_is_remote r) = true

instance (localOrRemote : Bool) (r : pldm_pdr_record) :
    Decidable (Admitted localOrRemote r) := by
  unfold Admitted; infer_instance

/-- The first-match scan of section 4.1 without any remote-flag filter: the
effecter_id of the first STATE_EFFECTER record, in repository order, with a
record/entry pair matching the query key, and the reserved sentinel when there
is none. -/
def firstEffecterMatch (repo : List pldm_pdr_record)
    (entityType entityInstance containerId stateSetId : Nat) : Nat :=
  match repo.find? (fun r =>
      decide (EffecterKeyMatch entityType entityInstance containerId stateSetId r)) with
  | some r => (pldm_state_effecter_pdr.mk r.data).effecter_id
  | none => PLDM_INVALID_EFFECTER_ID

/-! ## Concrete records used to evaluate the functions

Byte layout of a state effecter PDR: bytes 0-9 common header (type at byte 5,
length of the rest at bytes 8-9), 10-11 terminus_handle, 12-13 effecter_id,
14-15 entity_type, 16-17 entity_instance, 18-19 container_id, 20-21
effecter_semantic_id, 22 effecter_init, 23 has_description_pdr, 24
composite_effecter_count, 25.. possible states. A state sensor PDR has
sensor_init at 20, sensor_auxiliary_names_pdr at 21, composite_sensor_count at
22 and the possible states from 23. -/

/-- A local state effecter PDR: effecter_id 7, entity (33, 1, 0), two composite
entries: state set 10 (1 byte of states) and state set 196 (2 bytes). -/
def effecterLocal7 : pldm_pdr_record :=
  ⟨11, false, [1, 0, 0, 0, 1, 11, 0, 0, 24, 0, 1, 0, 7, 0, 33, 0, 1, 0, 0, 0, 0, 0, 0, 0, 2,
    10, 0, 1, 1, 196, 0, 2, 6, 0]⟩

/-- A local state effecter PDR: effecter_id 9, entity (33, 1, 0), one composite
entry: state set 196. -/
def effecterLocal9 : pldm_pdr_record :=
  ⟨11, false, [2, 0, 0, 0, 1, 11, 0, 0, 19, 0, 1, 0, 9, 0, 33, 0, 1, 0, 0, 0, 0, 0, 0, 0, 1,
    196, 0, 1, 6]⟩

/-- A remote state effecter PDR: effecter_id 5, entity (33, 1, 0), one composite
entry: state set 196. -/
def effecterRemote5 : pldm_pdr_record :=
  ⟨11, true, [3, 0, 0, 0, 1, 11, 0, 0, 19, 0, 2, 0, 5, 0, 33, 0, 1, 0, 0, 0, 0, 0, 0, 0, 1,
    196, 0, 1, 6]⟩

/-- A local state effecter PDR: effecter_id 8, entity (33, 1, 0), whose
composite_effecter_count is 0. -/
def effecterCountless8 : pldm_pdr_record :=
  ⟨11, false, [4, 0, 0, 0, 1, 11, 0, 0, 15, 0, 1, 0, 8, 0, 33, 0, 1, 0, 0, 0, 0, 0, 0, 0, 0]⟩

/-- A local state sensor PDR: sensor_id 3, entity (33, 1, 0), two composite
entries: state set 10 (1 byte of states) and state set 196 (2 bytes). -/
def sensorLocal3 : pldm_pdr_record :=
  ⟨4, false, [5, 0, 0, 0, 1, 4, 0, 0, 22, 0, 1, 0, 3, 0, 33, 0, 1, 0, 0, 0, 0, 0, 2,
    10, 0, 1, 1, 196, 0, 2, 6, 0]⟩

/-- A local state sensor PDR: sensor_id 4, entity (33, 2, 0), one composite
entry: state set 196. -/
def sensorLocal4 : pldm_pdr_record :=
  ⟨4, false, [6, 0, 0, 0, 1, 4, 0, 0, 17, 0, 1, 0, 4, 0, 33, 0, 2, 0, 0, 0, 0, 0, 1,
    196, 0, 1, 6]⟩

/-- A remote state sensor PDR: sensor_id 6, entity (33, 1, 0), one composite
entry: state set 196. -/
def sensorRemote6 : pldm_pdr_record :=
  ⟨4, true, [7, 0, 0, 0, 1, 4, 0, 0, 17, 0, 2, 0, 6, 0, 33, 0, 1, 0, 0, 0, 0, 0, 1,
    196, 0, 1, 6]⟩

/-- A local state effecter PDR with the fields of `sensorLocal3`: effecter_id 3,
entity (33, 1, 0), two composite entries: state set 10 and state set 196. -/
def effecterLocal3 : pldm_pdr_record :=
  ⟨11, false, [8, 0, 0, 0, 1, 11, 0, 0, 24, 0, 1, 0, 3, 0, 33, 0, 1, 0, 0, 0, 0, 0, 0, 0, 2,
    10, 0, 1, 1, 196, 0, 2, 6, 0]⟩

/-- A sensor record `s` and an effecter record `e` describe the same thing: `s`
is a STATE_SENSOR PDR, `e` a STATE_EFFECTER PDR, and they have the same id,
entity type, instance, container, composite count and possible-states bytes. -/
def SameStatePdr (s e : pldm_pdr_record) : Prop :=
  s.pdr_type = PLDM_STATE_SENSOR_PDR ∧ e.pdr_type = PLDM_STATE_EFFECTER_PDR ∧
  (pldm_state_sensor_pdr.mk s.data).sensor_id =
    (pldm_state_effecter_pdr.mk e.data).effecter_id ∧
  (pldm_state_sensor_pdr.mk s.data).entity_type =
    (pldm_state_effecter_pdr.mk e.data).entity_type ∧
  (pldm_state_sensor_pdr.mk s.data).entity_instance =
    (pldm_state_effecter_pdr.mk e.data).entity_instance ∧
  (pldm_state_sensor_pdr.mk s.data).container_id =
    (pldm_state_effecter_pdr.mk e.data).container_id ∧
  (pldm_state_sensor_pdr.mk s.data).composite_sensor_count =
    (pldm_state_effecter_pdr.mk e.data).composite_effecter_count ∧
  s.data.drop (pldm_state_sensor_pdr.mk s.data).possible_states =
    e.data.drop (pldm_state_effecter_pdr.mk e.data).possible_states

instance (s e : pldm_pdr_record) : Decidable (SameStatePdr s e) := by
  unfold SameStatePdr; infer_instance

/-- The `count` declared composite entries of the area starting at `start`, each
occupying `3 + possible_states_size` bytes, extend beyond the end of the
buffer. (A size byte outside the buffer counts as 0 here, so that the entries
extend at least as far as this says.) -/
def EntriesOverrun (buf : List Nat) (start count : Nat) : Prop :=
  buf.length < entryOffset buf start count

instance (buf : List Nat) (start count : Nat) : Decidable (EntriesOverrun buf start count) := by
  unfold EntriesOverrun; infer_instance

/-- A corrupt local state effecter PDR: effecter_id 2, entity (33, 1, 0),
composite_effecter_count 2, but the record ends after its first composite entry
(state set 196, 1 byte of states). -/
def effecterCorrupt2 : pldm_pdr_record :=
  ⟨11, false, [9, 0, 0, 0, 1, 11, 0, 0, 19, 0, 1, 0, 2, 0, 33, 0, 1, 0, 0, 0, 0, 0, 0, 0, 2,
    196, 0, 1, 6]⟩

/-- A corrupt local state effecter PDR: effecter_id 4, entity (33, 1, 0),
composite_effecter_count 1; its only composite entry (state set 10) declares 4
bytes of states, but the record ends after the first of them. -/
def effecterCorrupt4 : pldm_pdr_record :=
  ⟨11, false, [12, 0, 0, 0, 1, 11, 0, 0, 19, 0, 1, 0, 4, 0, 33, 0, 1, 0, 0, 0, 0, 0, 0, 0, 1,
    10, 0, 4, 1]⟩

/-- The record is corrupt: it is a STATE_EFFECTER or a STATE_SENSOR PDR whose
declared composite entries extend beyond the end of its bytes. -/
def CorruptRecord (r : pldm_pdr_record) : Prop :=
  (r.pdr_type = PLDM_STATE_EFFECTER_PDR ∧
    EntriesOverrun r.data (pldm_state_effecter_pdr.mk r.data).possible_states
      (pldm_state_effecter_pdr.mk r.data).composite_effecter_count) ∨
  (r.pdr_type = PLDM_STATE_SENSOR_PDR ∧
    EntriesOverrun r.data (pldm_state_sensor_pdr.mk r.data).possible_states
      (pldm_state_sensor_pdr.mk r.data).composite_sensor_count)

instance (r : pldm_pdr_record) : Decidable (CorruptRecord r) := by
  unfold CorruptRecord; infer_instance

/-- The loop over the composite entries stays inside the buffer: the fixed
fields in front of the entries (the bytes below `start`) lie within the
buffer, and so do the state_set_id and the size (the 3 bytes at the cursor) of
every entry the loop visits. -/
def ReadsInside (buf : List Nat) (cond : Nat → Bool) (count start : Nat) : Prop :=
  start ≤ buf.length ∧
  ∀ o ∈ compositeLoop.reads buf cond count start, o + 3 ≤ buf.length

instance (buf : List Nat) (cond : Nat → Bool) (count start : Nat) :
    Decidable (ReadsInside buf cond count start) := by
  unfold ReadsInside; infer_instance

/-- `findStateEffecterPDR`, looking for `entityID` and `stateSetId`, reads
nothing outside the bytes of `r`: it passes over `r` because of its PDR type, or
its loop over the composite entries of `r` stays inside the buffer. -/
def InsideEffecterPDR (entityID stateSetId : Nat) (r : pldm_pdr_record) : Prop :=
  r.pdr_type = PLDM_STATE_EFFECTER_PDR →
    ReadsInside r.data
      (fun setId => (pldm_state_effecter_pdr.mk r.data).entity_type == entityID &&
        setId == stateSetId)
      (pldm_state_effecter_pdr.mk r.data).composite_effecter_count
      (pldm_state_effecter_pdr.mk r.data).possible_states

instance (entityID stateSetId : Nat) (r : pldm_pdr_record) :
    Decidable (InsideEffecterPDR entityID stateSetId r) := by
  unfold InsideEffecterPDR; infer_instance

/-- `findStateSensorPDR`, looking for `entityID` and `stateSetId`, reads nothing
outside the bytes of `r`. -/
def InsideSensorPDR (entityID stateSetId : Nat) (r : pldm_pdr_record) : Prop :=
  r.pdr_type = PLDM_STATE_SENSOR_PDR →
    ReadsInside r.data
      (fun setId => (pldm_state_sensor_pdr.mk r.data).entity_type == entityID &&
        setId == stateSetId)
      (pldm_state_sensor_pdr.mk r.data).composite_sensor_count
      (pldm_state_sensor_pdr.mk r.data).possible_states

instance (entityID stateSetId : Nat) (r : pldm_pdr_record) :
    Decidable (InsideSensorPDR entityID stateSetId r) := by
  unfold InsideSensorPDR; infer_instance

/-- `findStateEffecterId`, looking for the given key, reads nothing outside the
bytes of `r`: it passes over `r` because of its PDR type or of the remote-flag
filter, or its loop over the composite entries of `r` stays inside the
buffer. -/
def InsideEffecterId (entityType entityInstance containerId stateSetId : Nat)
    (localOrRemote : Bool) (r : pldm_pdr_record) : Prop :=
  r.pdr_type = PLDM_STATE_EFFECTER_PDR → Admitted localOrRemote r →
    ReadsInside r.data
      (fun setId => entityType == (pldm_state_effecter_pdr.mk r.data).entity_type &&
        entityInstance == (pldm_state_effecter_pdr.mk r.data).entity_instance &&
        containerId == (pldm_state_effecter_pdr.mk r.data).container_id &&
        stateSetId == setId)
      (pldm_state_effecter_pdr.mk r.data).composite_effecter_count
      (pldm_state_effecter_pdr.mk r.data).possible_states

instance (entityType entityInstance containerId stateSetId : Nat) (localOrRemote : Bool)
    (r : pldm_pdr_record) :
    Decidable (InsideEffecterId entityType entityInstance containerId stateSetId
      localOrRemote r) := by
  unfold InsideEffecterId; infer_instance

/-- `getStateEffecterPDRsByType`, looking for `entityType`, reads nothing
outside the bytes of `r`. -/
def InsideEffecterPDRsByType (entityType : Nat) (r : pldm_pdr_record) : Prop :=
  r.pdr_type = PLDM_STATE_EFFECTER_PDR →
    ReadsInside r.data
      (fun _setId => (pldm_state_effecter_pdr.mk r.data).entity_type == entityType)
      (pldm_state_effecter_pdr.mk r.data).composite_effecter_count
      (pldm_state_effecter_pdr.mk r.data).possible_states

instance (entityType : Nat) (r : pldm_pdr_record) :
    Decidable (InsideEffecterPDRsByType entityType r) := by
  unfold InsideEffecterPDRsByType; infer_instance

/-- `getStateSensorPDRsByType`, looking for `entityType`, reads nothing outside
the bytes of `r`. -/
def InsideSensorPDRsByType (entityType : Nat) (r : pldm_pdr_record) : Prop :=
  r.pdr_type = PLDM_STATE_SENSOR_PDR →
    ReadsInside r.data
      (fun _setId => (pldm_state_sensor_pdr.mk r.data).entity_type == entityType)
      (pldm_state_sensor_pdr.mk r.data).composite_sensor_count
      (pldm_state_sensor_pdr.mk r.data).possible_states

instance (entityType : Nat) (r : pldm_pdr_record) :
    Decidable (InsideSensorPDRsByType entityType r) := by
  unfold InsideSensorPDRsByType; infer_instance

/-- The record `r` with the bytes `trailing` after its own: a record that agrees
with `r` on every byte of `r`, whatever comes after them. -/
def withTrailing (r : pldm_pdr_record) (trailing : List Nat) : pldm_pdr_record :=
  ⟨r.pdr_type, r.is_remote, r.data ++ trailing⟩

/-- A local state effecter PDR: effecter_id 6, entity (33, 1, 0),
composite_effecter_count 1 with the composite entry of state set 10, followed in
the record by further bytes that read as an entry of state set 196. -/
def effecterTrailing6 : pldm_pdr_record :=
  ⟨11, false, [10, 0, 0, 0, 1, 11, 0, 0, 24, 0, 1, 0, 6, 0, 33, 0, 1, 0, 0, 0, 0, 0, 0, 0, 1,
    10, 0, 1, 1, 196, 0, 2, 6, 0]⟩

/-- A local state sensor PDR: sensor_id 5, entity (33, 1, 0),
composite_sensor_count 1 with the composite entry of state set 10, followed in
the record by further bytes that read as an entry of state set 196. -/
def sensorTrailing5 : pldm_pdr_record :=
  ⟨4, false, [11, 0, 0, 0, 1, 4, 0, 0, 22, 0, 1, 0, 5, 0, 33, 0, 1, 0, 0, 0, 0, 0, 1,
    10, 0, 1, 1, 196, 0, 2, 6, 0]⟩

/-- The maximal non-empty runs of characters other than `d` in `s`, from left to
right: the pieces into which the occurrences of `d` cut `s`, without the empty
pieces. -/
def delimitedRuns (d : Char) (s : List Char) : List (List Char) :=
  (s.splitOn d).filter (fun t => !t.isEmpty)

/-- Two records differ at most in their is-remote flag: they have the same type
tag and the same bytes. -/
def SameUpToRemoteFlag (a b : pldm_pdr_record) : Prop :=
  a.pdr_type = b.pdr_type ∧ a.data = b.data

instance (a b : pldm_pdr_record) : Decidable (SameUpToRemoteFlag a b) := by
  unfold SameUpToRemoteFlag; infer_instance

end utils

/-! ## `dma::transferAll` of `oem/ibm/libpldmresponder/file_io.hpp` -/

namespace responder

/-- Modelled from the spec: the completion code SUCCESS of section 4.3
(`PLDM_SUCCESS` of `libpldm/base.h`, not among the sources). -/
def PLDM_SUCCESS : Nat := 0

/-- Modelled from the spec: the completion code GENERIC_ERROR of section 4.3
(`PLDM_ERROR` of `libpldm/base.h`, not among the sources). -/
def PLDM_ERROR : Nat := 1

/-- Modelled from the spec: the ResponseMessage of section 3 as the command codec
of section 6 receives it, `{instanceId, command, completion code, payload}`;
the byte layout is owned by the codec (`libpldm`, not among the sources). -/
structure Response where
  instance_id : Nat
  command : Nat
  completion_code : Nat
  length : Nat
  deriving DecidableEq, Repr

/-- Modelled from the spec: the command codec of section 6
(`encode_rw_file_memory_resp` of `oem/ibm/libpldm/file_io.c`, not among the
sources), which turns `{instanceId, command, completion code, payload}` into the
response. The response is kept as these four values; packing them into bytes,
and the validation of the header fields that goes with it, belong to the
codec. -/
def encode_rw_file_memory_resp (instance_id command completion_code length : Nat) :
    Response :=
  ⟨instance_id, command, completion_code, length⟩

namespace dma

def minSize : Nat := 16

def maxSize : Nat := (16 * 1024 * 1024) - 4096

/-- The arguments of one call of `transferDataHost`. -/
structure Call where
  path : String
  offset : Nat
  length : Nat
  address : Nat
  upstream : Bool
  deriving DecidableEq, Repr

/-- The template parameter `DMAInterface` of `transferAll`: an object with state
`σ` whose method `transferDataHost(path, offset, length, address, upstream)`
returns an `int` and may change the object. -/
structure DMAInterface (σ : Type) where
  transferDataHost : σ → String → Nat → Nat → Nat → Bool → Int × σ

/-- What a run of `transferAll` produces: the response it returns, the calls of
`transferDataHost` it issued, in order, each with its return value, and the
final state of the interface object. -/
structure Run (σ : Type) where
  response : Response
  calls : List (Call × Int)
  intf : σ

/-- The body of `transferAll` from the `while` loop on; `offset`, `length` and
`address` are the C variables (`uint32_t`, `uint32_t`, `uint64_t`), `origLength`
the saved copy of the requested length. The constant `dma::maxSize` of the loop
is the argument `maxSize` here (a positive number, so that the loop ends), which
`transferAll` below sets to `dma::maxSize`. -/
def transferAll.loop {σ : Type} (maxSize : Nat) (hmax : 0 < maxSize)
    (intf : DMAInterface σ) (command : Nat) (path : String)
    (upstream : Bool) (instanceId : Nat) (origLength : Nat)
    (s : σ) (offset length address : Nat) : Run σ :=
  if length > maxSize then
    let r := intf.transferDataHost s path offset maxSize address upstream
    if r.1 < 0 then
      { response := encode_rw_file_memory_resp instanceId command PLDM_ERROR 0
        calls := [(⟨path, offset, maxSize, address, upstream⟩, r.1)]
        intf := r.2 }
    else
      let rest := transferAll.loop maxSize hmax intf command path upstream instanceId
        origLength r.2
        ((offset + maxSize) % 2 ^ 32) (length - maxSize) ((address + maxSize) % 2 ^ 64)
      { rest with calls := (⟨path, offset, maxSize, address, upstream⟩, r.1) :: rest.calls }
  else
    let r := intf.transferDataHost s path offset length address upstream
    if r.1 < 0 then
      { response := encode_rw_file_memory_resp instanceId command PLDM_ERROR 0
        calls := [(⟨path, offset, length, address, upstream⟩, r.1)]
        intf := r.2 }
    else
      { response := encode_rw_file_memory_resp instanceId command PLDM_SUCCESS origLength
        calls := [(⟨path, offset, length, address, upstream⟩, r.1)]
        intf := r.2 }
termination_by length
decreasing_by omega

def transferAll {σ : Type} (intf : DMAInterface σ) (s : σ) (command : Nat) (path : String)
    (offset length address : Nat) (upstream : Bool) (instanceId : Nat) : Run σ :=
  let origLength := length
  transferAll.loop maxSize (by decide) intf command path upstream instanceId origLength
    s offset length address

/-- A DMA interface for evaluation: its state counts the calls made so far, and
the call number `failAt` (counted from 0) returns `-5` (`-EIO`), every other
call returns 0. -/
def failingAt (failAt : Nat) : DMAInterface Nat :=
  ⟨fun n _path _offset _length _address _upstream => (if n = failAt then -5 else 0, n + 1)⟩

/-- A DMA interface for evaluation whose every call returns 0; its state counts
the calls made so far. -/
def succeeding : DMAInterface Nat :=
  ⟨fun n _path _offset _length _address _upstream => (0, n + 1)⟩

/-- The chunk calls of a transfer in which no call fails, by the rule of
section 4.2: chunks of `chunk` bytes while the remaining length exceeds `chunk`,
advancing the 32-bit offset and the 64-bit address by the chunk size, then one
final call for the remainder. -/
def plannedCalls (chunk : Nat) (hchunk : 0 < chunk) (path : String) (upstream : Bool)
    (offset length address : Nat) : List Call :=
  if length > chunk then
    ⟨path, offset, chunk, address, upstream⟩ ::
      plannedCalls chunk hchunk path upstream ((offset + chunk) % 2 ^ 32) (length - chunk)
        ((address + chunk) % 2 ^ 64)
  else [⟨path, offset, length, address, upstream⟩]
termination_by length
decreasing_by omega

/-- Call `b` follows call `a` in the arithmetic of the C variables: its offset
is the offset of `a` plus the length of `a` as a `uint32_t`, its address the
address of `a` plus the length of `a` as a `uint64_t`. -/
def Advances (a b : Call) : Prop :=
  b.offset = (a.offset + a.length) % 2 ^ 32 ∧ b.address = (a.address + a.length) % 2 ^ 64

instance (a b : Call) : Decidable (Advances a b) := by
  unfold Advances; infer_instance

/-- Call `b` has an offset and an address strictly greater than those of call
`a`, each exceeding it by exactly the length of `a`. -/
def StrictlyAdvances (a b : Call) : Prop :=
  a.offset < b.offset ∧ b.offset = a.offset + a.length ∧
  a.address < b.address ∧ b.address = a.address + a.length

instance (a b : Call) : Decidable (StrictlyAdvances a b) := by
  unfold StrictlyAdvances; infer_instance

/-- A DMA interface for evaluation like `failingAt`, whose failing call returns
the negative value `code`. -/
def failingWith (failAt : Nat) (code : Int) : DMAInterface Nat :=
  ⟨fun n _path _offset _length _address _upstream =>
    (if n = failAt then code else 0, n + 1)⟩

/-- Two chunk primitives behave identically except for which negative value a
failing call returns: in every state and for all arguments they leave the same
state behind, and they return the same value or both return a negative one. -/
def AgreeUpToErrorCode {σ : Type} (intf1 intf2 : DMAInterface σ) : Prop :=
  ∀ (t : σ) (path : String) (offset length address : Nat) (upstream : Bool),
    (intf1.transferDataHost t path offset length address upstream).2 =
      (intf2.transferDataHost t path offset length address upstream).2 ∧
    ((intf1.transferDataHost t path offset length address upstream).1 =
        (intf2.transferDataHost t path offset length address upstream).1 ∨
      ((intf1.transferDataHost t path offset length address upstream).1 < 0 ∧
        (intf2.transferDataHost t path offset length address upstream).1 < 0))

end dma
end responder
end pldm

/-! # Theorems -/

namespace pldm
namespace utils

/-! ## The composite loop -/

theorem entryOffset_succ_start (buf : List Nat) (start k : Nat) :
    entryOffset buf start (k + 1) =
      entryOffset buf (start + (possible_states_size buf start + 2 + 1)) k := by
  induction k with
  | zero => simp only [entryOffset]; omega
  | succ k ih =>
    rw [entryOffset, ih]
    simp only [entryOffset]

/-- The loop reaches its hit exactly when the condition holds for the state set id
of one of the first `count` entries, located by the offset rule. -/
theorem compositeLoop_eq_true_iff (buf : List Nat) (cond : Nat → Bool) (count p : Nat) :
    compositeLoop buf cond count p = true ↔
      ∃ k, k < count ∧ cond (state_set_id buf (entryOffset buf p k)) = true := by
  induction count generalizing p with
  | zero => simp [compositeLoop]
  | succ n ih =>
    simp only [compositeLoop]
    by_cases h : cond (state_set_id buf p) = true
    · simp only [h, if_true, true_iff]
      exact ⟨0, Nat.succ_pos n, by simpa [entryOffset] using h⟩
    · have hf : cond (state_set_id buf p) = false := by simpa using h
      simp only [hf, Bool.false_eq_true, if_false]
      rw [ih]
      constructor
      · rintro ⟨k, hk, hc⟩
        exact ⟨k + 1, Nat.succ_lt_succ hk, by rw [entryOffset_succ_start]; exact hc⟩
      · rintro ⟨k, hk, hc⟩
        cases k with
        | zero => exact absurd (by simpa [entryOffset] using hc) h
        | succ j =>
          rw [entryOffset_succ_start] at hc
          exact ⟨j, Nat.lt_of_succ_lt_succ hk, hc⟩

/-- A loop whose condition does not look at the entry hits on its first
iteration, if it has one. -/
theorem compositeLoop_const (buf : List Nat) (c : Bool) (count p : Nat) :
    compositeLoop buf (fun _ => c) count p = (decide (0 < count) && c) := by
  cases count with
  | zero => simp [compositeLoop]
  | succ n =>
    cases c with
    | true => simp [compositeLoop]
    | false =>
      have h := compositeLoop_eq_true_iff buf (fun _ => false) (n + 1) p
      simp only [Bool.false_eq_true, and_false, exists_false, iff_false] at h
      simpa using h

/-- The loop without `break` appends the id once per iteration. -/
theorem compositeCollect_eq (buf : List Nat) (cond : Bool) (id count p : Nat) :
    compositeCollect buf cond id count p = if cond then List.replicate count id else [] := by
  induction count generalizing p with
  | zero => simp [compositeCollect]
  | succ n ih =>
    simp only [compositeCollect, ih]
    cases cond <;> simp [List.replicate_succ]

theorem compositeLoop_stateSet_iff (buf : List Nat) (c : Bool) (count p stateSetId : Nat) :
    compositeLoop buf (fun setId => c && setId == stateSetId) count p = true ↔
      c = true ∧ HasStateSet buf p count stateSetId := by
  rw [compositeLoop_eq_true_iff]
  unfold HasStateSet
  constructor
  · rintro ⟨k, hk, hc⟩
    simp only [Bool.and_eq_true, beq_iff_eq] at hc
    exact ⟨hc.1, k, hk, hc.2⟩
  · rintro ⟨hc, k, hk, hs⟩
    exact ⟨k, hk, by simp [hc, hs]⟩

theorem compositeLoop_stateSet_eq (buf : List Nat) (c : Bool) (count p stateSetId : Nat) :
    compositeLoop buf (fun setId => c && setId == stateSetId) count p =
      (c && decide (HasStateSet buf p count stateSetId)) := by
  rw [Bool.eq_iff_iff, compositeLoop_stateSet_iff]
  simp

/-! ## `findStateEffecterPDR` and `findStateSensorPDR` -/

theorem findStateEffecterPDR_eq_filter (tid entityID stateSetId : Nat)
    (repo : List pldm_pdr_record) :
    findStateEffecterPDR tid entityID stateSetId repo =
      (repo.filter (fun r => decide (EffecterStateSetMatch entityID stateSetId r))).map
        (fun r => r.data) := by
  induction repo with
  | nil => rfl
  | cons r rs ih =>
    simp only [findStateEffecterPDR, compositeLoop_stateSet_eq, List.filter_cons, ih,
      EffecterStateSetMatch]
    by_cases ht : r.pdr_type = PLDM_STATE_EFFECTER_PDR
    · by_cases he : (pldm_state_effecter_pdr.mk r.data).entity_type = entityID
      · by_cases hs : HasStateSet r.data (pldm_state_effecter_pdr.mk r.data).possible_states
            (pldm_state_effecter_pdr.mk r.data).composite_effecter_count stateSetId
        · simp [ht, he, hs]
        · simp [ht, he, hs]
      · simp [ht, he]
    · simp [ht]

theorem findStateSensorPDR_eq_filter (tid entityID stateSetId : Nat)
    (repo : List pldm_pdr_record) :
    findStateSensorPDR tid entityID stateSetId repo =
      (repo.filter (fun r => decide (SensorStateSetMatch entityID stateSetId r))).map
        (fun r => r.data) := by
  induction repo with
  | nil => rfl
  | cons r rs ih =>
    simp only [findStateSensorPDR, compositeLoop_stateSet_eq, List.filter_cons, ih,
      SensorStateSetMatch]
    by_cases ht : r.pdr_type = PLDM_STATE_SENSOR_PDR
    · by_cases he : (pldm_state_sensor_pdr.mk r.data).entity_type = entityID
      · by_cases hs : HasStateSet r.data (pldm_state_sensor_pdr.mk r.data).possible_states
            (pldm_state_sensor_pdr.mk r.data).composite_sensor_count stateSetId
        · simp [ht, he, hs]
        · simp [ht, he, hs]
      · simp [ht, he]
    · simp [ht]

/-- C9: `findStateEffecterPDR` (and `findStateSensorPDR` for sensor PDRs)
returns exactly the sub-list, in repository order, of the byte buffers of the
records of its PDR type whose entity_type equals `entityID` and that have an
entry with state_set_id `stateSetId` among their first composite_count entries;
each such record appears once, so the result is a sub-list of the buffers of
the repository and is never longer than the repository. -/
theorem findStatePDR_exact_sublist (tid entityID stateSetId : Nat)
    (repo : List pldm_pdr_record) :
    (findStateEffecterPDR tid entityID stateSetId repo =
        (repo.filter (fun r => decide (EffecterStateSetMatch entityID stateSetId r))).map
          (fun r => r.data) ∧
      findStateSensorPDR tid entityID stateSetId repo =
        (repo.filter (fun r => decide (SensorStateSetMatch entityID stateSetId r))).map
          (fun r => r.data)) ∧
    ((findStateEffecterPDR tid entityID stateSetId repo).Sublist
        (repo.map (fun r => r.data)) ∧
      (findStateSensorPDR tid entityID stateSetId repo).Sublist
        (repo.map (fun r => r.data))) ∧
    ((findStateEffecterPDR tid entityID stateSetId repo).length ≤ repo.length ∧
      (findStateSensorPDR tid entityID stateSetId repo).length ≤ repo.length) := by
  have he := findStateEffecterPDR_eq_filter tid entityID stateSetId repo
  have hs := findStateSensorPDR_eq_filter tid entityID stateSetId repo
  have sube : (findStateEffecterPDR tid entityID stateSetId repo).Sublist
      (repo.map (fun r => r.data)) := by
    rw [he]; exact (List.filter_sublist repo).map _
  have subs : (findStateSensorPDR tid entityID stateSetId repo).Sublist
      (repo.map (fun r => r.data)) := by
    rw [hs]; exact (List.filter_sublist repo).map _
  refine ⟨⟨he, hs⟩, ⟨sube, subs⟩, ?_, ?_⟩
  · simpa using sube.length_le
  · simpa using subs.length_le

/-! ## `getStateEffecterPDRsByType` and `getStateSensorPDRsByType` -/

theorem getStateEffecterPDRsByType_eq_filter (tid entityType : Nat)
    (repo : List pldm_pdr_record) :
    getStateEffecterPDRsByType tid entityType repo =
      (repo.filter (fun r => decide (EffecterTypeMatch entityType r ∧
          0 < (pldm_state_effecter_pdr.mk r.data).composite_effecter_count))).map
        (fun r => r.data) := by
  induction repo with
  | nil => rfl
  | cons r rs ih =>
    simp only [getStateEffecterPDRsByType, compositeLoop_const, List.filter_cons, ih,
      EffecterTypeMatch]
    by_cases ht : r.pdr_type = PLDM_STATE_EFFECTER_PDR
    · by_cases he : (pldm_state_effecter_pdr.mk r.data).entity_type = entityType
      · by_cases hc : 0 < (pldm_state_effecter_pdr.mk r.data).composite_effecter_count
        · simp [ht, he, hc]
        · simp [ht, he, hc]
      · simp [ht, he]
    · simp [ht]

theorem getStateSensorPDRsByType_eq_filter (tid entityType : Nat)
    (repo : List pldm_pdr_record) :
    getStateSensorPDRsByType tid entityType repo =
      (repo.filter (fun r => decide (SensorTypeMatch entityType r ∧
          0 < (pldm_state_sensor_pdr.mk r.data).composite_sensor_count))).map
        (fun r => r.data) := by
  induction repo with
  | nil => rfl
  | cons r rs ih =>
    simp only [getStateSensorPDRsByType, compositeLoop_const, List.filter_cons, ih,
      SensorTypeMatch]
    by_cases ht : r.pdr_type = PLDM_STATE_SENSOR_PDR
    · by_cases he : (pldm_state_sensor_pdr.mk r.data).entity_type = entityType
      · by_cases hc : 0 < (pldm_state_sensor_pdr.mk r.data).composite_sensor_count
        · simp [ht, he, hc]
        · simp [ht, he, hc]
      · simp [ht, he]
    · simp [ht]

/-- C8, as stated, fails: a STATE_EFFECTER record of entity type 33 whose
composite_effecter_count is 0 is not copied by `getStateEffecterPDRsByType`,
although it is a record of that type and entity type. -/
theorem getStateEffecterPDRsByType_omits_countless_record :
    getStateEffecterPDRsByType 1 33
        [⟨11, false, [1, 0, 0, 0, 1, 11, 0, 0, 15, 0, 1, 0, 7, 0, 33, 0, 1, 0, 0, 0,
          0, 0, 0, 0, 0]⟩] ≠
      (List.filter (fun r => decide (EffecterTypeMatch 33 r))
        [⟨11, false, [1, 0, 0, 0, 1, 11, 0, 0, 15, 0, 1, 0, 7, 0, 33, 0, 1, 0, 0, 0,
          0, 0, 0, 0, 0]⟩]).map (fun r => r.data) := by
  decide

/-- C8, amended: `getStateEffecterPDRsByType` (and `getStateSensorPDRsByType`
for sensor PDRs) returns exactly the sub-list, in repository order, of the byte
buffers of the records of its PDR type whose entity_type equals `entityType`
and whose composite count is at least 1. -/
theorem getStatePDRsByType_exact_sublist (tid entityType : Nat)
    (repo : List pldm_pdr_record) :
    getStateEffecterPDRsByType tid entityType repo =
        (repo.filter (fun r => decide (EffecterTypeMatch entityType r ∧
            1 ≤ (pldm_state_effecter_pdr.mk r.data).composite_effecter_count))).map
          (fun r => r.data) ∧
      getStateSensorPDRsByType tid entityType repo =
        (repo.filter (fun r => decide (SensorTypeMatch entityType r ∧
            1 ≤ (pldm_state_sensor_pdr.mk r.data).composite_sensor_count))).map
          (fun r => r.data) :=
  ⟨getStateEffecterPDRsByType_eq_filter tid entityType repo,
    getStateSensorPDRsByType_eq_filter tid entityType repo⟩

/-! ## `findStateEffecterId` -/

theorem compositeLoop_query_iff (buf : List Nat) (c : Bool) (count p stateSetId : Nat) :
    compositeLoop buf (fun setId => c && stateSetId == setId) count p = true ↔
      c = true ∧ HasStateSet buf p count stateSetId := by
  rw [compositeLoop_eq_true_iff]
  unfold HasStateSet
  constructor
  · rintro ⟨k, hk, hc⟩
    simp only [Bool.and_eq_true, beq_iff_eq] at hc
    exact ⟨hc.1, k, hk, hc.2.symm⟩
  · rintro ⟨hc, k, hk, hs⟩
    exact ⟨k, hk, by simp [hc, hs]⟩

theorem findStateEffecterId_cons_hit (x : pldm_pdr_record) (xs : List pldm_pdr_record)
    (entityType entityInstance containerId stateSetId : Nat) (localOrRemote : Bool)
    (ha : Admitted localOrRemote x)
    (hm : EffecterKeyMatch entityType entityInstance containerId stateSetId x) :
    findStateEffecterId (x :: xs) entityType entityInstance containerId stateSetId
      localOrRemote = (pldm_state_effecter_pdr.mk x.data).effecter_id := by
  obtain ⟨⟨ht, he, hi, hc⟩, hs⟩ := hm
  have hl := (compositeLoop_query_iff x.data
    (entityType == (pldm_state_effecter_pdr.mk x.data).entity_type &&
      entityInstance == (pldm_state_effecter_pdr.mk x.data).entity_instance &&
      containerId == (pldm_state_effecter_pdr.mk x.data).container_id)
    (pldm_state_effecter_pdr.mk x.data).composite_effecter_count
    (pldm_state_effecter_pdr.mk x.data).possible_states stateSetId).mpr
    ⟨by simp [he, hi, hc], hs⟩
  unfold Admitted at ha
  rw [findStateEffecterId, if_pos ⟨ht, ha⟩]
  simp only [hl, if_true]

theorem findStateEffecterId_cons_skip (x : pldm_pdr_record) (xs : List pldm_pdr_record)
    (entityType entityInstance containerId stateSetId : Nat) (localOrRemote : Bool)
    (h : ¬ (Admitted localOrRemote x ∧
      EffecterKeyMatch entityType entityInstance containerId stateSetId x)) :
    findStateEffecterId (x :: xs) entityType entityInstance containerId stateSetId
      localOrRemote =
    findStateEffecterId xs entityType entityInstance containerId stateSetId
      localOrRemote := by
  rw [findStateEffecterId]
  split
  · rename_i hta
    have hl : ¬ (compositeLoop x.data
        (fun setId => entityType == (pldm_state_effecter_pdr.mk x.data).entity_type &&
          entityInstance == (pldm_state_effecter_pdr.mk x.data).entity_instance &&
          containerId == (pldm_state_effecter_pdr.mk x.data).container_id &&
          stateSetId == setId)
        (pldm_state_effecter_pdr.mk x.data).composite_effecter_count
        (pldm_state_effecter_pdr.mk x.data).possible_states = true) := by
      intro hl
      rw [compositeLoop_query_iff] at hl
      obtain ⟨hc, hs⟩ := hl
      simp only [Bool.and_eq_true, beq_iff_eq] at hc
      exact h ⟨hta.2, ⟨hta.1, hc.1.1.symm, hc.1.2.symm, hc.2.symm⟩, hs⟩
    simp [hl]
  · rfl

theorem findStateEffecterId_eq_find (repo : List pldm_pdr_record)
    (entityType entityInstance containerId stateSetId : Nat) (localOrRemote : Bool) :
    findStateEffecterId repo entityType entityInstance containerId stateSetId
      localOrRemote =
    match repo.find? (fun r => decide (Admitted localOrRemote r ∧
        EffecterKeyMatch entityType entityInstance containerId stateSetId r)) with
    | some r => (pldm_state_effecter_pdr.mk r.data).effecter_id
    | none => PLDM_INVALID_EFFECTER_ID := by
  induction repo with
  | nil => simp [findStateEffecterId]
  | cons x xs ih =>
    by_cases h : Admitted localOrRemote x ∧
        EffecterKeyMatch entityType entityInstance containerId stateSetId x
    · rw [findStateEffecterId_cons_hit x xs _ _ _ _ _ h.1 h.2,
        List.find?_cons_of_pos _ (by simpa using h)]
    · rw [findStateEffecterId_cons_skip x xs _ _ _ _ _ h, ih,
        List.find?_cons_of_neg _ (by simpa using h)]

/-- C1: if some STATE_EFFECTER record admitted by the remote-flag filter has
entity_type, entity_instance and container_id equal to the query and, among its
first composite_count entries, one with the queried state_set_id, then
`findStateEffecterId` returns the effecter_id of the first such record in
repository order: the repository splits into records that are not such
records, that first record, and the rest. -/
theorem findStateEffecterId_first_match (repo : List pldm_pdr_record)
    (entityType entityInstance containerId stateSetId : Nat) (localOrRemote : Bool)
    (h : ∃ r ∈ repo, Admitted localOrRemote r ∧
      EffecterKeyMatch entityType entityInstance containerId stateSetId r) :
    ∃ pre r post, repo = pre ++ r :: post ∧
      (∀ x ∈ pre, ¬ (Admitted localOrRemote x ∧
        EffecterKeyMatch entityType entityInstance containerId stateSetId x)) ∧
      (Admitted localOrRemote r ∧
        EffecterKeyMatch entityType entityInstance containerId stateSetId r) ∧
      findStateEffecterId repo entityType entityInstance containerId stateSetId
        localOrRemote = (pldm_state_effecter_pdr.mk r.data).effecter_id := by
  have hf := findStateEffecterId_eq_find repo entityType entityInstance containerId
    stateSetId localOrRemote
  cases hfind : repo.find? (fun r => decide (Admitted localOrRemote r ∧
      EffecterKeyMatch entityType entityInstance containerId stateSetId r)) with
  | none =>
    rw [List.find?_eq_none] at hfind
    obtain ⟨r, hr, hm⟩ := h
    exact absurd (by simpa using hm) (hfind r hr)
  | some r =>
    rw [hfind] at hf
    rw [List.find?_eq_some] at hfind
    obtain ⟨hp, pre, post, hrepo, hpre⟩ := hfind
    refine ⟨pre, r, post, hrepo, ?_, by simpa using hp, hf⟩
    intro x hx hm
    have hx2 := hpre x hx
    simp only [Bool.not_eq_true', decide_eq_false_iff_not] at hx2
    exact hx2 hm

/-- C1 at a concrete repository: a sensor PDR, a remote effecter PDR (not
admitted when `localOrRemote` is true) and two local effecter PDRs with the
queried key; the first local one is found. -/
theorem findStateEffecterId_first_match_witness :
    (∃ r ∈ [sensorLocal3, effecterRemote5, effecterLocal7, effecterLocal9],
      Admitted true r ∧ EffecterKeyMatch 33 1 0 196 r) ∧
    ∃ pre r post,
      [sensorLocal3, effecterRemote5, effecterLocal7, effecterLocal9] = pre ++ r :: post ∧
      (∀ x ∈ pre, ¬ (Admitted true x ∧ EffecterKeyMatch 33 1 0 196 x)) ∧
      (Admitted true r ∧ EffecterKeyMatch 33 1 0 196 r) ∧
      findStateEffecterId [sensorLocal3, effecterRemote5, effecterLocal7, effecterLocal9]
        33 1 0 196 true = (pldm_state_effecter_pdr.mk r.data).effecter_id :=
  ⟨by decide,
    findStateEffecterId_first_match
      [sensorLocal3, effecterRemote5, effecterLocal7, effecterLocal9] 33 1 0 196 true
      (by decide)⟩

/-! ## `findStateSensorId` -/

theorem compositeLoop_sensor_query_iff (buf : List Nat) (c d : Bool)
    (count p stateSetId : Nat) :
    compositeLoop buf (fun setId => c && stateSetId == setId && d) count p = true ↔
      (c = true ∧ d = true) ∧ HasStateSet buf p count stateSetId := by
  rw [compositeLoop_eq_true_iff]
  unfold HasStateSet
  constructor
  · rintro ⟨k, hk, hc⟩
    simp only [Bool.and_eq_true, beq_iff_eq] at hc
    exact ⟨⟨hc.1.1, hc.2⟩, k, hk, hc.1.2.symm⟩
  · rintro ⟨⟨hc, hd⟩, k, hk, hs⟩
    exact ⟨k, hk, by simp [hc, hd, hs]⟩

theorem findStateSensorId_scan_cons_hit (x : pldm_pdr_record) (pdrs : List (List Nat))
    (entityType entityInstance containerId stateSetId : Nat)
    (hm : SensorKeyMatch entityType entityInstance containerId stateSetId x) :
    findStateSensorId.scan entityType entityInstance containerId stateSetId
      (x.data :: pdrs) = (pldm_state_sensor_pdr.mk x.data).sensor_id := by
  obtain ⟨⟨_, he, hi, hc⟩, hs⟩ := hm
  have hl := (compositeLoop_sensor_query_iff x.data
    (entityType == (pldm_state_sensor_pdr.mk x.data).entity_type &&
      entityInstance == (pldm_state_sensor_pdr.mk x.data).entity_instance)
    (containerId == (pldm_state_sensor_pdr.mk x.data).container_id)
    (pldm_state_sensor_pdr.mk x.data).composite_sensor_count
    (pldm_state_sensor_pdr.mk x.data).possible_states stateSetId).mpr
    ⟨⟨by simp [he, hi], by simp [hc]⟩, hs⟩
  rw [findStateSensorId.scan]
  simp only [hl, if_true]

theorem findStateSensorId_scan_cons_skip (x : pldm_pdr_record) (pdrs : List (List Nat))
    (entityType entityInstance containerId stateSetId : Nat)
    (ht : x.pdr_type = PLDM_STATE_SENSOR_PDR)
    (h : ¬ SensorKeyMatch entityType entityInstance containerId stateSetId x) :
    findStateSensorId.scan entityType entityInstance containerId stateSetId
      (x.data :: pdrs) =
    findStateSensorId.scan entityType entityInstance containerId stateSetId pdrs := by
  have hl : ¬ (compositeLoop x.data
      (fun setId => entityType == (pldm_state_sensor_pdr.mk x.data).entity_type &&
        entityInstance == (pldm_state_sensor_pdr.mk x.data).entity_instance &&
        stateSetId == setId &&
        containerId == (pldm_state_sensor_pdr.mk x.data).container_id)
      (pldm_state_sensor_pdr.mk x.data).composite_sensor_count
      (pldm_state_sensor_pdr.mk x.data).possible_states = true) := by
    intro hl
    rw [compositeLoop_sensor_query_iff] at hl
    obtain ⟨⟨hc, hd⟩, hs⟩ := hl
    simp only [Bool.and_eq_true, beq_iff_eq] at hc hd
    exact h ⟨⟨ht, hc.1.symm, hc.2.symm, hd.symm⟩, hs⟩
  rw [findStateSensorId.scan]
  simp [hl]

theorem findStateSensorId_cons_hit (x : pldm_pdr_record) (xs : List pldm_pdr_record)
    (tid entityType entityInstance containerId stateSetId : Nat)
    (hm : SensorKeyMatch entityType entityInstance containerId stateSetId x) :
    findStateSensorId (x :: xs) tid entityType entityInstance containerId stateSetId =
      (pldm_state_sensor_pdr.mk x.data).sensor_id := by
  have hp : SensorStateSetMatch entityType stateSetId x := ⟨hm.1.1, hm.1.2.1, hm.2⟩
  simp only [findStateSensorId, findStateSensorPDR_eq_filter, List.filter_cons, hp,
    decide_True, if_true, List.map_cons]
  exact findStateSensorId_scan_cons_hit x _ _ _ _ _ hm

theorem findStateSensorId_cons_skip (x : pldm_pdr_record) (xs : List pldm_pdr_record)
    (tid entityType entityInstance containerId stateSetId : Nat)
    (h : ¬ SensorKeyMatch entityType entityInstance containerId stateSetId x) :
    findStateSensorId (x :: xs) tid entityType entityInstance containerId stateSetId =
      findStateSensorId xs tid entityType entityInstance containerId stateSetId := by
  simp only [findStateSensorId, findStateSensorPDR_eq_filter, List.filter_cons]
  by_cases hp : SensorStateSetMatch entityType stateSetId x
  · simp only [hp, decide_True, if_true, List.map_cons]
    exact findStateSensorId_scan_cons_skip x _ _ _ _ _ hp.1 h
  · simp [hp]

theorem findStateSensorId_eq_find (repo : List pldm_pdr_record)
    (tid entityType entityInstance containerId stateSetId : Nat) :
    findStateSensorId repo tid entityType entityInstance containerId stateSetId =
    match repo.find? (fun r => decide
        (SensorKeyMatch entityType entityInstance containerId stateSetId r)) with
    | some r => (pldm_state_sensor_pdr.mk r.data).sensor_id
    | none => PLDM_INVALID_EFFECTER_ID := by
  induction repo with
  | nil => simp [findStateSensorId, findStateSensorPDR, findStateSensorId.scan]
  | cons x xs ih =>
    by_cases h : SensorKeyMatch entityType entityInstance containerId stateSetId x
    · rw [findStateSensorId_cons_hit x xs _ _ _ _ _ h,
        List.find?_cons_of_pos _ (by simpa using h)]
    · rw [findStateSensorId_cons_skip x xs _ _ _ _ _ h, ih,
        List.find?_cons_of_neg _ (by simpa using h)]

/-- C4: if some STATE_SENSOR record has entity_type, entity_instance and
container_id equal to the query and, among its first composite_count entries,
one with the queried state_set_id, then `findStateSensorId` returns the
sensor_id of the first such record in repository order. -/
theorem findStateSensorId_first_match (repo : List pldm_pdr_record)
    (tid entityType entityInstance containerId stateSetId : Nat)
    (h : ∃ r ∈ repo, SensorKeyMatch entityType entityInstance containerId stateSetId r) :
    ∃ pre r post, repo = pre ++ r :: post ∧
      (∀ x ∈ pre, ¬ SensorKeyMatch entityType entityInstance containerId stateSetId x) ∧
      SensorKeyMatch entityType entityInstance containerId stateSetId r ∧
      findStateSensorId repo tid entityType entityInstance containerId stateSetId =
        (pldm_state_sensor_pdr.mk r.data).sensor_id := by
  have hf := findStateSensorId_eq_find repo tid entityType entityInstance containerId
    stateSetId
  cases hfind : repo.find? (fun r => decide
      (SensorKeyMatch entityType entityInstance containerId stateSetId r)) with
  | none =>
    rw [List.find?_eq_none] at hfind
    obtain ⟨r, hr, hm⟩ := h
    exact absurd (by simpa using hm) (hfind r hr)
  | some r =>
    rw [hfind] at hf
    rw [List.find?_eq_some] at hfind
    obtain ⟨hp, pre, post, hrepo, hpre⟩ := hfind
    refine ⟨pre, r, post, hrepo, ?_, by simpa using hp, hf⟩
    intro x hx hm
    have hx2 := hpre x hx
    simp only [Bool.not_eq_true', decide_eq_false_iff_not] at hx2
    exact hx2 hm

/-- C4 at a concrete repository: an effecter PDR, a sensor PDR of another
entity instance, and two sensor PDRs with the queried key (the first of them
remote); the first one is found. -/
theorem findStateSensorId_first_match_witness :
    (∃ r ∈ [effecterLocal7, sensorLocal4, sensorRemote6, sensorLocal3],
      SensorKeyMatch 33 1 0 196 r) ∧
    ∃ pre r post,
      [effecterLocal7, sensorLocal4, sensorRemote6, sensorLocal3] = pre ++ r :: post ∧
      (∀ x ∈ pre, ¬ SensorKeyMatch 33 1 0 196 x) ∧
      SensorKeyMatch 33 1 0 196 r ∧
      findStateSensorId [effecterLocal7, sensorLocal4, sensorRemote6, sensorLocal3]
        1 33 1 0 196 = (pldm_state_sensor_pdr.mk r.data).sensor_id :=
  ⟨by decide,
    findStateSensorId_first_match
      [effecterLocal7, sensorLocal4, sensorRemote6, sensorLocal3] 1 33 1 0 196
      (by decide)⟩

/-! ## No match -/

/-- C2: when no record/entry pair matches the query (no admitted STATE_EFFECTER
record, respectively no STATE_SENSOR record, has equal entity_type,
entity_instance and container_id together with a composite entry of the queried
state_set_id), `findStateEffecterId` and `findStateSensorId` return
`PLDM_INVALID_EFFECTER_ID`; in particular on the empty repository. -/
theorem findStateId_no_match (repo : List pldm_pdr_record)
    (tid entityType entityInstance containerId stateSetId : Nat) (localOrRemote : Bool) :
    ((∀ r ∈ repo, ¬ (Admitted localOrRemote r ∧
        EffecterKeyMatch entityType entityInstance containerId stateSetId r)) →
      findStateEffecterId repo entityType entityInstance containerId stateSetId
        localOrRemote = PLDM_INVALID_EFFECTER_ID) ∧
    ((∀ r ∈ repo, ¬ SensorKeyMatch entityType entityInstance containerId stateSetId r) →
      findStateSensorId repo tid entityType entityInstance containerId stateSetId =
        PLDM_INVALID_EFFECTER_ID) ∧
    findStateEffecterId [] entityType entityInstance containerId stateSetId
      localOrRemote = PLDM_INVALID_EFFECTER_ID ∧
    findStateSensorId [] tid entityType entityInstance containerId stateSetId =
      PLDM_INVALID_EFFECTER_ID := by
  refine ⟨?_, ?_, ?_, ?_⟩
  · intro h
    have hnone : repo.find? (fun r => decide (Admitted localOrRemote r ∧
        EffecterKeyMatch entityType entityInstance containerId stateSetId r)) = none := by
      rw [List.find?_eq_none]
      intro r hr
      simpa using h r hr
    rw [findStateEffecterId_eq_find, hnone]
  · intro h
    have hnone : repo.find? (fun r => decide
        (SensorKeyMatch entityType entityInstance containerId stateSetId r)) = none := by
      rw [List.find?_eq_none]
      intro r hr
      simpa using h r hr
    rw [findStateSensorId_eq_find, hnone]
  · simp [findStateEffecterId]
  · simp [findStateSensorId, findStateSensorPDR, findStateSensorId.scan]

/-- C2 at a concrete repository: state set 77 occurs in no record, and both
lookups return the sentinel 0xFFFF. -/
theorem findStateId_no_match_witness :
    findStateEffecterId [sensorLocal3, effecterRemote5, effecterLocal7] 33 1 0 77 true =
      0xFFFF ∧
    findStateSensorId [sensorLocal3, effecterRemote5, effecterLocal7] 1 33 1 0 77 =
      0xFFFF :=
  ⟨(findStateId_no_match [sensorLocal3, effecterRemote5, effecterLocal7] 1 33 1 0 77
      true).1 (by decide),
    (findStateId_no_match [sensorLocal3, effecterRemote5, effecterLocal7] 1 33 1 0 77
      true).2.1 (by decide)⟩

/-! ## The remote-flag filter of `findStateEffecterId` -/

/-- C3, as stated, fails: with the flag argument `true`, the remote record
`effecterRemote5` (is-remote flag equal to the argument) is not examined and
the sentinel is returned, while the first-match scan on the repository
restricted to the records whose is-remote flag equals the argument finds
effecter_id 5. -/
theorem findStateEffecterId_not_scan_of_equal_flag :
    findStateEffecterId [effecterRemote5] 33 1 0 196 true ≠
      firstEffecterMatch
        (List.filter (fun r => pldm_pdr_record_is_remote r == true) [effecterRemote5])
        33 1 0 196 := by
  decide

/-- C3, amended: `findStateEffecterId` examines a STATE_EFFECTER record only when
that record's is-remote flag differs from the boolean flag argument
(`localOrRemote ^ is_remote`): its result equals the result of the first-match
scan run on the repository restricted to the records whose is-remote flag is
not equal to the argument. -/
theorem findStateEffecterId_eq_scan_of_differing_flag (repo : List pldm_pdr_record)
    (entityType entityInstance containerId stateSetId : Nat) (localOrRemote : Bool) :
    findStateEffecterId repo entityType entityInstance containerId stateSetId
      localOrRemote =
    firstEffecterMatch
      (repo.filter (fun r => pldm_pdr_record_is_remote r != localOrRemote))
      entityType entityInstance containerId stateSetId := by
  have hb : ∀ (a b : Bool) (P : Prop) [Decidable P],
      decide (xor a b = true ∧ P) = decide ((b != a) = true ∧ decide P = true) := by
    intro a b P _
    cases a <;> cases b <;> simp
  rw [findStateEffecterId_eq_find, firstEffecterMatch, List.find?_filter]
  have hp : (fun r => decide (Admitted localOrRemote r ∧
        EffecterKeyMatch entityType entityInstance containerId stateSetId r)) =
      (fun r => decide ((pldm_pdr_record_is_remote r != localOrRemote) = true ∧
        decide (EffecterKeyMatch entityType entityInstance containerId stateSetId r) =
          true)) := by
    funext r
    exact hb _ _ _
  rw [hp]

/-! ## `findEffecterIds` and `findSensorIds` -/

theorem filter_flatMap_congr {α β : Type} (p q : α → Bool) (f g : α → List β)
    (h : ∀ r, (if p r = true then f r else []) = (if q r = true then g r else []))
    (l : List α) : (l.filter p).flatMap f = (l.filter q).flatMap g := by
  induction l with
  | nil => rfl
  | cons a l ih =>
    have ha := h a
    cases hp : p a <;> cases hq : q a <;>
      simp only [hp, hq, if_true, if_false, Bool.false_eq_true] at ha <;>
      simp only [List.filter_cons, hp, hq, if_true, if_false, Bool.false_eq_true,
        List.flatMap_cons, ih]
    · rw [← ha, List.nil_append]
    · rw [ha, List.nil_append]
    · rw [ha]

theorem findEffecterIds_collect_map (entityType entityInstance containerId : Nat)
    (rs : List pldm_pdr_record) :
    findEffecterIds.collect entityType entityInstance containerId
        (rs.map (fun r => r.data)) =
      rs.flatMap (fun r =>
        if entityType = (pldm_state_effecter_pdr.mk r.data).entity_type ∧
            entityInstance = (pldm_state_effecter_pdr.mk r.data).entity_instance ∧
            containerId = (pldm_state_effecter_pdr.mk r.data).container_id then
          List.replicate (pldm_state_effecter_pdr.mk r.data).composite_effecter_count
            (pldm_state_effecter_pdr.mk r.data).effecter_id
        else []) := by
  induction rs with
  | nil => rfl
  | cons r rs ih =>
    simp only [List.map_cons, findEffecterIds.collect, compositeCollect_eq, ih,
      List.flatMap_cons, Bool.and_eq_true, beq_iff_eq, and_assoc]

theorem findSensorIds_collect_map (entityType entityInstance containerId : Nat)
    (rs : List pldm_pdr_record) :
    findSensorIds.collect entityType entityInstance containerId
        (rs.map (fun r => r.data)) =
      rs.flatMap (fun r =>
        if entityType = (pldm_state_sensor_pdr.mk r.data).entity_type ∧
            entityInstance = (pldm_state_sensor_pdr.mk r.data).entity_instance ∧
            containerId = (pldm_state_sensor_pdr.mk r.data).container_id then
          List.replicate (pldm_state_sensor_pdr.mk r.data).composite_sensor_count
            (pldm_state_sensor_pdr.mk r.data).sensor_id
        else []) := by
  induction rs with
  | nil => rfl
  | cons r rs ih =>
    simp only [List.map_cons, findSensorIds.collect, compositeCollect_eq, ih,
      List.flatMap_cons, Bool.and_eq_true, beq_iff_eq, and_assoc]

/-- The list `findEffecterIds` returns: for each STATE_EFFECTER record matching
entity type, instance and container, in repository order, one copy of its
effecter_id per composite entry. -/
theorem findEffecterIds_eq_flatMap (repo : List pldm_pdr_record)
    (tid entityType entityInstance containerId : Nat) :
    findEffecterIds repo tid entityType entityInstance containerId =
      (repo.filter (fun r => decide
          (EffecterEntityMatch entityType entityInstance containerId r))).flatMap
        (fun r =>
          List.replicate (pldm_state_effecter_pdr.mk r.data).composite_effecter_count
            (pldm_state_effecter_pdr.mk r.data).effecter_id) := by
  simp only [findEffecterIds, getStateEffecterPDRsByType_eq_filter,
    findEffecterIds_collect_map]
  apply filter_flatMap_congr
  intro r
  simp only [EffecterTypeMatch, EffecterEntityMatch, decide_eq_true_eq]
  by_cases ht : r.pdr_type = PLDM_STATE_EFFECTER_PDR
  · by_cases he : (pldm_state_effecter_pdr.mk r.data).entity_type = entityType
    · by_cases hi : (pldm_state_effecter_pdr.mk r.data).entity_instance = entityInstance
      · by_cases hk : (pldm_state_effecter_pdr.mk r.data).container_id = containerId
        · by_cases hc : 0 < (pldm_state_effecter_pdr.mk r.data).composite_effecter_count
          · simp [ht, he, hi, hk, hc]
          · have hz : (pldm_state_effecter_pdr.mk r.data).composite_effecter_count = 0 := by
              omega
            simp [ht, he, hi, hk, hz]
        · simp [ht, he, hi, hk, Ne.symm hk]
      · simp [ht, he, hi, Ne.symm hi]
    · simp [ht, he]
  · simp [ht]

/-- The list `findSensorIds` returns, as for `findEffecterIds`. -/
theorem findSensorIds_eq_flatMap (repo : List pldm_pdr_record)
    (tid entityType entityInstance containerId : Nat) :
    findSensorIds repo tid entityType entityInstance containerId =
      (repo.filter (fun r => decide
          (SensorEntityMatch entityType entityInstance containerId r))).flatMap
        (fun r =>
          List.replicate (pldm_state_sensor_pdr.mk r.data).composite_sensor_count
            (pldm_state_sensor_pdr.mk r.data).sensor_id) := by
  simp only [findSensorIds, getStateSensorPDRsByType_eq_filter,
    findSensorIds_collect_map]
  apply filter_flatMap_congr
  intro r
  simp only [SensorTypeMatch, SensorEntityMatch, decide_eq_true_eq]
  by_cases ht : r.pdr_type = PLDM_STATE_SENSOR_PDR
  · by_cases he : (pldm_state_sensor_pdr.mk r.data).entity_type = entityType
    · by_cases hi : (pldm_state_sensor_pdr.mk r.data).entity_instance = entityInstance
      · by_cases hk : (pldm_state_sensor_pdr.mk r.data).container_id = containerId
        · by_cases hc : 0 < (pldm_state_sensor_pdr.mk r.data).composite_sensor_count
          · simp [ht, he, hi, hk, hc]
          · have hz : (pldm_state_sensor_pdr.mk r.data).composite_sensor_count = 0 := by
              omega
            simp [ht, he, hi, hk, hz]
        · simp [ht, he, hi, hk, Ne.symm hk]
      · simp [ht, he, hi, Ne.symm hi]
    · simp [ht, he]
  · simp [ht]

theorem length_flatMap_replicate {α : Type} (n v : α → Nat) (l : List α) :
    (l.flatMap (fun r => List.replicate (n r) (v r))).length = (l.map n).sum := by
  induction l with
  | nil => rfl
  | cons a l ih => simp [List.flatMap_cons, ih]

theorem sum_map_le_length {α : Type} (n : α → Nat) (l : List α)
    (h : ∀ r ∈ l, n r ≤ 1) : (l.map n).sum ≤ l.length := by
  induction l with
  | nil => simp
  | cons a l ih =>
    have ha := h a (List.mem_cons_self a l)
    have hl := ih (fun r hr => h r (List.mem_cons_of_mem a hr))
    simp only [List.map_cons, List.sum_cons, List.length_cons]
    omega

/-- C5, as stated, fails: the single record `effecterLocal7` has two composite
entries and contributes its effecter_id twice, so the result (length 2) is
longer than the number of records matching entity type, instance and
container (1). -/
theorem findEffecterIds_longer_than_matching_records :
    ¬ ((findEffecterIds [effecterLocal7] 1 33 1 0).length ≤
      (List.filter (fun r => decide (EffecterEntityMatch 33 1 0 r))
        [effecterLocal7]).length) := by
  decide

/-- C5, amended: `findEffecterIds` collects IDs once per composite entry: each
STATE_EFFECTER record contributes at most composite_effecter_count elements, so
the length of the result is at most the sum of the composite counts of the
records matching entity type, instance and container; it is at most the number
of those records when none of them has more than one composite entry. -/
theorem findEffecterIds_length_le (repo : List pldm_pdr_record)
    (tid entityType entityInstance containerId : Nat) :
    (findEffecterIds repo tid entityType entityInstance containerId).length ≤
      ((repo.filter (fun r => decide
          (EffecterEntityMatch entityType entityInstance containerId r))).map
        (fun r => (pldm_state_effecter_pdr.mk r.data).composite_effecter_count)).sum ∧
    ((∀ r ∈ repo, EffecterEntityMatch entityType entityInstance containerId r →
        (pldm_state_effecter_pdr.mk r.data).composite_effecter_count ≤ 1) →
      (findEffecterIds repo tid entityType entityInstance containerId).length ≤
        (repo.filter (fun r => decide
          (EffecterEntityMatch entityType entityInstance containerId r))).length) := by
  rw [findEffecterIds_eq_flatMap, length_flatMap_replicate]
  refine ⟨le_refl _, fun h => ?_⟩
  apply sum_map_le_length
  intro r hr
  rw [List.mem_filter] at hr
  exact h r hr.1 (by simpa using hr.2)

/-- C5, amended, at a concrete repository: two matching records, one of them
with one composite entry and one with none; the result has one element. -/
theorem findEffecterIds_length_le_witness :
    (findEffecterIds [effecterLocal9, effecterCountless8, sensorLocal3] 1 33 1 0).length ≤
      (List.filter (fun r => decide (EffecterEntityMatch 33 1 0 r))
        [effecterLocal9, effecterCountless8, sensorLocal3]).length :=
  (findEffecterIds_length_le [effecterLocal9, effecterCountless8, sensorLocal3]
    1 33 1 0).2 (by decide)

/-- C6, as stated, fails: `effecterCountless8` is a STATE_EFFECTER record whose
entity type, instance and container equal the query, but its
composite_effecter_count is 0 and its effecter_id 8 is not in the result. -/
theorem findEffecterIds_misses_countless_record :
    ¬ (∀ r ∈ [effecterCountless8], EffecterEntityMatch 33 1 0 r →
      (pldm_state_effecter_pdr.mk r.data).effecter_id ∈
        findEffecterIds [effecterCountless8] 1 33 1 0) := by
  decide

/-- C6, amended: the effecter_id of every STATE_EFFECTER record whose
entity_type, entity_instance and container_id equal the query and whose
composite_effecter_count is at least 1 occurs in the result of
`findEffecterIds`, whatever the state_set_id values of its composite entries
are, and every element of the result is the effecter_id of a STATE_EFFECTER
record whose entity_type, entity_instance and container_id equal the query. -/
theorem findEffecterIds_mem (repo : List pldm_pdr_record)
    (tid entityType entityInstance containerId : Nat) :
    (∀ r ∈ repo, EffecterEntityMatch entityType entityInstance containerId r →
      1 ≤ (pldm_state_effecter_pdr.mk r.data).composite_effecter_count →
      (pldm_state_effecter_pdr.mk r.data).effecter_id ∈
        findEffecterIds repo tid entityType entityInstance containerId) ∧
    (∀ x ∈ findEffecterIds repo tid entityType entityInstance containerId,
      ∃ r ∈ repo, EffecterEntityMatch entityType entityInstance containerId r ∧
        (pldm_state_effecter_pdr.mk r.data).effecter_id = x) := by
  rw [findEffecterIds_eq_flatMap]
  constructor
  · intro r hr hm hc
    rw [List.mem_flatMap]
    refine ⟨r, ?_, ?_⟩
    · rw [List.mem_filter]
      exact ⟨hr, by simpa using hm⟩
    · rw [List.mem_replicate]
      exact ⟨by omega, rfl⟩
  · intro x hx
    rw [List.mem_flatMap] at hx
    obtain ⟨r, hr, hx⟩ := hx
    rw [List.mem_filter] at hr
    rw [List.mem_replicate] at hx
    exact ⟨r, hr.1, by simpa using hr.2, hx.2.symm⟩

/-- C6, amended, at a concrete repository: effecter_id 7 of `effecterLocal7`
(two composite entries) is in the result. -/
theorem findEffecterIds_mem_witness :
    (pldm_state_effecter_pdr.mk effecterLocal7.data).effecter_id ∈
      findEffecterIds [effecterCountless8, effecterLocal7, sensorLocal3] 1 33 1 0 :=
  (findEffecterIds_mem [effecterCountless8, effecterLocal7, sensorLocal3] 1 33 1 0).1
    effecterLocal7 (by decide) (by decide) (by decide)

/-- C7: `findSensorIds` is symmetric to `findEffecterIds`: on a repository of
STATE_SENSOR PDRs it returns the same list of IDs as `findEffecterIds` on a
repository of STATE_EFFECTER PDRs that has, record by record, the same id,
entity type, instance, container, composite count and possible-states
entries. -/
theorem findSensorIds_eq_findEffecterIds (sensorRepo effecterRepo : List pldm_pdr_record)
    (tid entityType entityInstance containerId : Nat)
    (h : List.Forall₂ SameStatePdr sensorRepo effecterRepo) :
    findSensorIds sensorRepo tid entityType entityInstance containerId =
      findEffecterIds effecterRepo tid entityType entityInstance containerId := by
  rw [findSensorIds_eq_flatMap, findEffecterIds_eq_flatMap]
  induction h with
  | nil => rfl
  | @cons s e ss es hse _ ih =>
    obtain ⟨hts, hte, hid, het, hei, hci, hcc, _⟩ := hse
    have hiff : SensorEntityMatch entityType entityInstance containerId s ↔
        EffecterEntityMatch entityType entityInstance containerId e := by
      unfold SensorEntityMatch EffecterEntityMatch
      rw [het, hei, hci]
      simp [hts, hte]
    by_cases hm : EffecterEntityMatch entityType entityInstance containerId e
    · have hms := hiff.mpr hm
      simp only [List.filter_cons, hm, hms, decide_True, if_true, List.flatMap_cons, ih,
        hid, hcc]
    · have hms : ¬ SensorEntityMatch entityType entityInstance containerId s :=
        fun hs => hm (hiff.mp hs)
      simp only [List.filter_cons, hm, hms, decide_False, if_false, Bool.false_eq_true, ih]

/-- C7 at concrete repositories: the sensor PDR `sensorLocal3` and the effecter
PDR `effecterLocal3` with the same fields give the same list of IDs. -/
theorem findSensorIds_eq_findEffecterIds_witness :
    List.Forall₂ SameStatePdr [sensorLocal3] [effecterLocal3] ∧
    findSensorIds [sensorLocal3] 1 33 1 0 = findEffecterIds [effecterLocal3] 1 33 1 0 :=
  ⟨by decide,
    findSensorIds_eq_findEffecterIds [sensorLocal3] [effecterLocal3] 1 33 1 0 (by decide)⟩

end utils
end pldm

namespace pldm
namespace responder
namespace dma

/-! ## `transferAll` -/

/-- The shape of every run: the calls are some calls that all succeeded followed
by one last call; either the last call failed and the response is the error
response with length 0, or it succeeded and the response is the success
response with the original length. -/
theorem transferAll_loop_shape {σ : Type} (chunk : Nat) (hchunk : 0 < chunk)
    (intf : DMAInterface σ) (command : Nat)
    (path : String) (upstream : Bool) (instanceId origLength : Nat) (length : Nat) :
    ∀ (s : σ) (offset address : Nat),
    ∃ pre last,
      (transferAll.loop chunk hchunk intf command path upstream instanceId origLength s
        offset length address).calls = pre ++ [last] ∧
      (∀ c ∈ pre, 0 ≤ c.2) ∧
      ((last.2 < 0 ∧
          (transferAll.loop chunk hchunk intf command path upstream instanceId origLength s
            offset length address).response =
            encode_rw_file_memory_resp instanceId command PLDM_ERROR 0) ∨
        (0 ≤ last.2 ∧
          (transferAll.loop chunk hchunk intf command path upstream instanceId origLength s
            offset length address).response =
            encode_rw_file_memory_resp instanceId command PLDM_SUCCESS origLength)) := by
  induction length using Nat.strong_induction_on with
  | _ length ih =>
    intro s offset address
    rw [transferAll.loop]
    by_cases hlen : length > chunk
    · simp only [hlen, if_true]
      by_cases hrc : (intf.transferDataHost s path offset chunk address upstream).1 < 0
      · simp only [hrc, if_true]
        exact ⟨[], _, rfl, by simp, Or.inl ⟨hrc, trivial⟩⟩
      · simp only [hrc, if_false]
        obtain ⟨pre, last, hcalls, hpre, hlast⟩ :=
          ih (length - chunk) (by omega)
            (intf.transferDataHost s path offset chunk address upstream).2
            ((offset + chunk) % 2 ^ 32) ((address + chunk) % 2 ^ 64)
        refine ⟨_ :: pre, last, by rw [hcalls]; rfl, ?_, hlast⟩
        intro c hc
        rcases List.mem_cons.mp hc with rfl | hc
        · exact not_lt.mp hrc
        · exact hpre c hc
    · simp only [hlen, if_false]
      by_cases hrc : (intf.transferDataHost s path offset length address upstream).1 < 0
      · simp only [hrc, if_true]
        exact ⟨[], _, rfl, by simp, Or.inl ⟨hrc, trivial⟩⟩
      · simp only [hrc, if_false]
        exact ⟨[], _, rfl, by simp, Or.inr ⟨not_lt.mp hrc, trivial⟩⟩

/-- C10: if some chunk call of `transferAll` returns a negative value, then the
first call that does so is the last call issued (all calls before it returned a
non-negative value and no call follows it), and the response encodes completion
code `PLDM_ERROR` with length 0, however many earlier chunks succeeded. -/
theorem transferAll_failure_aborts {σ : Type} (intf : DMAInterface σ) (s : σ)
    (command : Nat) (path : String) (offset length address : Nat) (upstream : Bool)
    (instanceId : Nat)
    (h : ∃ c ∈ (transferAll intf s command path offset length address upstream
      instanceId).calls, c.2 < 0) :
    ∃ pre last,
      (transferAll intf s command path offset length address upstream instanceId).calls =
        pre ++ [last] ∧
      (∀ c ∈ pre, 0 ≤ c.2) ∧ last.2 < 0 ∧
      (transferAll intf s command path offset length address upstream
        instanceId).response =
        encode_rw_file_memory_resp instanceId command PLDM_ERROR 0 ∧
      (transferAll intf s command path offset length address upstream
        instanceId).response.completion_code = PLDM_ERROR ∧
      (transferAll intf s command path offset length address upstream
        instanceId).response.length = 0 := by
  unfold transferAll at h ⊢
  obtain ⟨pre, last, hcalls, hpre, hlast⟩ :=
    transferAll_loop_shape maxSize (by decide) intf command path upstream instanceId length
      length s offset address
  obtain ⟨c, hc, hneg⟩ := h
  simp only [] at hc ⊢
  rw [hcalls] at hc
  have hlastneg : last.2 < 0 := by
    rcases List.mem_append.mp hc with hc | hc
    · exact absurd hneg (not_lt.mpr (hpre c hc))
    · rw [List.mem_singleton] at hc
      rw [← hc]; exact hneg
  rcases hlast with ⟨_, hresp⟩ | ⟨hnonneg, _⟩
  · refine ⟨pre, last, hcalls, hpre, hlastneg, hresp, ?_, ?_⟩
    · rw [hresp]; rfl
    · rw [hresp]; rfl
  · exact absurd hlastneg (not_lt.mpr hnonneg)

/-- C10 at a concrete run: a request of 3 * maxSize + 10 bytes needs four chunks;
the second call fails, after one successful chunk. -/
theorem transferAll_failure_aborts_witness :
    (∃ c ∈ (transferAll (failingAt 1) 0 6 "/var/lib/pldm/file" 4096 50319370 268435456
      true 9).calls, c.2 < 0) ∧
    ∃ pre last,
      (transferAll (failingAt 1) 0 6 "/var/lib/pldm/file" 4096 50319370 268435456 true
        9).calls = pre ++ [last] ∧
      (∀ c ∈ pre, 0 ≤ c.2) ∧ last.2 < 0 ∧
      (transferAll (failingAt 1) 0 6 "/var/lib/pldm/file" 4096 50319370 268435456 true
        9).response = encode_rw_file_memory_resp 9 6 PLDM_ERROR 0 ∧
      (transferAll (failingAt 1) 0 6 "/var/lib/pldm/file" 4096 50319370 268435456 true
        9).response.completion_code = PLDM_ERROR ∧
      (transferAll (failingAt 1) 0 6 "/var/lib/pldm/file" 4096 50319370 268435456 true
        9).response.length = 0 :=
  ⟨by simp [transferAll, transferAll.loop, failingAt, maxSize],
    transferAll_failure_aborts (failingAt 1) 0 6 "/var/lib/pldm/file" 4096 50319370
      268435456 true 9 (by simp [transferAll, transferAll.loop, failingAt, maxSize])⟩

/-! ## The calls of a run -/

/-- The calls of a run are an initial part of the planned chunk calls, and all of
them when no call failed. -/
theorem transferAll_loop_calls {σ : Type} (chunk : Nat) (hchunk : 0 < chunk)
    (intf : DMAInterface σ) (command : Nat)
    (path : String) (upstream : Bool) (instanceId origLength : Nat) (length : Nat) :
    ∀ (s : σ) (offset address : Nat),
      ((transferAll.loop chunk hchunk intf command path upstream instanceId origLength s
        offset length address).calls.map Prod.fst <+:
          plannedCalls chunk hchunk path upstream offset length address) ∧
      ((∀ c ∈ (transferAll.loop chunk hchunk intf command path upstream instanceId
          origLength s offset length address).calls, 0 ≤ c.2) →
        (transferAll.loop chunk hchunk intf command path upstream instanceId origLength s
          offset length address).calls.map Prod.fst =
          plannedCalls chunk hchunk path upstream offset length address) := by
  induction length using Nat.strong_induction_on with
  | _ length ih =>
    intro s offset address
    rw [transferAll.loop, plannedCalls]
    by_cases hlen : length > chunk
    · simp only [hlen, if_true]
      by_cases hrc : (intf.transferDataHost s path offset chunk address upstream).1 < 0
      · simp only [hrc, if_true, List.map_cons, List.map_nil]
        refine ⟨⟨_, rfl⟩, fun h => ?_⟩
        exact absurd hrc (not_lt.mpr (h _ (List.mem_singleton.mpr rfl)))
      · simp only [hrc, if_false, List.map_cons]
        obtain ⟨hpre, heq⟩ :=
          ih (length - chunk) (by omega)
            (intf.transferDataHost s path offset chunk address upstream).2
            ((offset + chunk) % 2 ^ 32) ((address + chunk) % 2 ^ 64)
        refine ⟨(List.prefix_cons_inj _).mpr hpre, fun h => ?_⟩
        rw [heq (fun c hc => h c (List.mem_cons_of_mem _ hc))]
    · simp only [hlen, if_false]
      by_cases hrc : (intf.transferDataHost s path offset length address upstream).1 < 0
      · simp only [hrc, if_true, List.map_cons, List.map_nil]
        exact ⟨List.prefix_refl _, fun _ => trivial⟩
      · simp only [hrc, if_false, List.map_cons, List.map_nil]
        exact ⟨List.prefix_refl _, fun _ => trivial⟩

/-- Every return value recorded in a run is the value `transferDataHost` returned
for the recorded arguments in some state of the interface. -/
theorem transferAll_loop_returns {σ : Type} (chunk : Nat) (hchunk : 0 < chunk)
    (intf : DMAInterface σ) (command : Nat)
    (path : String) (upstream : Bool) (instanceId origLength : Nat) (length : Nat) :
    ∀ (s : σ) (offset address : Nat),
      ∀ c ∈ (transferAll.loop chunk hchunk intf command path upstream instanceId origLength
          s offset length address).calls,
        ∃ t, c.2 = (intf.transferDataHost t c.1.path c.1.offset c.1.length c.1.address
          c.1.upstream).1 := by
  induction length using Nat.strong_induction_on with
  | _ length ih =>
    intro s offset address
    rw [transferAll.loop]
    by_cases hlen : length > chunk
    · simp only [hlen, if_true]
      by_cases hrc : (intf.transferDataHost s path offset chunk address upstream).1 < 0
      · simp only [hrc, if_true]
        intro c hc
        rw [List.mem_singleton] at hc
        subst hc
        exact ⟨s, rfl⟩
      · simp only [hrc, if_false]
        intro c hc
        rcases List.mem_cons.mp hc with rfl | hc
        · exact ⟨s, rfl⟩
        · exact ih (length - chunk) (by omega) _ _ _ c hc
    · simp only [hlen, if_false]
      by_cases hrc : (intf.transferDataHost s path offset length address upstream).1 < 0
      · simp only [hrc, if_true]
        intro c hc
        rw [List.mem_singleton] at hc
        subst hc
        exact ⟨s, rfl⟩
      · simp only [hrc, if_false]
        intro c hc
        rw [List.mem_singleton] at hc
        subst hc
        exact ⟨s, rfl⟩

/-! ## The planned chunk calls -/

theorem plannedCalls_head (chunk : Nat) (hchunk : 0 < chunk) (path : String)
    (upstream : Bool) (offset length address : Nat) :
    (plannedCalls chunk hchunk path upstream offset length address).head? =
      some ⟨path, offset, min length chunk, address, upstream⟩ := by
  rw [plannedCalls]
  by_cases hlen : length > chunk
  · simp only [hlen, if_true, List.head?_cons]
    rw [Nat.min_eq_right (by omega)]
  · simp only [hlen, if_false, List.head?_cons]
    rw [Nat.min_eq_left (by omega)]

theorem plannedCalls_length (chunk : Nat) (hchunk : 0 < chunk) (path : String)
    (upstream : Bool) (length : Nat) :
    ∀ (offset address : Nat),
      (plannedCalls chunk hchunk path upstream offset length address).length =
        max 1 ((length + chunk - 1) / chunk) := by
  induction length using Nat.strong_induction_on with
  | _ length ih =>
    intro offset address
    rw [plannedCalls]
    by_cases hlen : length > chunk
    · simp only [hlen, if_true, List.length_cons]
      rw [ih (length - chunk) (by omega)]
      have h1 : length + chunk - 1 = (length - chunk + chunk - 1) + chunk := by omega
      have h2 : 1 ≤ (length - chunk + chunk - 1) / chunk := by
        rw [Nat.le_div_iff_mul_le hchunk]; omega
      rw [h1, Nat.add_div_right _ hchunk]
      omega
    · simp only [hlen, if_false, List.length_singleton]
      have h2 : (length + chunk - 1) / chunk < 2 := by
        rw [Nat.div_lt_iff_lt_mul hchunk]; omega
      omega

theorem plannedCalls_sum (chunk : Nat) (hchunk : 0 < chunk) (path : String)
    (upstream : Bool) (length : Nat) :
    ∀ (offset address : Nat),
      ((plannedCalls chunk hchunk path upstream offset length address).map
        (fun c => c.length)).sum = length := by
  induction length using Nat.strong_induction_on with
  | _ length ih =>
    intro offset address
    rw [plannedCalls]
    by_cases hlen : length > chunk
    · simp only [hlen, if_true, List.map_cons, List.sum_cons]
      rw [ih (length - chunk) (by omega)]
      omega
    · simp only [hlen, if_false, List.map_cons, List.map_nil, List.sum_cons, List.sum_nil]
      omega

theorem plannedCalls_le (chunk : Nat) (hchunk : 0 < chunk) (path : String)
    (upstream : Bool) (length : Nat) :
    ∀ (offset address : Nat),
      ∀ c ∈ plannedCalls chunk hchunk path upstream offset length address,
        c.length ≤ chunk := by
  induction length using Nat.strong_induction_on with
  | _ length ih =>
    intro offset address
    rw [plannedCalls]
    by_cases hlen : length > chunk
    · simp only [hlen, if_true]
      intro c hc
      rcases List.mem_cons.mp hc with rfl | hc
      · exact le_refl _
      · exact ih (length - chunk) (by omega) _ _ c hc
    · simp only [hlen, if_false]
      intro c hc
      rw [List.mem_singleton] at hc
      subst hc
      exact not_lt.mp hlen

theorem plannedCalls_advances (chunk : Nat) (hchunk : 0 < chunk) (path : String)
    (upstream : Bool) (length : Nat) :
    ∀ (offset address : Nat),
      List.Chain' Advances
        (plannedCalls chunk hchunk path upstream offset length address) := by
  induction length using Nat.strong_induction_on with
  | _ length ih =>
    intro offset address
    rw [plannedCalls]
    by_cases hlen : length > chunk
    · simp only [hlen, if_true]
      rw [List.chain'_cons']
      refine ⟨?_, ih (length - chunk) (by omega) _ _⟩
      intro y hy
      rw [plannedCalls_head] at hy
      simp only [Option.mem_def, Option.some.injEq] at hy
      subst hy
      exact ⟨rfl, rfl⟩
    · simp only [hlen, if_false]
      exact List.chain'_singleton _

theorem plannedCalls_strictlyAdvances (chunk : Nat) (hchunk : 0 < chunk) (path : String)
    (upstream : Bool) (length : Nat) :
    ∀ (offset address : Nat), offset + length ≤ 2 ^ 32 → address + length ≤ 2 ^ 64 →
      List.Chain' StrictlyAdvances
        (plannedCalls chunk hchunk path upstream offset length address) := by
  induction length using Nat.strong_induction_on with
  | _ length ih =>
    intro offset address ho ha
    rw [plannedCalls]
    by_cases hlen : length > chunk
    · simp only [hlen, if_true]
      have ho2 : (offset + chunk) % 2 ^ 32 = offset + chunk :=
        Nat.mod_eq_of_lt (by omega)
      have ha2 : (address + chunk) % 2 ^ 64 = address + chunk :=
        Nat.mod_eq_of_lt (by omega)
      rw [List.chain'_cons']
      refine ⟨?_, ih (length - chunk) (by omega) _ _ (by omega) (by omega)⟩
      intro y hy
      rw [plannedCalls_head] at hy
      simp only [Option.mem_def, Option.some.injEq] at hy
      subst hy
      unfold StrictlyAdvances
      dsimp only
      rw [ho2, ha2]
      omega
    · simp only [hlen, if_false]
      exact List.chain'_singleton _

/-! ## Successful transfers -/

theorem transferAll_calls_nonneg {σ : Type} (intf : DMAInterface σ) (s : σ)
    (command : Nat) (path : String) (offset length address : Nat) (upstream : Bool)
    (instanceId : Nat)
    (hok : ∀ t p o l a u, 0 ≤ (intf.transferDataHost t p o l a u).1) :
    ∀ c ∈ (transferAll intf s command path offset length address upstream
      instanceId).calls, 0 ≤ c.2 := by
  intro c hc
  obtain ⟨t, ht⟩ := transferAll_loop_returns maxSize (by decide) intf command path upstream
    instanceId length length s offset address c hc
  rw [ht]
  exact hok _ _ _ _ _ _

theorem transferAll_calls_eq_planned {σ : Type} (intf : DMAInterface σ) (s : σ)
    (command : Nat) (path : String) (offset length address : Nat) (upstream : Bool)
    (instanceId : Nat)
    (h : ∀ c ∈ (transferAll intf s command path offset length address upstream
      instanceId).calls, 0 ≤ c.2) :
    (transferAll intf s command path offset length address upstream
      instanceId).calls.map Prod.fst =
      plannedCalls maxSize (by decide) path upstream offset length address :=
  (transferAll_loop_calls maxSize (by decide) intf command path upstream instanceId length
    length s offset address).2 h

theorem transferAll_success_response {σ : Type} (intf : DMAInterface σ) (s : σ)
    (command : Nat) (path : String) (offset length address : Nat) (upstream : Bool)
    (instanceId : Nat)
    (h : ∀ c ∈ (transferAll intf s command path offset length address upstream
      instanceId).calls, 0 ≤ c.2) :
    (transferAll intf s command path offset length address upstream
      instanceId).response =
      encode_rw_file_memory_resp instanceId command PLDM_SUCCESS length := by
  unfold transferAll at h ⊢
  obtain ⟨pre, last, hcalls, _, hlast⟩ :=
    transferAll_loop_shape maxSize (by decide) intf command path upstream instanceId length
      length s offset address
  simp only [] at h ⊢
  rcases hlast with ⟨hneg, _⟩ | ⟨_, hresp⟩
  · have hmem : last ∈ pre ++ [last] := by simp
    rw [← hcalls] at hmem
    exact absurd hneg (not_lt.mpr (h last hmem))
  · exact hresp

/-- C11: if every chunk call issued by `transferAll` returns a non-negative
value, the response encodes completion code `PLDM_SUCCESS` and a length equal
to the `length` argument as passed in. -/
theorem transferAll_success_reports_length {σ : Type} (intf : DMAInterface σ) (s : σ)
    (command : Nat) (path : String) (offset length address : Nat) (upstream : Bool)
    (instanceId : Nat)
    (h : ∀ c ∈ (transferAll intf s command path offset length address upstream
      instanceId).calls, 0 ≤ c.2) :
    (transferAll intf s command path offset length address upstream
        instanceId).response =
      encode_rw_file_memory_resp instanceId command PLDM_SUCCESS length ∧
    (transferAll intf s command path offset length address upstream
        instanceId).response.completion_code = PLDM_SUCCESS ∧
    (transferAll intf s command path offset length address upstream
        instanceId).response.length = length := by
  have hresp := transferAll_success_response intf s command path offset length address
    upstream instanceId h
  refine ⟨hresp, ?_, ?_⟩
  · rw [hresp]; rfl
  · rw [hresp]; rfl

/-- C11 at a concrete run: a request of 3 * maxSize + 10 bytes, four chunks that
all succeed; the response carries the 50319370 bytes requested, not the 10
bytes of the last chunk and not the number of chunks. -/
theorem transferAll_success_reports_length_witness :
    (transferAll succeeding 0 6 "/var/lib/pldm/file" 4096 50319370 268435456 true
        9).response = encode_rw_file_memory_resp 9 6 PLDM_SUCCESS 50319370 ∧
    (transferAll succeeding 0 6 "/var/lib/pldm/file" 4096 50319370 268435456 true
        9).response.completion_code = PLDM_SUCCESS ∧
    (transferAll succeeding 0 6 "/var/lib/pldm/file" 4096 50319370 268435456 true
        9).response.length = 50319370 :=
  transferAll_success_reports_length succeeding 0 6 "/var/lib/pldm/file" 4096 50319370
    268435456 true 9 (by simp [transferAll, transferAll.loop, succeeding, maxSize])

/-! ## Two chunks -/

/-- C12, as stated, fails when the 32-bit offset wraps around: with offset
4294967295 and length maxSize + 1 the second call is issued at offset 16773119
(the `uint32_t` sum), not at offset + maxSize. -/
theorem transferAll_second_call_offset_wraps :
    (transferAll succeeding 0 6 "/var/lib/pldm/file" 4294967295 16773121 0 true
        9).calls.map Prod.fst ≠
      [⟨"/var/lib/pldm/file", 4294967295, maxSize, 0, true⟩,
        ⟨"/var/lib/pldm/file", 4294967295 + maxSize, 16773121 - maxSize, 0 + maxSize,
          true⟩] := by
  simp [transferAll, transferAll.loop, succeeding, maxSize]

/-- C12, amended: for every offset, address and every length with
maxSize < length <= 2 * maxSize, `transferAll` with an always-succeeding
primitive issues exactly two chunk calls: first (offset, maxSize, address), then
((offset + maxSize) mod 2^32, length - maxSize, (address + maxSize) mod 2^64),
which is (offset + maxSize, length - maxSize, address + maxSize) whenever these
sums fit the 32-bit offset and the 64-bit address. -/
theorem transferAll_two_chunks {σ : Type} (intf : DMAInterface σ) (s : σ)
    (command : Nat) (path : String) (offset length address : Nat) (upstream : Bool)
    (instanceId : Nat)
    (hok : ∀ t p o l a u, 0 ≤ (intf.transferDataHost t p o l a u).1)
    (hlo : maxSize < length) (hhi : length ≤ 2 * maxSize) :
    (transferAll intf s command path offset length address upstream
        instanceId).calls.map Prod.fst =
      [⟨path, offset, maxSize, address, upstream⟩,
        ⟨path, (offset + maxSize) % 2 ^ 32, length - maxSize,
          (address + maxSize) % 2 ^ 64, upstream⟩] ∧
    (offset + maxSize < 2 ^ 32 → address + maxSize < 2 ^ 64 →
      (transferAll intf s command path offset length address upstream
          instanceId).calls.map Prod.fst =
        [⟨path, offset, maxSize, address, upstream⟩,
          ⟨path, offset + maxSize, length - maxSize, address + maxSize, upstream⟩]) := by
  have hplan := transferAll_calls_eq_planned intf s command path offset length address
    upstream instanceId
    (transferAll_calls_nonneg intf s command path offset length address upstream
      instanceId hok)
  have h2 : ¬ (length - maxSize > maxSize) := by omega
  rw [plannedCalls, if_pos hlo, plannedCalls, if_neg h2] at hplan
  refine ⟨hplan, fun ho ha => ?_⟩
  rw [hplan, Nat.mod_eq_of_lt ho, Nat.mod_eq_of_lt ha]

/-- C12, amended, at length = maxSize + 1: one chunk of size maxSize and one of
size 1, at the advanced offset and address. -/
theorem transferAll_two_chunks_witness :
    (transferAll succeeding 0 6 "/var/lib/pldm/file" 4096 (maxSize + 1) 268435456 true
        9).calls.map Prod.fst =
      [⟨"/var/lib/pldm/file", 4096, maxSize, 268435456, true⟩,
        ⟨"/var/lib/pldm/file", 4096 + maxSize, maxSize + 1 - maxSize,
          268435456 + maxSize, true⟩] :=
  (transferAll_two_chunks succeeding 0 6 "/var/lib/pldm/file" 4096 (maxSize + 1) 268435456
    true 9 (by simp [succeeding]) (by decide) (by decide)).2 (by decide) (by decide)

/-! ## Chunk lengths -/

/-- C13: when every chunk call succeeds, the lengths of the chunk calls issued by
`transferAll` sum exactly to the requested length and every chunk length is at
most maxSize; for length = 17 MiB there are exactly 2 calls, of 16773120 and
1052672 bytes. -/
theorem transferAll_chunk_lengths {σ : Type} (intf : DMAInterface σ) (s : σ)
    (command : Nat) (path : String) (offset length address : Nat) (upstream : Bool)
    (instanceId : Nat)
    (h : ∀ c ∈ (transferAll intf s command path offset length address upstream
      instanceId).calls, 0 ≤ c.2) :
    ((transferAll intf s command path offset length address upstream
        instanceId).calls.map (fun c => c.1.length)).sum = length ∧
    (∀ c ∈ (transferAll intf s command path offset length address upstream
        instanceId).calls, c.1.length ≤ maxSize) ∧
    (length = 17 * 1024 * 1024 →
      (transferAll intf s command path offset length address upstream
        instanceId).calls.map (fun c => c.1.length) = [16773120, 1052672]) := by
  have hplan := transferAll_calls_eq_planned intf s command path offset length address
    upstream instanceId h
  have hmap : (transferAll intf s command path offset length address upstream
      instanceId).calls.map (fun c => c.1.length) =
      (plannedCalls maxSize (by decide) path upstream offset length address).map
        (fun c => c.length) := by
    rw [← hplan, List.map_map]; rfl
  refine ⟨?_, ?_, ?_⟩
  · rw [hmap]
    exact plannedCalls_sum maxSize (by decide) path upstream length offset address
  · intro c hc
    apply plannedCalls_le maxSize (by decide) path upstream length offset address
    rw [← hplan]
    exact List.mem_map_of_mem Prod.fst hc
  · intro hlen
    rw [hmap, hlen]
    simp [plannedCalls, maxSize]

/-- C13 at a concrete run of 17 MiB with a primitive that always succeeds. -/
theorem transferAll_chunk_lengths_witness :
    ((transferAll succeeding 0 6 "/var/lib/pldm/file" 4096 (17 * 1024 * 1024) 268435456
        true 9).calls.map (fun c => c.1.length)).sum = 17 * 1024 * 1024 ∧
    (transferAll succeeding 0 6 "/var/lib/pldm/file" 4096 (17 * 1024 * 1024) 268435456
        true 9).calls.map (fun c => c.1.length) = [16773120, 1052672] :=
  ⟨(transferAll_chunk_lengths succeeding 0 6 "/var/lib/pldm/file" 4096 (17 * 1024 * 1024)
      268435456 true 9
      (by simp [transferAll, transferAll.loop, succeeding, maxSize])).1,
    (transferAll_chunk_lengths succeeding 0 6 "/var/lib/pldm/file" 4096 (17 * 1024 * 1024)
      268435456 true 9
      (by simp [transferAll, transferAll.loop, succeeding, maxSize])).2.2 rfl⟩

/-! ## Length 0 -/

/-- C14: for every path, offset and address, `transferAll` with length = 0
issues exactly one chunk call, with length 0 at the unmodified offset and
address, and if that call succeeds the response encodes `PLDM_SUCCESS` with 0
bytes transferred. -/
theorem transferAll_zero_length {σ : Type} (intf : DMAInterface σ) (s : σ)
    (command : Nat) (path : String) (offset address : Nat) (upstream : Bool)
    (instanceId : Nat) :
    (transferAll intf s command path offset 0 address upstream instanceId).calls =
      [(⟨path, offset, 0, address, upstream⟩,
        (intf.transferDataHost s path offset 0 address upstream).1)] ∧
    (0 ≤ (intf.transferDataHost s path offset 0 address upstream).1 →
      (transferAll intf s command path offset 0 address upstream instanceId).response =
          encode_rw_file_memory_resp instanceId command PLDM_SUCCESS 0 ∧
        (transferAll intf s command path offset 0 address upstream
          instanceId).response.completion_code = PLDM_SUCCESS ∧
        (transferAll intf s command path offset 0 address upstream
          instanceId).response.length = 0) := by
  unfold transferAll
  rw [transferAll.loop]
  have h0 : ¬ (0 > maxSize) := Nat.not_lt_zero _
  simp only [h0, if_false]
  by_cases hrc : (intf.transferDataHost s path offset 0 address upstream).1 < 0
  · simp only [hrc, if_true, true_and]
    intro h
    exact absurd hrc (not_lt.mpr h)
  · simp only [hrc, if_false, true_and]
    intro _
    exact ⟨rfl, rfl⟩

/-- C14 at a concrete run with a primitive that always succeeds. -/
theorem transferAll_zero_length_witness :
    (transferAll succeeding 0 6 "/var/lib/pldm/file" 4096 0 268435456 true 9).response =
        encode_rw_file_memory_resp 9 6 PLDM_SUCCESS 0 ∧
      (transferAll succeeding 0 6 "/var/lib/pldm/file" 4096 0 268435456 true
        9).response.completion_code = PLDM_SUCCESS ∧
      (transferAll succeeding 0 6 "/var/lib/pldm/file" 4096 0 268435456 true
        9).response.length = 0 :=
  (transferAll_zero_length succeeding 0 6 "/var/lib/pldm/file" 4096 268435456 true 9).2
    (by simp [succeeding])

/-! ## Number of chunk calls -/

/-- C15, as stated, fails at length 0: the run issues one chunk call (which
succeeds here), while ceil(0 / maxSize) = 0. -/
theorem transferAll_zero_length_one_call :
    ¬ ((∀ c ∈ (transferAll succeeding 0 6 "/var/lib/pldm/file" 4096 0 268435456 true
          9).calls, 0 ≤ c.2) →
      (transferAll succeeding 0 6 "/var/lib/pldm/file" 4096 0 268435456 true
          9).calls.length = (0 + maxSize - 1) / maxSize) := by
  simp [transferAll, transferAll.loop, succeeding, maxSize]

/-- C15, amended: a `transferAll` run in which every chunk call succeeds
terminates after ceil(length / maxSize) chunk transfers for every requested
length of at least 1, and after one chunk transfer for length 0. The ceiling is
`(length + maxSize - 1) / maxSize`, the number `n` with
`(n - 1) * maxSize < length <= n * maxSize`. -/
theorem transferAll_call_count {σ : Type} (intf : DMAInterface σ) (s : σ)
    (command : Nat) (path : String) (offset length address : Nat) (upstream : Bool)
    (instanceId : Nat)
    (h : ∀ c ∈ (transferAll intf s command path offset length address upstream
      instanceId).calls, 0 ≤ c.2) :
    (length = 0 →
      (transferAll intf s command path offset length address upstream
        instanceId).calls.length = 1) ∧
    (1 ≤ length →
      (transferAll intf s command path offset length address upstream
          instanceId).calls.length = (length + maxSize - 1) / maxSize ∧
        ((transferAll intf s command path offset length address upstream
          instanceId).calls.length - 1) * maxSize < length ∧
        length ≤ (transferAll intf s command path offset length address upstream
          instanceId).calls.length * maxSize) := by
  have hplan := transferAll_calls_eq_planned intf s command path offset length address
    upstream instanceId h
  have hlen : (transferAll intf s command path offset length address upstream
      instanceId).calls.length = max 1 ((length + maxSize - 1) / maxSize) := by
    rw [← plannedCalls_length maxSize (by decide) path upstream length offset address,
      ← hplan, List.length_map]
  rw [hlen]
  unfold maxSize
  constructor
  · intro h0
    subst h0
    decide
  · intro h1
    omega

/-- C15, amended, at a concrete run: 3 * maxSize + 10 bytes take four chunk
transfers. -/
theorem transferAll_call_count_witness :
    (transferAll succeeding 0 6 "/var/lib/pldm/file" 4096 50319370 268435456 true
        9).calls.length = (50319370 + maxSize - 1) / maxSize ∧
      ((transferAll succeeding 0 6 "/var/lib/pldm/file" 4096 50319370 268435456 true
        9).calls.length - 1) * maxSize < 50319370 ∧
      50319370 ≤ (transferAll succeeding 0 6 "/var/lib/pldm/file" 4096 50319370 268435456
        true 9).calls.length * maxSize :=
  (transferAll_call_count succeeding 0 6 "/var/lib/pldm/file" 4096 50319370 268435456 true
    9 (by simp [transferAll, transferAll.loop, succeeding, maxSize])).2 (by decide)

/-! ## Order of the chunk calls -/

/-- C16, as stated, fails when the 32-bit offset wraps around: with offset
4294967295 and length maxSize + 1 the second call is issued at offset 16773119,
which is smaller than the offset of the first call. -/
theorem transferAll_offset_not_monotonic :
    ¬ List.Chain' StrictlyAdvances
      ((transferAll succeeding 0 6 "/var/lib/pldm/file" 4294967295 16773121 0 true
        9).calls.map Prod.fst) := by
  simp [transferAll, transferAll.loop, succeeding, maxSize, StrictlyAdvances]

/-- C16, amended: the chunk calls of one `transferAll` run are sequential: each
call after the first is issued with the offset of the preceding call plus the
preceding call's length modulo 2^32 and the host address of the preceding call
plus the preceding call's length modulo 2^64. When offset + length <= 2^32 and
address + length <= 2^64 (nothing wraps around), each call after the first has
an offset and a host address strictly greater than those of the preceding call,
each exceeding it by exactly the preceding call's length. -/
theorem transferAll_calls_sequential {σ : Type} (intf : DMAInterface σ) (s : σ)
    (command : Nat) (path : String) (offset length address : Nat) (upstream : Bool)
    (instanceId : Nat) :
    List.Chain' Advances
      ((transferAll intf s command path offset length address upstream
        instanceId).calls.map Prod.fst) ∧
    (offset + length ≤ 2 ^ 32 → address + length ≤ 2 ^ 64 →
      List.Chain' StrictlyAdvances
        ((transferAll intf s command path offset length address upstream
          instanceId).calls.map Prod.fst)) := by
  have hpre := (transferAll_loop_calls maxSize (by decide) intf command path upstream
    instanceId length length s offset address).1
  constructor
  · exact List.Chain'.prefix
      (plannedCalls_advances maxSize (by decide) path upstream length offset address) hpre
  · intro ho ha
    exact List.Chain'.prefix
      (plannedCalls_strictlyAdvances maxSize (by decide) path upstream length offset
        address ho ha) hpre

/-- C16, amended, at a concrete run of four chunks from offset 4096 and address
268435456. -/
theorem transferAll_calls_sequential_witness :
    List.Chain' StrictlyAdvances
      ((transferAll succeeding 0 6 "/var/lib/pldm/file" 4096 50319370 268435456 true
        9).calls.map Prod.fst) :=
  (transferAll_calls_sequential succeeding 0 6 "/var/lib/pldm/file" 4096 50319370
    268435456 true 9).2 (by decide) (by decide)

end dma
end responder
end pldm

namespace pldm
namespace utils

/-! ## `parseEffecterData` -/

theorem parseEffecterData_loop_length (effecterData : List Nat) (n i : Nat) :
    (parseEffecterData.loop effecterData n i).length = n := by
  induction n generalizing i with
  | zero => rfl
  | succ n ih => simp [parseEffecterData.loop, ih]

/-- C17: for every effecterCount (in particular every effecterCount >= 1) and
every byte buffer, `parseEffecterData` returns a list of exactly effecterCount
state fields when the buffer length is exactly 2 * effecterCount, and returns
no result (`std::nullopt`) for a buffer of any other length. -/
theorem parseEffecterData_exact_length (effecterData : List Nat) (effecterCount : Nat) :
    (effecterData.length = 2 * effecterCount →
      ∃ stateField, parseEffecterData effecterData effecterCount = some stateField ∧
        stateField.length = effecterCount) ∧
    (effecterData.length ≠ 2 * effecterCount →
      parseEffecterData effecterData effecterCount = none) := by
  constructor
  · intro h
    have h2 : ¬ (effecterData.length ≠ effecterCount * 2) := by omega
    exact ⟨parseEffecterData.loop effecterData effecterCount 0,
      by rw [parseEffecterData, if_neg h2],
      parseEffecterData_loop_length effecterData effecterCount 0⟩
  · intro h
    have h2 : effecterData.length ≠ effecterCount * 2 := by omega
    rw [parseEffecterData, if_pos h2]

/-- C17 at concrete buffers for effecterCount = 2: four bytes give two state
fields, three bytes give no result. -/
theorem parseEffecterData_exact_length_witness :
    (∃ stateField, parseEffecterData [1, 3, 0, 2] 2 = some stateField ∧
      stateField.length = 2) ∧
    parseEffecterData [1, 3, 0] 2 = none :=
  ⟨(parseEffecterData_exact_length [1, 3, 0, 2] 2).1 (by decide),
    (parseEffecterData_exact_length [1, 3, 0] 2).2 (by decide)⟩

/-! ## Removing a record that does not match -/

theorem filter_remove {α : Type} (p : α → Bool) (pre post : List α) (r : α)
    (h : p r = false) : (pre ++ r :: post).filter p = (pre ++ post).filter p := by
  simp [List.filter_append, List.filter_cons, h]

theorem find?_remove {α : Type} (p : α → Bool) (pre post : List α) (r : α)
    (h : p r = false) : (pre ++ r :: post).find? p = (pre ++ post).find? p := by
  induction pre with
  | nil => simp [List.find?_cons, h]
  | cons a pre ih => simp only [List.cons_append, List.find?_cons, ih]

theorem findStateEffecterPDR_remove (tid entityID stateSetId : Nat)
    (pre post : List pldm_pdr_record) (r : pldm_pdr_record)
    (h : ¬ EffecterStateSetMatch entityID stateSetId r) :
    findStateEffecterPDR tid entityID stateSetId (pre ++ r :: post) =
      findStateEffecterPDR tid entityID stateSetId (pre ++ post) := by
  rw [findStateEffecterPDR_eq_filter, findStateEffecterPDR_eq_filter,
    filter_remove _ pre post r (by simpa using h)]

theorem findStateSensorPDR_remove (tid entityID stateSetId : Nat)
    (pre post : List pldm_pdr_record) (r : pldm_pdr_record)
    (h : ¬ SensorStateSetMatch entityID stateSetId r) :
    findStateSensorPDR tid entityID stateSetId (pre ++ r :: post) =
      findStateSensorPDR tid entityID stateSetId (pre ++ post) := by
  rw [findStateSensorPDR_eq_filter, findStateSensorPDR_eq_filter,
    filter_remove _ pre post r (by simpa using h)]

theorem findStateEffecterId_remove (pre post : List pldm_pdr_record) (r : pldm_pdr_record)
    (entityType entityInstance containerId stateSetId : Nat) (localOrRemote : Bool)
    (h : ¬ (Admitted localOrRemote r ∧
      EffecterKeyMatch entityType entityInstance containerId stateSetId r)) :
    findStateEffecterId (pre ++ r :: post) entityType entityInstance containerId stateSetId
        localOrRemote =
      findStateEffecterId (pre ++ post) entityType entityInstance containerId stateSetId
        localOrRemote := by
  rw [findStateEffecterId_eq_find, findStateEffecterId_eq_find,
    find?_remove _ pre post r (by simpa using h)]

theorem findStateSensorId_remove (pre post : List pldm_pdr_record) (r : pldm_pdr_record)
    (tid entityType entityInstance containerId stateSetId : Nat)
    (h : ¬ SensorKeyMatch entityType entityInstance containerId stateSetId r) :
    findStateSensorId (pre ++ r :: post) tid entityType entityInstance containerId
        stateSetId =
      findStateSensorId (pre ++ post) tid entityType entityInstance containerId
        stateSetId := by
  rw [findStateSensorId_eq_find, findStateSensorId_eq_find,
    find?_remove _ pre post r (by simpa using h)]

/-! ## Corrupt records -/

theorem entryOffset_eq_sum (buf : List Nat) (start k : Nat) :
    entryOffset buf start k =
      start + ((List.range k).map
        (fun j => 3 + possible_states_size buf (entryOffset buf start j))).sum := by
  induction k with
  | zero => simp [entryOffset]
  | succ k ih =>
    rw [List.range_succ, List.map_append, List.sum_append, entryOffset]
    simp only [List.map_cons, List.map_nil, List.sum_cons, List.sum_nil]
    omega

/-- The loop reads entry `k` at the offset given by the offset rule, and reads
at most `count` entries. -/
theorem compositeLoop_reads_get (buf : List Nat) (cond : Nat → Bool) (count : Nat) :
    ∀ (p k o : Nat), (compositeLoop.reads buf cond count p)[k]? = some o →
      k < count ∧ o = entryOffset buf p k := by
  induction count with
  | zero =>
    intro p k o h
    simp [compositeLoop.reads] at h
  | succ n ih =>
    intro p k o h
    simp only [compositeLoop.reads] at h
    cases k with
    | zero =>
      simp only [List.getElem?_cons_zero, Option.some.injEq] at h
      exact ⟨Nat.succ_pos n, by rw [← h]; rfl⟩
    | succ j =>
      simp only [List.getElem?_cons_succ] at h
      by_cases hc : cond (state_set_id buf p) = true
      · simp [hc] at h
      · have hf : cond (state_set_id buf p) = false := by simpa using hc
        simp only [hf, Bool.false_eq_true, if_false] at h
        obtain ⟨hj, ho⟩ := ih _ j o h
        exact ⟨Nat.succ_lt_succ hj, by rw [entryOffset_succ_start]; exact ho⟩

theorem compositeLoop_reads_length (buf : List Nat) (cond : Nat → Bool) (count : Nat) :
    ∀ p, (compositeLoop.reads buf cond count p).length ≤ count := by
  induction count with
  | zero => intro p; simp [compositeLoop.reads]
  | succ n ih =>
    intro p
    simp only [compositeLoop.reads]
    by_cases hc : cond (state_set_id buf p) = true
    · simp [hc]
    · have hf : cond (state_set_id buf p) = false := by simpa using hc
      simp only [hf, Bool.false_eq_true, if_false, List.length_cons]
      exact Nat.succ_le_succ (ih _)

/-- The loop hits exactly when the condition holds for the state set id read at
one of the offsets it visits. -/
theorem compositeLoop_eq_true_iff_reads (buf : List Nat) (cond : Nat → Bool) (count : Nat) :
    ∀ p, compositeLoop buf cond count p = true ↔
      ∃ o ∈ compositeLoop.reads buf cond count p, cond (state_set_id buf o) = true := by
  induction count with
  | zero => intro p; simp [compositeLoop, compositeLoop.reads]
  | succ n ih =>
    intro p
    simp only [compositeLoop, compositeLoop.reads]
    by_cases hc : cond (state_set_id buf p) = true
    · simp [hc]
    · have hf : cond (state_set_id buf p) = false := by simpa using hc
      simp only [hf, Bool.false_eq_true, if_false, List.mem_cons, exists_eq_or_imp,
        false_or]
      exact ih _

/-- C19: in every composite-entry traversal, entry 0 is read at the start of the
possible_states area and entry i+1 at the offset of entry i plus
2 + 1 + possible_states_size of entry i, so that entry k is read, and its
state_set_id compared, at offset start + sum over j<k of (3 + size_j); the
loop hits exactly when the condition holds for a state_set_id read there.
`findStateEffecterPDR`, `findStateSensorPDR`, `findStateEffecterId` and
`findStateSensorId` select their records by the state_set_id found at these
offsets from the `possible_states` member, for k below the composite count. -/
theorem composite_entry_offsets (buf : List Nat) (start : Nat)
    (repo : List pldm_pdr_record)
    (tid entityType entityInstance containerId stateSetId : Nat) (localOrRemote : Bool) :
    (entryOffset buf start 0 = start ∧
      (∀ i, entryOffset buf start (i + 1) =
        entryOffset buf start i + (2 + 1 + possible_states_size buf (entryOffset buf start i))) ∧
      (∀ k, entryOffset buf start k =
        start + ((List.range k).map
          (fun j => 3 + possible_states_size buf (entryOffset buf start j))).sum)) ∧
    (∀ (cond : Nat → Bool) (count : Nat),
      (∀ k o, (compositeLoop.reads buf cond count start)[k]? = some o →
        k < count ∧ o = entryOffset buf start k) ∧
      (compositeLoop buf cond count start = true ↔
        ∃ o ∈ compositeLoop.reads buf cond count start, cond (state_set_id buf o) = true) ∧
      (compositeLoop buf cond count start = true ↔
        ∃ k, k < count ∧ cond (state_set_id buf (entryOffset buf start k)) = true)) ∧
    (findStateEffecterPDR tid entityType stateSetId repo =
        (repo.filter (fun (r : pldm_pdr_record) => decide (r.pdr_type = PLDM_STATE_EFFECTER_PDR ∧
          (pldm_state_effecter_pdr.mk r.data).entity_type = entityType ∧
          ∃ k, k < (pldm_state_effecter_pdr.mk r.data).composite_effecter_count ∧
            state_set_id r.data (entryOffset r.data
              (pldm_state_effecter_pdr.mk r.data).possible_states k) = stateSetId))).map
          (fun r => r.data) ∧
      findStateSensorPDR tid entityType stateSetId repo =
        (repo.filter (fun (r : pldm_pdr_record) => decide (r.pdr_type = PLDM_STATE_SENSOR_PDR ∧
          (pldm_state_sensor_pdr.mk r.data).entity_type = entityType ∧
          ∃ k, k < (pldm_state_sensor_pdr.mk r.data).composite_sensor_count ∧
            state_set_id r.data (entryOffset r.data
              (pldm_state_sensor_pdr.mk r.data).possible_states k) = stateSetId))).map
          (fun r => r.data) ∧
      findStateEffecterId repo entityType entityInstance containerId stateSetId
          localOrRemote =
        (match repo.find? (fun (r : pldm_pdr_record) => decide (Admitted localOrRemote r ∧
            EffecterEntityMatch entityType entityInstance containerId r ∧
            ∃ k, k < (pldm_state_effecter_pdr.mk r.data).composite_effecter_count ∧
              state_set_id r.data (entryOffset r.data
                (pldm_state_effecter_pdr.mk r.data).possible_states k) = stateSetId)) with
          | some r => (pldm_state_effecter_pdr.mk r.data).effecter_id
          | none => PLDM_INVALID_EFFECTER_ID) ∧
      findStateSensorId repo tid entityType entityInstance containerId stateSetId =
        (match repo.find? (fun (r : pldm_pdr_record) => decide (
            SensorEntityMatch entityType entityInstance containerId r ∧
            ∃ k, k < (pldm_state_sensor_pdr.mk r.data).composite_sensor_count ∧
              state_set_id r.data (entryOffset r.data
                (pldm_state_sensor_pdr.mk r.data).possible_states k) = stateSetId)) with
          | some r => (pldm_state_sensor_pdr.mk r.data).sensor_id
          | none => PLDM_INVALID_EFFECTER_ID)) := by
  refine ⟨⟨rfl, fun i => rfl, entryOffset_eq_sum buf start⟩, fun cond count =>
    ⟨compositeLoop_reads_get buf cond count start,
      compositeLoop_eq_true_iff_reads buf cond count start,
      compositeLoop_eq_true_iff buf cond count start⟩,
    findStateEffecterPDR_eq_filter tid entityType stateSetId repo,
    findStateSensorPDR_eq_filter tid entityType stateSetId repo,
    findStateEffecterId_eq_find repo entityType entityInstance containerId stateSetId
      localOrRemote,
    findStateSensorId_eq_find repo tid entityType entityInstance containerId stateSetId⟩

/-- C19 at the record `effecterLocal7`, looking for state set 196: the second
entry read (k = 1) is at offset 29 = 25 + (3 + 1), after the first entry of
size 1 at offset 25. -/
theorem composite_entry_offsets_witness :
    (1 < 2 ∧ 29 = entryOffset effecterLocal7.data 25 1) ∧
    29 = 25 + ((List.range 1).map
      (fun j => 3 + possible_states_size effecterLocal7.data
        (entryOffset effecterLocal7.data 25 j))).sum :=
  ⟨((composite_entry_offsets effecterLocal7.data 25 [] 1 33 1 0 196 true).2.1
      (fun setId => setId == 196) 2).1 1 29 (by decide),
    ((composite_entry_offsets effecterLocal7.data 25 [] 1 33 1 0 196 true).2.1
      (fun setId => setId == 196) 2).1 1 29 (by decide) |>.2.trans
      ((composite_entry_offsets effecterLocal7.data 25 [] 1 33 1 0 196 true).1.2.2 1)⟩

/-! ## The bound of the inner loops -/

theorem not_hasStateSet_zero (buf : List Nat) (start stateSetId : Nat) :
    ¬ HasStateSet buf start 0 stateSetId := by
  rintro ⟨k, hk, _⟩
  exact absurd hk (Nat.not_lt_zero k)

/-- C20: every inner loop over composite entries visits at most composite_count
entries. A record whose first composite_count entries contain no entry with the
queried state_set_id (whatever the bytes after them read as) is not returned by
`findStateEffecterPDR` / `findStateSensorPDR` and does not determine the result
of `findStateEffecterId` / `findStateSensorId`: the results are those on the
repository without the record. A record with composite_count = 0 has no such
entry. -/
theorem composite_loop_bounded (pre post : List pldm_pdr_record) (r : pldm_pdr_record)
    (tid entityType entityInstance containerId stateSetId : Nat) (localOrRemote : Bool) :
    (∀ (buf : List Nat) (cond : Nat → Bool) (count start : Nat),
      (compositeLoop.reads buf cond count start).length ≤ count) ∧
    (¬ HasStateSet r.data (pldm_state_effecter_pdr.mk r.data).possible_states
        (pldm_state_effecter_pdr.mk r.data).composite_effecter_count stateSetId →
      findStateEffecterPDR tid entityType stateSetId (pre ++ r :: post) =
          findStateEffecterPDR tid entityType stateSetId (pre ++ post) ∧
        findStateEffecterId (pre ++ r :: post) entityType entityInstance containerId
            stateSetId localOrRemote =
          findStateEffecterId (pre ++ post) entityType entityInstance containerId
            stateSetId localOrRemote) ∧
    (¬ HasStateSet r.data (pldm_state_sensor_pdr.mk r.data).possible_states
        (pldm_state_sensor_pdr.mk r.data).composite_sensor_count stateSetId →
      findStateSensorPDR tid entityType stateSetId (pre ++ r :: post) =
          findStateSensorPDR tid entityType stateSetId (pre ++ post) ∧
        findStateSensorId (pre ++ r :: post) tid entityType entityInstance containerId
            stateSetId =
          findStateSensorId (pre ++ post) tid entityType entityInstance containerId
            stateSetId) ∧
    ((pldm_state_effecter_pdr.mk r.data).composite_effecter_count = 0 →
      ¬ HasStateSet r.data (pldm_state_effecter_pdr.mk r.data).possible_states
        (pldm_state_effecter_pdr.mk r.data).composite_effecter_count stateSetId) ∧
    ((pldm_state_sensor_pdr.mk r.data).composite_sensor_count = 0 →
      ¬ HasStateSet r.data (pldm_state_sensor_pdr.mk r.data).possible_states
        (pldm_state_sensor_pdr.mk r.data).composite_sensor_count stateSetId) := by
  refine ⟨fun buf cond count start => compositeLoop_reads_length buf cond count start,
    fun h => ⟨?_, ?_⟩, fun h => ⟨?_, ?_⟩, fun h => ?_, fun h => ?_⟩
  · exact findStateEffecterPDR_remove tid entityType stateSetId pre post r
      (fun hm => h hm.2.2)
  · exact findStateEffecterId_remove pre post r entityType entityInstance containerId
      stateSetId localOrRemote (fun hm => h hm.2.2)
  · exact findStateSensorPDR_remove tid entityType stateSetId pre post r
      (fun hm => h hm.2.2)
  · exact findStateSensorId_remove pre post r tid entityType entityInstance containerId
      stateSetId (fun hm => h hm.2)
  · rw [h]; exact not_hasStateSet_zero _ _ _
  · rw [h]; exact not_hasStateSet_zero _ _ _

/-- C20 at concrete records: `effecterTrailing6` and `sensorTrailing5` declare
one composite entry (state set 10); the bytes after it read as an entry of
state set 196, which is not looked at, so a query for state set 196 gives the
result of the repository without the record. -/
theorem composite_loop_bounded_witness :
    (findStateEffecterPDR 1 33 196 ([] ++ effecterTrailing6 :: [effecterLocal9]) =
        findStateEffecterPDR 1 33 196 ([] ++ [effecterLocal9]) ∧
      findStateEffecterId ([] ++ effecterTrailing6 :: [effecterLocal9]) 33 1 0 196 true =
        findStateEffecterId ([] ++ [effecterLocal9]) 33 1 0 196 true) ∧
    (findStateSensorPDR 1 33 196 ([] ++ sensorTrailing5 :: [sensorLocal3]) =
        findStateSensorPDR 1 33 196 ([] ++ [sensorLocal3]) ∧
      findStateSensorId ([] ++ sensorTrailing5 :: [sensorLocal3]) 1 33 1 0 196 =
        findStateSensorId ([] ++ [sensorLocal3]) 1 33 1 0 196) :=
  ⟨(composite_loop_bounded [] [effecterLocal9] effecterTrailing6 1 33 1 0 196 true).2.1
      (by decide),
    (composite_loop_bounded [] [sensorLocal3] sensorTrailing5 1 33 1 0 196 true).2.2.1
      (by decide)⟩

end utils
end pldm

namespace pldm
namespace responder
namespace dma

/-! ## The error code of a failed chunk -/

theorem transferAll_loop_agree {σ : Type} (chunk : Nat) (hchunk : 0 < chunk)
    (intf1 intf2 : DMAInterface σ) (hagree : AgreeUpToErrorCode intf1 intf2)
    (command : Nat) (path : String) (upstream : Bool) (instanceId origLength : Nat)
    (length : Nat) :
    ∀ (s : σ) (offset address : Nat),
      (transferAll.loop chunk hchunk intf1 command path upstream instanceId origLength s
          offset length address).response =
        (transferAll.loop chunk hchunk intf2 command path upstream instanceId origLength s
          offset length address).response ∧
      (transferAll.loop chunk hchunk intf1 command path upstream instanceId origLength s
          offset length address).calls.map Prod.fst =
        (transferAll.loop chunk hchunk intf2 command path upstream instanceId origLength s
          offset length address).calls.map Prod.fst := by
  induction length using Nat.strong_induction_on with
  | _ length ih =>
    intro s offset address
    rw [transferAll.loop.eq_1 chunk hchunk intf1, transferAll.loop.eq_1 chunk hchunk intf2]
    by_cases hlen : length > chunk
    · simp only [hlen, if_true]
      obtain ⟨hst, hrv⟩ := hagree s path offset chunk address upstream
      by_cases hrc : (intf1.transferDataHost s path offset chunk address upstream).1 < 0
      · have hrc2 : (intf2.transferDataHost s path offset chunk address upstream).1 < 0 := by
          rcases hrv with he | ⟨_, h2⟩
          · rw [← he]; exact hrc
          · exact h2
        simp only [hrc, hrc2, if_true, List.map_cons, List.map_nil, and_self]
      · have hrc2 : ¬ (intf2.transferDataHost s path offset chunk address upstream).1 < 0 := by
          rcases hrv with he | ⟨h1, _⟩
          · rw [← he]; exact hrc
          · exact absurd h1 hrc
        simp only [hrc, hrc2, if_false, List.map_cons]
        rw [← hst]
        obtain ⟨h1, h2⟩ := ih (length - chunk) (by omega)
          (intf1.transferDataHost s path offset chunk address upstream).2
          ((offset + chunk) % 2 ^ 32) ((address + chunk) % 2 ^ 64)
        exact ⟨h1, by rw [h2]⟩
    · simp only [hlen, if_false]
      obtain ⟨_, hrv⟩ := hagree s path offset length address upstream
      by_cases hrc : (intf1.transferDataHost s path offset length address upstream).1 < 0
      · have hrc2 : (intf2.transferDataHost s path offset length address upstream).1 < 0 := by
          rcases hrv with he | ⟨_, h2⟩
          · rw [← he]; exact hrc
          · exact h2
        simp only [hrc, hrc2, if_true, List.map_cons, List.map_nil, and_self]
      · have hrc2 : ¬ (intf2.transferDataHost s path offset length address upstream).1 < 0 := by
          rcases hrv with he | ⟨h1, _⟩
          · rw [← he]; exact hrc
          · exact absurd h1 hrc
        simp only [hrc, hrc2, if_false, List.map_cons, List.map_nil, and_self]

/-- C21: the specific error code of a failed chunk is not exposed in the
response: for every request and any two chunk primitives that behave
identically except for which negative value a failing call returns,
`transferAll` produces the same response, and when a call fails this response is
the one with completion code `PLDM_ERROR` and length 0 for both. -/
theorem transferAll_error_code_hidden {σ : Type} (intf1 intf2 : DMAInterface σ)
    (hagree : AgreeUpToErrorCode intf1 intf2) (s : σ)
    (command : Nat) (path : String) (offset length address : Nat) (upstream : Bool)
    (instanceId : Nat) :
    (transferAll intf1 s command path offset length address upstream instanceId).response =
      (transferAll intf2 s command path offset length address upstream
        instanceId).response ∧
    ((∃ c ∈ (transferAll intf1 s command path offset length address upstream
        instanceId).calls, c.2 < 0) →
      (transferAll intf1 s command path offset length address upstream
          instanceId).response =
        encode_rw_file_memory_resp instanceId command PLDM_ERROR 0 ∧
      (transferAll intf2 s command path offset length address upstream
          instanceId).response =
        encode_rw_file_memory_resp instanceId command PLDM_ERROR 0) := by
  have heq := (transferAll_loop_agree maxSize (by decide) intf1 intf2 hagree command path
    upstream instanceId length length s offset address).1
  unfold transferAll
  simp only []
  refine ⟨heq, ?_⟩
  rintro ⟨c, hc, hneg⟩
  obtain ⟨pre, last, hcalls, hpre, hlast⟩ :=
    transferAll_loop_shape maxSize (by decide) intf1 command path upstream instanceId length
      length s offset address
  rw [hcalls] at hc
  have hlastneg : last.2 < 0 := by
    rcases List.mem_append.mp hc with hc | hc
    · exact absurd hneg (not_lt.mpr (hpre c hc))
    · rw [List.mem_singleton] at hc
      rw [← hc]; exact hneg
  rcases hlast with ⟨_, hresp⟩ | ⟨hnonneg, _⟩
  · exact ⟨hresp, by rw [← heq]; exact hresp⟩
  · exact absurd hlastneg (not_lt.mpr hnonneg)

/-- C21 at a concrete pair of primitives whose second call fails, with -5
(`-EIO`) for one and -12 (`-ENOMEM`) for the other: the responses are equal. -/
theorem transferAll_error_code_hidden_witness :
    (transferAll (failingWith 1 (-5)) 0 6 "/var/lib/pldm/file" 4096 50319370 268435456 true
        9).response =
      (transferAll (failingWith 1 (-12)) 0 6 "/var/lib/pldm/file" 4096 50319370 268435456
        true 9).response :=
  (transferAll_error_code_hidden (failingWith 1 (-5)) (failingWith 1 (-12))
    (by
      intro t path offset length address upstream
      by_cases ht : t = 1 <;> simp [failingWith, ht])
    0 6 "/var/lib/pldm/file" 4096 50319370 268435456 true 9).1

/-! ## Lengths of the chunk calls -/

theorem plannedCalls_multiple (chunk : Nat) (hchunk : 0 < chunk) (path : String)
    (upstream : Bool) (k : Nat) :
    ∀ (offset address : Nat),
      (plannedCalls chunk hchunk path upstream offset ((k + 1) * chunk) address).map
        (fun c => c.length) = List.replicate (k + 1) chunk := by
  induction k with
  | zero =>
    intro offset address
    rw [plannedCalls]
    simp
  | succ k ih =>
    intro offset address
    rw [plannedCalls]
    have h : (k + 1 + 1) * chunk > chunk := by
      have : (k + 1 + 1) * chunk = (k + 1) * chunk + chunk := Nat.succ_mul (k + 1) chunk
      have : 0 < (k + 1) * chunk := Nat.mul_pos (Nat.succ_pos k) hchunk
      omega
    have hsub : (k + 1 + 1) * chunk - chunk = (k + 1) * chunk := by
      rw [Nat.succ_mul (k + 1) chunk]; omega
    simp only [h, if_true, List.map_cons, hsub, ih]
    rfl

theorem plannedCalls_pos (chunk : Nat) (hchunk : 0 < chunk) (path : String)
    (upstream : Bool) (length : Nat) :
    ∀ (offset address : Nat), 1 ≤ length →
      ∀ c ∈ plannedCalls chunk hchunk path upstream offset length address,
        1 ≤ c.length := by
  induction length using Nat.strong_induction_on with
  | _ length ih =>
    intro offset address hl
    rw [plannedCalls]
    by_cases hlen : length > chunk
    · simp only [hlen, if_true]
      intro c hc
      rcases List.mem_cons.mp hc with rfl | hc
      · exact hchunk
      · exact ih (length - chunk) (by omega) _ _ (by omega) c hc
    · simp only [hlen, if_false]
      intro c hc
      rw [List.mem_singleton] at hc
      subst hc
      exact hl

theorem plannedCalls_path (chunk : Nat) (hchunk : 0 < chunk) (path : String)
    (upstream : Bool) (length : Nat) :
    ∀ (offset address : Nat),
      ∀ c ∈ plannedCalls chunk hchunk path upstream offset length address,
        c.path = path ∧ c.upstream = upstream := by
  induction length using Nat.strong_induction_on with
  | _ length ih =>
    intro offset address
    rw [plannedCalls]
    by_cases hlen : length > chunk
    · simp only [hlen, if_true]
      intro c hc
      rcases List.mem_cons.mp hc with rfl | hc
      · exact ⟨rfl, rfl⟩
      · exact ih (length - chunk) (by omega) _ _ c hc
    · simp only [hlen, if_false]
      intro c hc
      rw [List.mem_singleton] at hc
      subst hc
      exact ⟨rfl, rfl⟩

theorem transferAll_call_mem_planned {σ : Type} (intf : DMAInterface σ) (s : σ)
    (command : Nat) (path : String) (offset length address : Nat) (upstream : Bool)
    (instanceId : Nat) :
    ∀ c ∈ (transferAll intf s command path offset length address upstream
      instanceId).calls,
      c.1 ∈ plannedCalls maxSize (by decide) path upstream offset length address := by
  intro c hc
  have hpre := (transferAll_loop_calls maxSize (by decide) intf command path upstream
    instanceId length length s offset address).1
  exact hpre.subset (List.mem_map_of_mem Prod.fst hc)

/-- C22: when the requested length is a positive exact multiple of maxSize
(length = k * maxSize, k >= 1), `transferAll` with an always-succeeding
primitive issues exactly k chunk calls, each of length exactly maxSize, and no
zero-length final call; and for every length >= 1 every chunk call issued, by
any primitive, has a length between 1 and maxSize. -/
theorem transferAll_exact_multiple {σ : Type} (intf : DMAInterface σ) (s : σ)
    (command : Nat) (path : String) (offset length address : Nat) (upstream : Bool)
    (instanceId : Nat) :
    (∀ k, 1 ≤ k → length = k * maxSize →
      (∀ t p o l a u, 0 ≤ (intf.transferDataHost t p o l a u).1) →
      (transferAll intf s command path offset length address upstream
          instanceId).calls.map (fun c => c.1.length) = List.replicate k maxSize ∧
        (transferAll intf s command path offset length address upstream
          instanceId).calls.length = k) ∧
    (1 ≤ length →
      ∀ c ∈ (transferAll intf s command path offset length address upstream
          instanceId).calls, 1 ≤ c.1.length ∧ c.1.length ≤ maxSize) := by
  constructor
  · intro k hk hlen hok
    have hplan := transferAll_calls_eq_planned intf s command path offset length address
      upstream instanceId
      (transferAll_calls_nonneg intf s command path offset length address upstream
        instanceId hok)
    have hmap : (transferAll intf s command path offset length address upstream
        instanceId).calls.map (fun c => c.1.length) = List.replicate k maxSize := by
      obtain ⟨j, rfl⟩ : ∃ j, k = j + 1 := ⟨k - 1, by omega⟩
      have h2 : (transferAll intf s command path offset length address upstream
          instanceId).calls.map (fun c => c.1.length) =
          (plannedCalls maxSize (by decide) path upstream offset length address).map
            (fun c => c.length) := by
        rw [← hplan, List.map_map]; rfl
      rw [h2, hlen]
      exact plannedCalls_multiple maxSize (by decide) path upstream j offset address
    refine ⟨hmap, ?_⟩
    have hl := congrArg List.length hmap
    simpa using hl
  · intro hl c hc
    have hmem := transferAll_call_mem_planned intf s command path offset length address
      upstream instanceId c hc
    exact ⟨plannedCalls_pos maxSize (by decide) path upstream length offset address hl
        c.1 hmem,
      plannedCalls_le maxSize (by decide) path upstream length offset address c.1 hmem⟩

/-- C22 at a concrete run of 3 * maxSize bytes: three calls of maxSize bytes. -/
theorem transferAll_exact_multiple_witness :
    (transferAll succeeding 0 6 "/var/lib/pldm/file" 4096 (3 * maxSize) 268435456 true
        9).calls.map (fun c => c.1.length) = List.replicate 3 maxSize ∧
      (transferAll succeeding 0 6 "/var/lib/pldm/file" 4096 (3 * maxSize) 268435456 true
        9).calls.length = 3 :=
  (transferAll_exact_multiple succeeding 0 6 "/var/lib/pldm/file" 4096 (3 * maxSize)
    268435456 true 9).1 3 (by decide) rfl (by simp [succeeding])

/-! ## Path and direction of the chunk calls -/

/-- C26: every chunk call issued by `transferAll` receives the caller's path and
the caller's direction flag unchanged: all calls in the recorded call sequence
carry the path and the upstream value of the arguments of `transferAll`. -/
theorem transferAll_calls_path_upstream {σ : Type} (intf : DMAInterface σ) (s : σ)
    (command : Nat) (path : String) (offset length address : Nat) (upstream : Bool)
    (instanceId : Nat) :
    ∀ c ∈ (transferAll intf s command path offset length address upstream
      instanceId).calls, c.1.path = path ∧ c.1.upstream = upstream := by
  intro c hc
  exact plannedCalls_path maxSize (by decide) path upstream length offset address c.1
    (transferAll_call_mem_planned intf s command path offset length address upstream
      instanceId c hc)

/-- C26 at a concrete run: the second of four calls, at offset 16777216, carries
the path and the direction flag of the request. -/
theorem transferAll_calls_path_upstream_witness :
    ((⟨"/var/lib/pldm/file", 16777216, 16773120, 285208576, true⟩, 0) : Call × Int) ∈
        (transferAll succeeding 0 6 "/var/lib/pldm/file" 4096 50319370 268435456 true
          9).calls ∧
      ((⟨"/var/lib/pldm/file", 16777216, 16773120, 285208576, true⟩ : Call).path =
          "/var/lib/pldm/file" ∧
        (⟨"/var/lib/pldm/file", 16777216, 16773120, 285208576, true⟩ : Call).upstream =
          true) :=
  ⟨by simp [transferAll, transferAll.loop, succeeding, maxSize],
    transferAll_calls_path_upstream succeeding 0 6 "/var/lib/pldm/file" 4096 50319370
      268435456 true 9 (⟨"/var/lib/pldm/file", 16777216, 16773120, 285208576, true⟩, 0)
      (by simp [transferAll, transferAll.loop, succeeding, maxSize])⟩

end dma
end responder
end pldm

namespace pldm
namespace utils

/-! ## The elements of `findEffecterIds` -/

/-- C23: `findEffecterIds` returns, for each STATE_EFFECTER record in repository
order whose entity_type, entity_instance and container_id equal the query, that
record's effecter_id repeated exactly composite_effecter_count times, and
nothing for any other record; hence the length of the result is the sum of the
composite counts of the matching records. -/
theorem findEffecterIds_repeats_per_entry (repo : List pldm_pdr_record)
    (tid entityType entityInstance containerId : Nat) :
    findEffecterIds repo tid entityType entityInstance containerId =
      (repo.filter (fun r => decide
          (EffecterEntityMatch entityType entityInstance containerId r))).flatMap
        (fun r =>
          List.replicate (pldm_state_effecter_pdr.mk r.data).composite_effecter_count
            (pldm_state_effecter_pdr.mk r.data).effecter_id) ∧
    (findEffecterIds repo tid entityType entityInstance containerId).length =
      ((repo.filter (fun r => decide
          (EffecterEntityMatch entityType entityInstance containerId r))).map
        (fun r => (pldm_state_effecter_pdr.mk r.data).composite_effecter_count)).sum := by
  have h := findEffecterIds_eq_flatMap repo tid entityType entityInstance containerId
  refine ⟨h, ?_⟩
  rw [h, length_flatMap_replicate]

/-! ## The state fields of `parseEffecterData` -/

theorem u8At_eq_getElem? (buf : List Nat) (i : Nat) (h : i < buf.length) :
    buf[i]? = some (u8At buf i) := by
  unfold u8At
  rw [List.getD_eq_getElem?_getD, List.getElem?_eq_getElem h]
  rfl

theorem parseEffecterData_loop_get (effecterData : List Nat) (n : Nat) :
    ∀ (i j : Nat), j < n →
      (parseEffecterData.loop effecterData n i)[j]? =
        some ⟨if u8At effecterData ((i + j) * 2) = PLDM_REQUEST_SET then PLDM_REQUEST_SET
            else PLDM_NO_CHANGE,
          u8At effecterData ((i + j) * 2 + 1)⟩ := by
  induction n with
  | zero => intro i j hj; exact absurd hj (Nat.not_lt_zero j)
  | succ n ih =>
    intro i j hj
    cases j with
    | zero => simp [parseEffecterData.loop]
    | succ j =>
      simp only [parseEffecterData.loop, List.getElem?_cons_succ]
      rw [ih (i + 1) j (Nat.lt_of_succ_lt_succ hj)]
      have h : i + 1 + j = i + (j + 1) := by omega
      rw [h]

theorem parseEffecterData_loop_set_request (effecterData : List Nat) (n : Nat) :
    ∀ (i : Nat), ∀ f ∈ parseEffecterData.loop effecterData n i,
      f.set_request = PLDM_REQUEST_SET ∨ f.set_request = PLDM_NO_CHANGE := by
  induction n with
  | zero => intro i f hf; simp [parseEffecterData.loop] at hf
  | succ n ih =>
    intro i f hf
    simp only [parseEffecterData.loop, List.mem_cons] at hf
    rcases hf with rfl | hf
    · by_cases h : u8At effecterData (i * 2) = PLDM_REQUEST_SET
      · left; simp [h]
      · right; simp [h]
    · exact ih (i + 1) f hf

/-- C24: for every effecterCount and every buffer of length 2 * effecterCount,
`parseEffecterData` returns a list whose i-th state field (i < effecterCount)
has effecter_state equal to byte 2i+1 of the buffer and set_request equal to
`PLDM_REQUEST_SET` when byte 2i equals `PLDM_REQUEST_SET` and `PLDM_NO_CHANGE`
for every other value of byte 2i; every returned set_request is one of those two
values, and for effecterCount = 0 with an empty buffer the result is a present,
empty list. -/
theorem parseEffecterData_fields (effecterData : List Nat) (effecterCount : Nat)
    (h : effecterData.length = 2 * effecterCount) :
    (∃ stateField, parseEffecterData effecterData effecterCount = some stateField ∧
      stateField.length = effecterCount ∧
      (∀ i, i < effecterCount → ∃ b0 b1,
        effecterData[2 * i]? = some b0 ∧ effecterData[2 * i + 1]? = some b1 ∧
        stateField[i]? = some ⟨if b0 = PLDM_REQUEST_SET then PLDM_REQUEST_SET
          else PLDM_NO_CHANGE, b1⟩) ∧
      (∀ f ∈ stateField,
        f.set_request = PLDM_REQUEST_SET ∨ f.set_request = PLDM_NO_CHANGE)) ∧
    parseEffecterData [] 0 = some [] := by
  constructor
  · have h2 : ¬ (effecterData.length ≠ effecterCount * 2) := by omega
    refine ⟨parseEffecterData.loop effecterData effecterCount 0,
      by rw [parseEffecterData, if_neg h2],
      parseEffecterData_loop_length effecterData effecterCount 0, ?_,
      parseEffecterData_loop_set_request effecterData effecterCount 0⟩
    intro i hi
    refine ⟨u8At effecterData (2 * i), u8At effecterData (2 * i + 1),
      u8At_eq_getElem? effecterData (2 * i) (by omega),
      u8At_eq_getElem? effecterData (2 * i + 1) (by omega), ?_⟩
    rw [parseEffecterData_loop_get effecterData effecterCount 0 i hi]
    have hm : (0 + i) * 2 = 2 * i := by omega
    rw [hm]
  · rfl

/-- C24 at a concrete buffer for effecterCount = 3: byte 0 is
`PLDM_REQUEST_SET`, byte 2 is 0 and byte 4 is 7 (neither is). -/
theorem parseEffecterData_fields_witness :
    parseEffecterData [1, 3, 0, 2, 7, 9] 3 = some [⟨1, 3⟩, ⟨0, 2⟩, ⟨0, 9⟩] ∧
    ((∃ stateField, parseEffecterData [1, 3, 0, 2, 7, 9] 3 = some stateField ∧
      stateField.length = 3 ∧
      (∀ i, i < 3 → ∃ b0 b1,
        [1, 3, 0, 2, 7, 9][2 * i]? = some b0 ∧ [1, 3, 0, 2, 7, 9][2 * i + 1]? = some b1 ∧
        stateField[i]? = some ⟨if b0 = PLDM_REQUEST_SET then PLDM_REQUEST_SET
          else PLDM_NO_CHANGE, b1⟩) ∧
      (∀ f ∈ stateField,
        f.set_request = PLDM_REQUEST_SET ∨ f.set_request = PLDM_NO_CHANGE)) ∧
    parseEffecterData [] 0 = some []) :=
  ⟨by decide, parseEffecterData_fields [1, 3, 0, 2, 7, 9] 3 (by decide)⟩

/-! ## `findStateSensorId` and the is-remote flag -/

theorem findStateSensorPDR_congr (tid entityID stateSetId : Nat)
    (repo1 repo2 : List pldm_pdr_record)
    (h : List.Forall₂ SameUpToRemoteFlag repo1 repo2) :
    findStateSensorPDR tid entityID stateSetId repo1 =
      findStateSensorPDR tid entityID stateSetId repo2 := by
  induction h with
  | nil => rfl
  | @cons a b as bs hab _ ih =>
    obtain ⟨ht, hd⟩ := hab
    simp only [findStateSensorPDR, ht, hd, ih]

/-- C25: `findStateSensorId` does not depend on any record's is-remote flag: on
two repositories that differ only in the is-remote flags of their records it
returns the same value for every query. `findStateEffecterId` does depend on
the flag: on `effecterLocal9` it finds effecter_id 9 with `localOrRemote` true,
and nothing on the same record marked remote. -/
theorem findStateSensorId_ignores_remote_flag (repo1 repo2 : List pldm_pdr_record)
    (tid entityType entityInstance containerId stateSetId : Nat)
    (h : List.Forall₂ SameUpToRemoteFlag repo1 repo2) :
    findStateSensorId repo1 tid entityType entityInstance containerId stateSetId =
        findStateSensorId repo2 tid entityType entityInstance containerId stateSetId ∧
    (List.Forall₂ SameUpToRemoteFlag [effecterLocal9]
        [⟨effecterLocal9.pdr_type, true, effecterLocal9.data⟩] ∧
      findStateEffecterId [effecterLocal9] 33 1 0 196 true ≠
        findStateEffecterId [⟨effecterLocal9.pdr_type, true, effecterLocal9.data⟩]
          33 1 0 196 true) := by
  refine ⟨?_, by decide, by decide⟩
  simp only [findStateSensorId,
    findStateSensorPDR_congr tid entityType stateSetId repo1 repo2 h]

/-- C25 at concrete repositories: the sensor PDRs `sensorRemote6` and
`sensorLocal3`, and the same records with the is-remote flags inverted. -/
theorem findStateSensorId_ignores_remote_flag_witness :
    findStateSensorId [sensorRemote6, sensorLocal3] 1 33 1 0 196 =
      findStateSensorId
        [⟨sensorRemote6.pdr_type, false, sensorRemote6.data⟩,
          ⟨sensorLocal3.pdr_type, true, sensorLocal3.data⟩] 1 33 1 0 196 :=
  (findStateSensorId_ignores_remote_flag [sensorRemote6, sensorLocal3]
    [⟨sensorRemote6.pdr_type, false, sensorRemote6.data⟩,
      ⟨sensorLocal3.pdr_type, true, sensorLocal3.data⟩] 1 33 1 0 196 (by decide)).1

/-! ## `uintToDate` -/

/-- C27: for every data with 19700101000000 <= data <= 29991231115959,
`uintToDate` returns true and the written fields recompose the input:
year * 10^10 + month * 10^8 + day * 10^6 + hour * 10^4 + min * 100 + sec = data,
each field being the untruncated quotient (year below 2^16, the others below
2^8); for every data outside that range it returns false and leaves the
outputs as they were. -/
theorem uintToDate_recomposes (data : Nat) (out : DateFields) :
    (19700101000000 ≤ data → data ≤ 29991231115959 →
      (uintToDate data out).1 = true ∧
      (uintToDate data out).2.year * 10 ^ 10 + (uintToDate data out).2.month * 10 ^ 8 +
        (uintToDate data out).2.day * 10 ^ 6 + (uintToDate data out).2.hour * 10 ^ 4 +
        (uintToDate data out).2.min * 100 + (uintToDate data out).2.sec = data ∧
      (uintToDate data out).2.year = data / 10 ^ 10 ∧
      (uintToDate data out).2.month = data % 10 ^ 10 / 10 ^ 8 ∧
      (uintToDate data out).2.day = data % 10 ^ 8 / 10 ^ 6 ∧
      (uintToDate data out).2.hour = data % 10 ^ 6 / 10 ^ 4 ∧
      (uintToDate data out).2.min = data % 10 ^ 4 / 100 ∧
      (uintToDate data out).2.sec = data % 100 ∧
      (uintToDate data out).2.year < 2 ^ 16 ∧ (uintToDate data out).2.month < 2 ^ 8 ∧
      (uintToDate data out).2.day < 2 ^ 8 ∧ (uintToDate data out).2.hour < 2 ^ 8 ∧
      (uintToDate data out).2.min < 2 ^ 8 ∧ (uintToDate data out).2.sec < 2 ^ 8) ∧
    ((data < 19700101000000 ∨ 29991231115959 < data) →
      uintToDate data out = (false, out)) := by
  constructor
  · intro hlo hhi
    have hr : ¬ (data < 19700101000000 ∨ data > 29991231115959) := by omega
    simp only [uintToDate, hr, if_false]
    refine ⟨trivial, ?_, ?_, ?_, ?_, ?_, ?_, ?_, ?_, ?_, ?_, ?_, ?_, ?_⟩ <;> omega
  · intro h
    have hr : data < 19700101000000 ∨ data > 29991231115959 := by omega
    simp only [uintToDate, hr, if_true]

/-- C27 at concrete inputs: 31 December 2021, 23:59:59, and a value above the
range, which leaves the outputs untouched. -/
theorem uintToDate_recomposes_witness :
    uintToDate 20211231235959 ⟨0, 0, 0, 0, 0, 0⟩ = (true, ⟨2021, 12, 31, 23, 59, 59⟩) ∧
    (uintToDate 20211231235959 ⟨0, 0, 0, 0, 0, 0⟩).2.year * 10 ^ 10 +
        (uintToDate 20211231235959 ⟨0, 0, 0, 0, 0, 0⟩).2.month * 10 ^ 8 +
        (uintToDate 20211231235959 ⟨0, 0, 0, 0, 0, 0⟩).2.day * 10 ^ 6 +
        (uintToDate 20211231235959 ⟨0, 0, 0, 0, 0, 0⟩).2.hour * 10 ^ 4 +
        (uintToDate 20211231235959 ⟨0, 0, 0, 0, 0, 0⟩).2.min * 100 +
        (uintToDate 20211231235959 ⟨0, 0, 0, 0, 0, 0⟩).2.sec = 20211231235959 ∧
    uintToDate 29991231115960 ⟨1, 2, 3, 4, 5, 6⟩ = (false, ⟨1, 2, 3, 4, 5, 6⟩) :=
  ⟨by decide,
    ((uintToDate_recomposes 20211231235959 ⟨0, 0, 0, 0, 0, 0⟩).1 (by decide)
      (by decide)).2.1,
    (uintToDate_recomposes 29991231115960 ⟨1, 2, 3, 4, 5, 6⟩).2 (by decide)⟩

/-! ## `getNumPadBytes` -/

/-- C28: `getNumPadBytes data` is the least pad such that data + pad is a
multiple of 4: the result is in {0, 1, 2, 3}, (data + result) mod 4 = 0, the
result is 0 exactly when data is a multiple of 4, and no smaller pad makes
data + pad a multiple of 4. -/
theorem getNumPadBytes_least (data : Nat) :
    getNumPadBytes data < 4 ∧ (data + getNumPadBytes data) % 4 = 0 ∧
    (getNumPadBytes data = 0 ↔ data % 4 = 0) ∧
    (∀ pad, (data + pad) % 4 = 0 → getNumPadBytes data ≤ pad) := by
  unfold getNumPadBytes
  by_cases h : data % 4 ≠ 0
  · rw [if_pos h]
    dsimp only
    refine ⟨by omega, by omega, by omega, fun pad hp => by omega⟩
  · rw [if_neg h]
    dsimp only
    refine ⟨by omega, by omega, by omega, fun pad hp => by omega⟩

/-- C28 at data = 4294967293, a 32-bit value: the pad is 3 and no smaller pad
will do. -/
theorem getNumPadBytes_least_witness :
    getNumPadBytes 4294967293 = 3 ∧ getNumPadBytes 4294967293 ≤ 7 :=
  ⟨by decide, (getNumPadBytes_least 4294967293).2.2.2 7 (by decide)⟩

end utils
end pldm

namespace pldm
namespace utils

/-! ## `split` -/

theorem firstNotOf_single_none (d : Char) (l : List Char) :
    firstNotOf [d] l = none → ∀ c ∈ l, c = d := by
  induction l with
  | nil => intro _ c hc; simp at hc
  | cons a l ih =>
    intro h c hc
    simp only [firstNotOf, List.contains_cons, List.contains_nil, Bool.or_false] at h
    by_cases ha : (a == d) = true
    · simp only [ha, if_true, Option.map_eq_none'] at h
      rcases List.mem_cons.mp hc with rfl | hc
      · exact beq_iff_eq.mp ha
      · exact ih h c hc
    · simp [ha] at h

theorem firstNotOf_single_some (d : Char) (l : List Char) :
    ∀ n, firstNotOf [d] l = some n →
      n < l.length ∧ (∀ c ∈ l.take n, c = d) ∧ ∃ c cs, l.drop n = c :: cs ∧ c ≠ d := by
  induction l with
  | nil => intro n h; simp [firstNotOf] at h
  | cons a l ih =>
    intro n h
    simp only [firstNotOf, List.contains_cons, List.contains_nil, Bool.or_false] at h
    by_cases ha : (a == d) = true
    · simp only [ha, if_true, Option.map_eq_some'] at h
      obtain ⟨k, hk, rfl⟩ := h
      obtain ⟨h1, h2, h3⟩ := ih k hk
      refine ⟨Nat.succ_lt_succ h1, ?_, h3⟩
      intro c hc
      simp only [List.take_succ_cons, List.mem_cons] at hc
      rcases hc with rfl | hc
      · exact beq_iff_eq.mp ha
      · exact h2 c hc
    · have hf : (a == d) = false := by simpa using ha
      simp only [hf, Bool.false_eq_true, if_false, Option.some.injEq] at h
      subst h
      refine ⟨Nat.succ_pos _, by simp, a, l, rfl, ?_⟩
      intro hEq
      exact ha (beq_iff_eq.mpr hEq)

theorem firstOccurrence_single_none (d : Char) (l : List Char) :
    firstOccurrence [d] l = none → d ∉ l := by
  induction l with
  | nil => intro _; simp
  | cons a l ih =>
    intro h
    simp only [firstOccurrence, List.isPrefixOf, List.isPrefixOf_nil_left, Bool.and_true] at h
    by_cases ha : (d == a) = true
    · simp [ha] at h
    · have hf : (d == a) = false := by simpa using ha
      simp only [hf, Bool.false_eq_true, if_false, Option.map_eq_none'] at h
      intro hm
      rcases List.mem_cons.mp hm with rfl | hm
      · simp at ha
      · exact ih h hm

theorem firstOccurrence_single_some (d : Char) (l : List Char) :
    ∀ m, firstOccurrence [d] l = some m →
      d ∉ l.take m ∧ ∃ rest, l.drop m = d :: rest := by
  induction l with
  | nil => intro m h; simp [firstOccurrence] at h
  | cons a l ih =>
    intro m h
    simp only [firstOccurrence, List.isPrefixOf, List.isPrefixOf_nil_left, Bool.and_true] at h
    by_cases ha : (d == a) = true
    · simp only [ha, if_true, Option.some.injEq] at h
      subst h
      have hda : d = a := beq_iff_eq.mp ha
      exact ⟨by simp, l, by simp [hda]⟩
    · have hf : (d == a) = false := by simpa using ha
      simp only [hf, Bool.false_eq_true, if_false, Option.map_eq_some'] at h
      obtain ⟨k, hk, rfl⟩ := h
      obtain ⟨h1, h2⟩ := ih k hk
      refine ⟨?_, h2⟩
      intro hm
      simp only [List.take_succ_cons, List.mem_cons] at hm
      rcases hm with rfl | hm
      · simp at ha
      · exact h1 hm

theorem delimitedRuns_of_not_mem (d : Char) (tok : List Char) (h : d ∉ tok) :
    delimitedRuns d tok = if tok = [] then [] else [tok] := by
  have hs : tok.splitOn d = [tok] := by
    unfold List.splitOn
    apply List.splitOnP_eq_single
    intro x hx hxd
    have : x = d := beq_iff_eq.mp hxd
    exact h (this ▸ hx)
  unfold delimitedRuns
  rw [hs]
  cases tok <;> simp

theorem delimitedRuns_append_cons (d : Char) (tok rest : List Char) (h : d ∉ tok) :
    delimitedRuns d (tok ++ d :: rest) =
      (if tok = [] then [] else [tok]) ++ delimitedRuns d rest := by
  have hs : (tok ++ d :: rest).splitOn d = tok :: rest.splitOn d := by
    unfold List.splitOn
    apply List.splitOnP_first
    · intro x hx hxd
      have : x = d := beq_iff_eq.mp hxd
      exact h (this ▸ hx)
    · simp
  unfold delimitedRuns
  rw [hs]
  cases tok <;> simp

theorem delimitedRuns_cons_self (d : Char) (rest : List Char) :
    delimitedRuns d (d :: rest) = delimitedRuns d rest := by
  have h := delimitedRuns_append_cons d [] rest (by simp)
  simpa using h

theorem delimitedRuns_all_delim (d : Char) (l : List Char) (h : ∀ c ∈ l, c = d) :
    delimitedRuns d l = [] := by
  induction l with
  | nil => rfl
  | cons a l ih =>
    have ha : a = d := h a (List.mem_cons_self a l)
    rw [ha, delimitedRuns_cons_self]
    exact ih (fun c hc => h c (List.mem_cons_of_mem a hc))

theorem delimitedRuns_drop (d : Char) (n : Nat) :
    ∀ (l : List Char), (∀ c ∈ l.take n, c = d) →
      delimitedRuns d l = delimitedRuns d (l.drop n) := by
  induction n with
  | zero => intro l _; rfl
  | succ n ih =>
    intro l h
    cases l with
    | nil => rfl
    | cons a l =>
      have ha : a = d := h a (by simp)
      rw [List.drop_succ_cons, ha, delimitedRuns_cons_self]
      apply ih
      intro c hc
      exact h c (by simp [hc])

/-- The loop of `split` for a one-character delimiter and no trimming, started
at position `e` with more fuel than characters left: it returns the runs of
the rest of the source. -/
theorem split_loop_single (d : Char) (s : List Char) (k : Nat) :
    ∀ (fuel e : Nat), (s.drop e).length ≤ k → e ≤ s.length → (s.drop e).length < fuel →
      split.loop s [d] [] fuel (some e) = some (delimitedRuns d (s.drop e)) := by
  induction k using Nat.strong_induction_on with
  | _ k ih =>
    intro fuel e hk he hfuel
    obtain ⟨f, rfl⟩ : ∃ f, fuel = f + 1 := ⟨fuel - 1, by omega⟩
    rw [split.loop]
    simp only [find_first_not_of]
    cases hfn : firstNotOf [d] (s.drop e) with
    | none =>
      simp only [Option.map_none']
      rw [delimitedRuns_all_delim d _ (firstNotOf_single_none d _ hfn)]
    | some n =>
      obtain ⟨hn, htake, c, cs, hdrop, hc⟩ := firstNotOf_single_some d _ n hfn
      have hdd : s.drop (n + e) = c :: cs := by
        rw [Nat.add_comm, ← List.drop_drop]; exact hdrop
      have hlen : (s.drop e).length = s.length - e := List.length_drop e s
      have hle : ¬ (n + e > s.length) := by omega
      have hruns : delimitedRuns d (s.drop e) = delimitedRuns d (c :: cs) := by
        rw [delimitedRuns_drop d n _ htake, hdrop]
      simp only [Option.map_some', find, hle, if_false, hdd, ne_eq, not_true_eq_false]
      rw [hruns]
      cases hfo : firstOccurrence [d] (c :: cs) with
      | none =>
        have hnot := firstOccurrence_single_none d _ hfo
        obtain ⟨g, rfl⟩ : ∃ g, f = g + 1 := ⟨f - 1, by omega⟩
        simp only [Option.map_none', split.loop]
        rw [delimitedRuns_of_not_mem d _ hnot]
        simp
      | some m =>
        obtain ⟨hnot, rest, hrest⟩ := firstOccurrence_single_some d _ m hfo
        simp only [Option.map_some']
        obtain ⟨j, rfl⟩ : ∃ j, m = j + 1 := by
          cases m with
          | zero =>
            simp only [List.drop_zero, List.cons.injEq] at hrest
            exact absurd hrest.1 hc
          | succ j => exact ⟨j, rfl⟩
        have htok : substr s (n + e) (j + 1 + (n + e) - (n + e)) = (c :: cs).take (j + 1) := by
          unfold substr
          rw [hdd, Nat.add_sub_cancel]
        have hnext : s.drop (j + 1 + (n + e)) = d :: rest := by
          rw [Nat.add_comm (j + 1), ← List.drop_drop, hdd]; exact hrest
        have hsplit : c :: cs = (c :: cs).take (j + 1) ++ d :: rest := by
          rw [← hrest, List.take_append_drop]
        have hl1 : (c :: cs).length = (s.drop e).length - n := by
          rw [← hdrop, List.length_drop]
        have hl2 : (d :: rest).length = (c :: cs).length - (j + 1) := by
          rw [← hrest, List.length_drop]
        have hl3 : (s.drop (j + 1 + (n + e))).length = s.length - (j + 1 + (n + e)) :=
          List.length_drop _ s
        have hl4 : (d :: rest).length = rest.length + 1 := rfl
        rw [hnext] at hl3
        have hrec := ih ((d :: rest).length) (by omega) f (j + 1 + (n + e))
          (by rw [hnext]) (by omega) (by rw [hnext]; omega)
        rw [hrec, hnext, delimitedRuns_cons_self, htok]
        have hne : ¬ ((c :: cs).take (j + 1) = []) := by simp
        simp only [hne, not_false_eq_true, if_true]
        conv => rhs; rw [hsplit]
        rw [delimitedRuns_append_cons d _ rest hnot, if_neg hne]
        rfl

theorem splitOn_not_mem (d : Char) (k : Nat) :
    ∀ (l : List Char), l.length ≤ k → ∀ t ∈ l.splitOn d, d ∉ t := by
  induction k using Nat.strong_induction_on with
  | _ k ih =>
    intro l hk t ht
    cases hfo : firstOccurrence [d] l with
    | none =>
      have hnot := firstOccurrence_single_none d l hfo
      have hs : l.splitOn d = [l] := by
        unfold List.splitOn
        apply List.splitOnP_eq_single
        intro x hx hxd
        have : x = d := beq_iff_eq.mp hxd
        exact hnot (this ▸ hx)
      rw [hs, List.mem_singleton] at ht
      rw [ht]; exact hnot
    | some m =>
      obtain ⟨hnot, rest, hrest⟩ := firstOccurrence_single_some d l m hfo
      have hsplit : l = l.take m ++ d :: rest := by
        rw [← hrest, List.take_append_drop]
      have hs : l.splitOn d = l.take m :: rest.splitOn d := by
        conv => lhs; rw [hsplit]
        unfold List.splitOn
        apply List.splitOnP_first
        · intro x hx hxd
          have : x = d := beq_iff_eq.mp hxd
          exact hnot (this ▸ hx)
        · simp
      have hlen : rest.length < l.length := by
        have h1 : (l.drop m).length = l.length - m := List.length_drop m l
        rw [hrest] at h1
        simp only [List.length_cons] at h1
        omega
      rw [hs] at ht
      rcases List.mem_cons.mp ht with rfl | ht
      · exact hnot
      · exact ih rest.length (by omega) rest (le_refl _) t ht

/-- C29: for every source string and every single-character delimiter, `split`
with an empty trimStr returns, in left-to-right order, exactly the maximal
non-empty runs of consecutive non-delimiter characters of the source, that is
the non-empty ones among the pieces into which the occurrences of the delimiter
cut the source (pieces that contain no delimiter and give back the source when
joined by the delimiter); no returned element is empty or contains the
delimiter, and a source made only of delimiters, or an empty source, yields an
empty list. -/
theorem split_single_delimiter (srcStr : List Char) (d : Char) :
    split srcStr [d] [] = some ((srcStr.splitOn d).filter (fun t => !t.isEmpty)) ∧
    ((∀ t ∈ srcStr.splitOn d, d ∉ t) ∧ [d].intercalate (srcStr.splitOn d) = srcStr) ∧
    (∀ out, split srcStr [d] [] = some out → ∀ t ∈ out, t ≠ [] ∧ d ∉ t) ∧
    ((∀ c ∈ srcStr, c = d) → split srcStr [d] [] = some []) := by
  have hsplit : split srcStr [d] [] = some (delimitedRuns d srcStr) := by
    have h := split_loop_single d srcStr srcStr.length (srcStr.length + 1) 0
      (by simp) (Nat.zero_le _) (by simp)
    simpa [split] using h
  have hmem := splitOn_not_mem d srcStr.length srcStr (le_refl _)
  refine ⟨hsplit, ⟨hmem, List.intercalate_splitOn srcStr d⟩, ?_, ?_⟩
  · intro out hout t ht
    rw [hsplit, Option.some.injEq] at hout
    rw [← hout] at ht
    unfold delimitedRuns at ht
    rw [List.mem_filter] at ht
    refine ⟨?_, hmem t ht.1⟩
    intro hnil
    rw [hnil] at ht
    simp at ht
  · intro hall
    rw [hsplit, delimitedRuns_all_delim d srcStr hall]

/-- C29 at concrete strings: " ab  c " gives "ab" and "c", and "  " gives
nothing. -/
theorem split_single_delimiter_witness :
    split [' ', 'a', 'b', ' ', ' ', 'c', ' '] [' '] [] = some [['a', 'b'], ['c']] ∧
    split [' ', ' '] [' '] [] = some [] :=
  ⟨(split_single_delimiter [' ', 'a', 'b', ' ', ' ', 'c', ' '] ' ').1.trans (by decide),
    (split_single_delimiter [' ', ' '] ' ').2.2.2 (by decide)⟩

end utils
end pldm

namespace pldm
namespace utils

/-! ## Corrupt records: traversals that stay inside the record -/

theorem u8At_append (buf trailing : List Nat) (i : Nat) (h : i < buf.length) :
    u8At (buf ++ trailing) i = u8At buf i := by
  unfold u8At
  exact List.getD_append buf trailing 0 i h

theorem u16At_append (buf trailing : List Nat) (i : Nat) (h : i + 1 < buf.length) :
    u16At (buf ++ trailing) i = u16At buf i := by
  unfold u16At
  rw [u8At_append buf trailing i (by omega), u8At_append buf trailing (i + 1) h]

/-- A loop that stays inside the buffer does not depend on what follows the
buffer. -/
theorem compositeLoop_append (buf trailing : List Nat) (cond : Nat → Bool) (count : Nat) :
    ∀ p, (∀ o ∈ compositeLoop.reads buf cond count p, o + 3 ≤ buf.length) →
      compositeLoop (buf ++ trailing) cond count p = compositeLoop buf cond count p := by
  induction count with
  | zero => intro p _; rfl
  | succ n ih =>
    intro p h
    have hp : p + 3 ≤ buf.length := h p (by simp [compositeLoop.reads])
    have hid : state_set_id (buf ++ trailing) p = state_set_id buf p :=
      u16At_append buf trailing p (by omega)
    have hsz : possible_states_size (buf ++ trailing) p = possible_states_size buf p :=
      u8At_append buf trailing (p + 2) (by omega)
    simp only [compositeLoop, hid, hsz]
    by_cases hc : cond (state_set_id buf p) = true
    · simp [hc]
    · have hf : cond (state_set_id buf p) = false := by simpa using hc
      simp only [hf, Bool.false_eq_true, if_false]
      apply ih
      intro o ho
      apply h
      simp only [compositeLoop.reads, hf, Bool.false_eq_true, if_false, List.mem_cons]
      exact Or.inr ho

theorem filter_map_insert {α β : Type} (p : α → Bool) (f : α → β) (pre post : List α)
    (x : α) :
    ((pre ++ x :: post).filter p).map f =
      (pre.filter p).map f ++ (if p x = true then [f x] else []) ++ (post.filter p).map f := by
  by_cases h : p x = true
  · simp [List.filter_append, List.filter_cons, h]
  · simp [List.filter_append, List.filter_cons, h]

theorem effecterStateSetMatch_withTrailing (entityID stateSetId : Nat)
    (r : pldm_pdr_record) (trailing : List Nat)
    (h : InsideEffecterPDR entityID stateSetId r) :
    EffecterStateSetMatch entityID stateSetId (withTrailing r trailing) ↔
      EffecterStateSetMatch entityID stateSetId r := by
  by_cases ht : r.pdr_type = PLDM_STATE_EFFECTER_PDR
  · obtain ⟨hstart, hreads⟩ := h ht
    have hlen : 25 ≤ r.data.length := hstart
    have he : (pldm_state_effecter_pdr.mk (r.data ++ trailing)).entity_type =
        (pldm_state_effecter_pdr.mk r.data).entity_type :=
      u16At_append r.data trailing 14 (by omega)
    have hn : (pldm_state_effecter_pdr.mk (r.data ++ trailing)).composite_effecter_count =
        (pldm_state_effecter_pdr.mk r.data).composite_effecter_count :=
      u8At_append r.data trailing 24 (by omega)
    have hl := compositeLoop_append r.data trailing _ _ _ hreads
    have h1 := compositeLoop_stateSet_iff (r.data ++ trailing)
      ((pldm_state_effecter_pdr.mk r.data).entity_type == entityID)
      (pldm_state_effecter_pdr.mk r.data).composite_effecter_count
      (pldm_state_effecter_pdr.mk r.data).possible_states stateSetId
    have h2 := compositeLoop_stateSet_iff r.data
      ((pldm_state_effecter_pdr.mk r.data).entity_type == entityID)
      (pldm_state_effecter_pdr.mk r.data).composite_effecter_count
      (pldm_state_effecter_pdr.mk r.data).possible_states stateSetId
    rw [hl, h2] at h1
    simp only [beq_iff_eq] at h1
    unfold EffecterStateSetMatch withTrailing
    simp only [he, hn]
    constructor
    · rintro ⟨_, hE, hS⟩
      exact ⟨ht, hE, (h1.mpr ⟨hE, hS⟩).2⟩
    · rintro ⟨_, hE, hS⟩
      exact ⟨ht, hE, (h1.mp ⟨hE, hS⟩).2⟩
  · unfold EffecterStateSetMatch withTrailing
    simp [ht]

theorem sensorStateSetMatch_withTrailing (entityID stateSetId : Nat)
    (r : pldm_pdr_record) (trailing : List Nat)
    (h : InsideSensorPDR entityID stateSetId r) :
    SensorStateSetMatch entityID stateSetId (withTrailing r trailing) ↔
      SensorStateSetMatch entityID stateSetId r := by
  by_cases ht : r.pdr_type = PLDM_STATE_SENSOR_PDR
  · obtain ⟨hstart, hreads⟩ := h ht
    have hlen : 23 ≤ r.data.length := hstart
    have he : (pldm_state_sensor_pdr.mk (r.data ++ trailing)).entity_type =
        (pldm_state_sensor_pdr.mk r.data).entity_type :=
      u16At_append r.data trailing 14 (by omega)
    have hn : (pldm_state_sensor_pdr.mk (r.data ++ trailing)).composite_sensor_count =
        (pldm_state_sensor_pdr.mk r.data).composite_sensor_count :=
      u8At_append r.data trailing 22 (by omega)
    have hl := compositeLoop_append r.data trailing _ _ _ hreads
    have h1 := compositeLoop_stateSet_iff (r.data ++ trailing)
      ((pldm_state_sensor_pdr.mk r.data).entity_type == entityID)
      (pldm_state_sensor_pdr.mk r.data).composite_sensor_count
      (pldm_state_sensor_pdr.mk r.data).possible_states stateSetId
    have h2 := compositeLoop_stateSet_iff r.data
      ((pldm_state_sensor_pdr.mk r.data).entity_type == entityID)
      (pldm_state_sensor_pdr.mk r.data).composite_sensor_count
      (pldm_state_sensor_pdr.mk r.data).possible_states stateSetId
    rw [hl, h2] at h1
    simp only [beq_iff_eq] at h1
    unfold SensorStateSetMatch withTrailing
    simp only [he, hn]
    constructor
    · rintro ⟨_, hE, hS⟩
      exact ⟨ht, hE, (h1.mpr ⟨hE, hS⟩).2⟩
    · rintro ⟨_, hE, hS⟩
      exact ⟨ht, hE, (h1.mp ⟨hE, hS⟩).2⟩
  · unfold SensorStateSetMatch withTrailing
    simp [ht]

theorem effecterKeyMatch_withTrailing (entityType entityInstance containerId stateSetId : Nat)
    (localOrRemote : Bool) (r : pldm_pdr_record) (trailing : List Nat)
    (h : InsideEffecterId entityType entityInstance containerId stateSetId localOrRemote r) :
    (Admitted localOrRemote (withTrailing r trailing) ∧
        EffecterKeyMatch entityType entityInstance containerId stateSetId
          (withTrailing r trailing)) ↔
      (Admitted localOrRemote r ∧
        EffecterKeyMatch entityType entityInstance containerId stateSetId r) := by
  have hadm : Admitted localOrRemote (withTrailing r trailing) ↔ Admitted localOrRemote r :=
    Iff.rfl
  by_cases ht : r.pdr_type = PLDM_STATE_EFFECTER_PDR
  · by_cases ha : Admitted localOrRemote r
    · obtain ⟨hstart, hreads⟩ := h ht ha
      have hlen : 25 ≤ r.data.length := hstart
      have he : (pldm_state_effecter_pdr.mk (r.data ++ trailing)).entity_type =
          (pldm_state_effecter_pdr.mk r.data).entity_type :=
        u16At_append r.data trailing 14 (by omega)
      have hi : (pldm_state_effecter_pdr.mk (r.data ++ trailing)).entity_instance =
          (pldm_state_effecter_pdr.mk r.data).entity_instance :=
        u16At_append r.data trailing 16 (by omega)
      have hc : (pldm_state_effecter_pdr.mk (r.data ++ trailing)).container_id =
          (pldm_state_effecter_pdr.mk r.data).container_id :=
        u16At_append r.data trailing 18 (by omega)
      have hn : (pldm_state_effecter_pdr.mk (r.data ++ trailing)).composite_effecter_count =
          (pldm_state_effecter_pdr.mk r.data).composite_effecter_count :=
        u8At_append r.data trailing 24 (by omega)
      have hl := compositeLoop_append r.data trailing _ _ _ hreads
      have h1 := compositeLoop_query_iff (r.data ++ trailing)
        (entityType == (pldm_state_effecter_pdr.mk r.data).entity_type &&
          entityInstance == (pldm_state_effecter_pdr.mk r.data).entity_instance &&
          containerId == (pldm_state_effecter_pdr.mk r.data).container_id)
        (pldm_state_effecter_pdr.mk r.data).composite_effecter_count
        (pldm_state_effecter_pdr.mk r.data).possible_states stateSetId
      have h2 := compositeLoop_query_iff r.data
        (entityType == (pldm_state_effecter_pdr.mk r.data).entity_type &&
          entityInstance == (pldm_state_effecter_pdr.mk r.data).entity_instance &&
          containerId == (pldm_state_effecter_pdr.mk r.data).container_id)
        (pldm_state_effecter_pdr.mk r.data).composite_effecter_count
        (pldm_state_effecter_pdr.mk r.data).possible_states stateSetId
      rw [hl, h2] at h1
      simp only [Bool.and_eq_true, beq_iff_eq] at h1
      rw [hadm]
      unfold EffecterKeyMatch EffecterEntityMatch withTrailing
      simp only [he, hi, hc, hn]
      constructor
      · rintro ⟨_, ⟨_, hE, hI, hC⟩, hS⟩
        exact ⟨ha, ⟨ht, hE, hI, hC⟩, (h1.mpr ⟨⟨⟨hE.symm, hI.symm⟩, hC.symm⟩, hS⟩).2⟩
      · rintro ⟨_, ⟨_, hE, hI, hC⟩, hS⟩
        exact ⟨ha, ⟨ht, hE, hI, hC⟩, (h1.mp ⟨⟨⟨hE.symm, hI.symm⟩, hC.symm⟩, hS⟩).2⟩
    · rw [hadm]
      simp [ha]
  · unfold EffecterKeyMatch EffecterEntityMatch withTrailing
    simp [ht]

theorem effecterTypeMatch_withTrailing (entityType : Nat) (r : pldm_pdr_record)
    (trailing : List Nat) (h : InsideEffecterPDRsByType entityType r) :
    (EffecterTypeMatch entityType (withTrailing r trailing) ∧
        0 < (pldm_state_effecter_pdr.mk (withTrailing r trailing).data).composite_effecter_count) ↔
      (EffecterTypeMatch entityType r ∧
        0 < (pldm_state_effecter_pdr.mk r.data).composite_effecter_count) := by
  by_cases ht : r.pdr_type = PLDM_STATE_EFFECTER_PDR
  · obtain ⟨hstart, _⟩ := h ht
    have hlen : 25 ≤ r.data.length := hstart
    have he : (pldm_state_effecter_pdr.mk (r.data ++ trailing)).entity_type =
        (pldm_state_effecter_pdr.mk r.data).entity_type :=
      u16At_append r.data trailing 14 (by omega)
    have hn : (pldm_state_effecter_pdr.mk (r.data ++ trailing)).composite_effecter_count =
        (pldm_state_effecter_pdr.mk r.data).composite_effecter_count :=
      u8At_append r.data trailing 24 (by omega)
    unfold EffecterTypeMatch withTrailing
    simp only [he, hn]
  · unfold EffecterTypeMatch withTrailing
    simp [ht]

theorem sensorTypeMatch_withTrailing (entityType : Nat) (r : pldm_pdr_record)
    (trailing : List Nat) (h : InsideSensorPDRsByType entityType r) :
    (SensorTypeMatch entityType (withTrailing r trailing) ∧
        0 < (pldm_state_sensor_pdr.mk (withTrailing r trailing).data).composite_sensor_count) ↔
      (SensorTypeMatch entityType r ∧
        0 < (pldm_state_sensor_pdr.mk r.data).composite_sensor_count) := by
  by_cases ht : r.pdr_type = PLDM_STATE_SENSOR_PDR
  · obtain ⟨hstart, _⟩ := h ht
    have hlen : 23 ≤ r.data.length := hstart
    have he : (pldm_state_sensor_pdr.mk (r.data ++ trailing)).entity_type =
        (pldm_state_sensor_pdr.mk r.data).entity_type :=
      u16At_append r.data trailing 14 (by omega)
    have hn : (pldm_state_sensor_pdr.mk (r.data ++ trailing)).composite_sensor_count =
        (pldm_state_sensor_pdr.mk r.data).composite_sensor_count :=
      u8At_append r.data trailing 22 (by omega)
    unfold SensorTypeMatch withTrailing
    simp only [he, hn]
  · unfold SensorTypeMatch withTrailing
    simp [ht]

theorem findStateEffecterId_insert (pre post : List pldm_pdr_record)
    (x r : pldm_pdr_record)
    (entityType entityInstance containerId stateSetId : Nat) (localOrRemote : Bool)
    (hx : (Admitted localOrRemote x ∧
        EffecterKeyMatch entityType entityInstance containerId stateSetId x) ↔
      (Admitted localOrRemote r ∧
        EffecterKeyMatch entityType entityInstance containerId stateSetId r))
    (hid : (Admitted localOrRemote r ∧
        EffecterKeyMatch entityType entityInstance containerId stateSetId r) →
      (pldm_state_effecter_pdr.mk x.data).effecter_id =
        (pldm_state_effecter_pdr.mk r.data).effecter_id) :
    findStateEffecterId (pre ++ x :: post) entityType entityInstance containerId stateSetId
        localOrRemote =
      if ∃ y ∈ pre, Admitted localOrRemote y ∧
          EffecterKeyMatch entityType entityInstance containerId stateSetId y then
        findStateEffecterId pre entityType entityInstance containerId stateSetId localOrRemote
      else if Admitted localOrRemote r ∧
          EffecterKeyMatch entityType entityInstance containerId stateSetId r then
        (pldm_state_effecter_pdr.mk r.data).effecter_id
      else
        findStateEffecterId post entityType entityInstance containerId stateSetId
          localOrRemote := by
  induction pre with
  | nil =>
    simp only [List.nil_append, List.not_mem_nil, false_and, exists_false, if_false]
    by_cases hr : Admitted localOrRemote r ∧
        EffecterKeyMatch entityType entityInstance containerId stateSetId r
    · rw [if_pos hr, findStateEffecterId_cons_hit x post _ _ _ _ _ (hx.mpr hr).1 (hx.mpr hr).2,
        hid hr]
    · rw [if_neg hr, findStateEffecterId_cons_skip x post _ _ _ _ _ (fun h => hr (hx.mp h))]
  | cons y ys ih =>
    by_cases hy : Admitted localOrRemote y ∧
        EffecterKeyMatch entityType entityInstance containerId stateSetId y
    · rw [List.cons_append, findStateEffecterId_cons_hit y _ _ _ _ _ _ hy.1 hy.2,
        if_pos ⟨y, List.mem_cons_self y ys, hy⟩,
        findStateEffecterId_cons_hit y _ _ _ _ _ _ hy.1 hy.2]
    · rw [List.cons_append, findStateEffecterId_cons_skip y _ _ _ _ _ _ hy, ih,
        findStateEffecterId_cons_skip y _ _ _ _ _ _ hy]
      have hex : (∃ z ∈ y :: ys, Admitted localOrRemote z ∧
            EffecterKeyMatch entityType entityInstance containerId stateSetId z) ↔
          (∃ z ∈ ys, Admitted localOrRemote z ∧
            EffecterKeyMatch entityType entityInstance containerId stateSetId z) := by
        constructor
        · rintro ⟨z, hz, hP⟩
          rcases List.mem_cons.mp hz with rfl | hz
          · exact absurd hP hy
          · exact ⟨z, hz, hP⟩
        · rintro ⟨z, hz, hP⟩
          exact ⟨z, List.mem_cons_of_mem y hz, hP⟩
      simp only [hex]

/-- The loop stays below `L` exactly when every entry it reaches, the entries up
to and including the first one that satisfies the condition, has its
state_set_id and size below `L`. -/
theorem compositeLoop_reads_inside_iff (buf : List Nat) (cond : Nat → Bool) (L count : Nat) :
    ∀ p, (∀ o ∈ compositeLoop.reads buf cond count p, o + 3 ≤ L) ↔
      ∀ k, k < count →
        (∀ j, j < k → cond (state_set_id buf (entryOffset buf p j)) = false) →
        entryOffset buf p k + 3 ≤ L := by
  induction count with
  | zero => intro p; simp [compositeLoop.reads]
  | succ n ih =>
    intro p
    constructor
    · intro h k hk hj
      cases k with
      | zero => exact h p (by simp [compositeLoop.reads])
      | succ k =>
        have h0 : cond (state_set_id buf p) = false := hj 0 (Nat.succ_pos k)
        rw [entryOffset_succ_start]
        refine (ih _).mp ?_ k (Nat.lt_of_succ_lt_succ hk) ?_
        · intro o ho
          apply h
          simp only [compositeLoop.reads, h0, Bool.false_eq_true, if_false, List.mem_cons]
          exact Or.inr ho
        · intro j hjk
          have hj1 := hj (j + 1) (Nat.succ_lt_succ hjk)
          rwa [entryOffset_succ_start] at hj1
    · intro h o ho
      simp only [compositeLoop.reads, List.mem_cons] at ho
      rcases ho with ho | ho
      · rw [ho]
        exact h 0 (Nat.succ_pos n) (fun j hj => absurd hj (Nat.not_lt_zero j))
      · by_cases hc : cond (state_set_id buf p) = true
        · simp [hc] at ho
        · have hf : cond (state_set_id buf p) = false := by simpa using hc
          simp only [hf, Bool.false_eq_true, if_false] at ho
          refine (ih _).mpr ?_ o ho
          intro k hk hj
          have hk1 := h (k + 1) (Nat.succ_lt_succ hk) (fun j hjk => by
            cases j with
            | zero => exact hf
            | succ i =>
              rw [entryOffset_succ_start]
              exact hj i (Nat.lt_of_succ_lt_succ hjk))
          rwa [entryOffset_succ_start] at hk1

theorem filter_map_insert_match {α β : Type} (p : α → Bool) (f : α → β)
    (pre post : List α) (x : α) (h : p x = true) :
    ((pre ++ x :: post).filter p).map f =
      (pre.filter p).map f ++ f x :: (post.filter p).map f := by
  rw [filter_map_insert, if_pos h]
  simp

/-- Looking for state set 77 in `effecterCorrupt2`, the loop of
`findStateEffecterPDR` passes the first entry at offset 25 and visits the
declared second entry at offset 29, the first offset after the 29 bytes of the
record: this traversal does not stay inside the record. -/
theorem findStateEffecterPDR_leaves_corrupt_record :
    effecterCorrupt2.data.length = 29 ∧
    compositeLoop.reads effecterCorrupt2.data
      (fun setId => (pldm_state_effecter_pdr.mk effecterCorrupt2.data).entity_type == 33 &&
        setId == 77)
      (pldm_state_effecter_pdr.mk effecterCorrupt2.data).composite_effecter_count
      (pldm_state_effecter_pdr.mk effecterCorrupt2.data).possible_states = [25, 29] ∧
    ¬ InsideEffecterPDR 33 77 effecterCorrupt2 := by
  decide

end utils
end pldm
